import Mathlib

/-!
# TrabFCG: the scene / camera / collision update loop of `src/src/main.cpp`

Shallow embedding of the per-frame update code of the space scene viewer.

Conventions of the embedding

* The C++ `float` and `double` values are modelled as exact numbers of a
  linearly ordered field `F`; rounding, overflow and NaN are not modelled.
  The definitions are generic in `F` and computable.
* The square root used by `norm`, `normalize` and `distanceBetweenPoints`
  is a parameter `sqrt : F → F` of every definition that needs it.  Theorems
  that depend on what the square root computes are stated for `F = ℝ` and
  `Real.sqrt`; the others hold for every `F` and every `sqrt`.
* A `glm::vec4` is modelled by its first three coordinates.  The fourth
  coordinate is `1` for points and `0` for vectors throughout the modelled code
  and takes no part in any of the modelled computations.
* The global variables of `main.cpp` are fields of explicit state records that
  are passed to and returned from the modelled code.
-/

namespace TrabFCG

/-- The `x`, `y`, `z` coordinates of a `glm::vec4` / `glm::vec3`. -/
@[ext]
structure Vec3 (F : Type) where
  x : F
  y : F
  z : F

section Geometry

variable {F : Type} [LinearOrderedField F]

/-- Coordinate-wise sum, the `operator+` of `glm`. -/
def vadd (u v : Vec3 F) : Vec3 F := ⟨u.x + v.x, u.y + v.y, u.z + v.z⟩

/-- Coordinate-wise difference, the `operator-` of `glm`. -/
def vsub (u v : Vec3 F) : Vec3 F := ⟨u.x - v.x, u.y - v.y, u.z - v.z⟩

/-- Product of a scalar and a vector, the scalar `operator*` of `glm`. -/
def vscale (k : F) (v : Vec3 F) : Vec3 F := ⟨k * v.x, k * v.y, k * v.z⟩

/-- Unary minus of `glm`. -/
def vneg (v : Vec3 F) : Vec3 F := ⟨-v.x, -v.y, -v.z⟩

/-- Modelled from the spec: `norm` of `matrices.h` (the header is not part of
the sources at hand), the Euclidean length of a vector. -/
def norm (sqrt : F → F) (v : Vec3 F) : F := sqrt (v.x * v.x + v.y * v.y + v.z * v.z)

/-- Modelled from the spec: `normalize`, which is not defined in the sources at
hand; the vector divided by its Euclidean length.  For the zero vector the C++
code divides by zero; the value of the model there (the zero vector) carries no
meaning, and the theorems that depend on `normalize` exclude that input. -/
def normalize (sqrt : F → F) (v : Vec3 F) : Vec3 F :=
  ⟨v.x / norm sqrt v, v.y / norm sqrt v, v.z / norm sqrt v⟩

/-- Modelled from the spec: `distanceBetweenPoints`, which is not defined in the
sources at hand; the Euclidean distance of two points. -/
def distanceBetweenPoints (sqrt : F → F) (p q : Vec3 F) : F := norm sqrt (vsub q p)

/-- Modelled from the spec: `Matrix_Translate(t) * Matrix_Scale(s) * vec4(b, 1)`,
the matrix builders being those of `matrices.h`: the point `b` scaled per axis
by `s` and then translated by `t`. -/
def translateScale (t s b : Vec3 F) : Vec3 F :=
  ⟨t.x + s.x * b.x, t.y + s.y * b.y, t.z + s.z * b.z⟩

/-- The global `EPSILON = 0.000000000001f`. -/
def EPSILON : F := 1 / 1000000000000

end Geometry

/-- The bounding box fields of a `SceneObject`. -/
structure SceneObject (F : Type) where
  bbox_min : Vec3 F
  bbox_max : Vec3 F

/-- The globals read by `checkIntersection` and `bulletCollision`: the entries
`"sphere"` and `"asteroid"` of `g_VirtualScene`, `g_AsteroidVisible` and the
three `g_BezierDisplacement` coordinates. -/
structure World (F : Type) where
  sphere : SceneObject F
  asteroid : SceneObject F
  g_AsteroidVisible : Fin 5 → Bool
  g_BezierDisplacement : Vec3 F

section Collision

variable {F : Type} [LinearOrderedField F]

/-- The constant table `g_AsteroidPos`. -/
def g_AsteroidPos : Fin 5 → Vec3 F :=
  ![⟨-100, 100, 0⟩, ⟨-35, -50, -240⟩, ⟨225, 0, 180⟩, ⟨43, 89, -25⟩, ⟨-130, -150, 230⟩]

/-- One axis of the skybox test of `checkIntersection`: the two consecutive
`if` statements on one coordinate. -/
def clampAxis (c : F) : F :=
  let c1 := if c > 250 then 240 else c
  if c1 < -250 then -240 else c1

/-- The skybox part of `checkIntersection` (the six `if` statements). -/
def skyboxClamp (p : Vec3 F) : Vec3 F := ⟨clampAxis p.x, clampAxis p.y, clampAxis p.z⟩

/-- The collision centre of a planet as `checkIntersection` computes it:
`radius * bbox_min + radius * bbox_max` of the sphere mesh, moved by the
planet's offset. -/
def planetCenter (radius : F) (sphere : SceneObject F) (offset : Vec3 F) : Vec3 F :=
  vadd (vadd (vscale radius sphere.bbox_min) (vscale radius sphere.bbox_max)) offset

/-- One planet block of `checkIntersection`: test the distance to the centre
against the radius and push the camera away from the centre. -/
def pushPlanet (sqrt : F → F) (center : Vec3 F) (radius push : F) (p : Vec3 F) : Vec3 F :=
  if distanceBetweenPoints sqrt p center - radius < EPSILON then
    vadd p (vscale push (normalize sqrt (vsub p center)))
  else p

/-- The centre of the big planet: radius 200, moved 250 down the y axis. -/
def bbox_centerBigPlanet (w : World F) : Vec3 F := planetCenter 200 w.sphere ⟨0, -250, 0⟩

/-- The centre of the small planet: radius 10, moved to x = -245, y = 170. -/
def bbox_centerSmallPlanet (w : World F) : Vec3 F := planetCenter 10 w.sphere ⟨-245, 170, 0⟩

/-- The block "Planeta 1" of `checkIntersection`. -/
def pushBigPlanet (sqrt : F → F) (w : World F) (p : Vec3 F) : Vec3 F :=
  pushPlanet sqrt (bbox_centerBigPlanet w) 200 10 p

/-- The block "Planeta 2" of `checkIntersection`. -/
def pushSmallPlanet (sqrt : F → F) (w : World F) (p : Vec3 F) : Vec3 F :=
  pushPlanet sqrt (bbox_centerSmallPlanet w) 10 3 p

/-- The scale passed to `Matrix_Scale` in the block of each asteroid in
`checkIntersection` and in `bulletCollision`. -/
def collisionScale : Fin 5 → Vec3 F :=
  ![⟨30, 30, 30⟩, ⟨30, 30, 30⟩, ⟨35, 20, 35⟩, ⟨20, 20, 20⟩, ⟨25, 25, 25⟩]

/-- The argument of `Matrix_Translate` in the block of each asteroid: the
asteroid's position, plus the Bezier displacement for asteroid 0. -/
def collisionTranslation (w : World F) (i : Fin 5) : Vec3 F :=
  if i = 0 then vadd (g_AsteroidPos 0) w.g_BezierDisplacement else g_AsteroidPos i

/-- The transformed minimum corner of asteroid `i` (`bbox_minFirstAsteroid`, ...). -/
def asteroidBoxMin (w : World F) (i : Fin 5) : Vec3 F :=
  translateScale (collisionTranslation w i) (collisionScale i) w.asteroid.bbox_min

/-- The transformed maximum corner of asteroid `i` (`bbox_maxFirstAsteroid`, ...). -/
def asteroidBoxMax (w : World F) (i : Fin 5) : Vec3 F :=
  translateScale (collisionTranslation w i) (collisionScale i) w.asteroid.bbox_max

/-- The six comparisons of the point-in-box test. -/
def insideBox (lo hi p : Vec3 F) : Prop :=
  p.x ≥ lo.x ∧ p.x ≤ hi.x ∧ p.y ≥ lo.y ∧ p.y ≤ hi.y ∧ p.z ≥ lo.z ∧ p.z ≤ hi.z

instance (lo hi p : Vec3 F) : Decidable (insideBox lo hi p) := by
  unfold insideBox; infer_instance

/-- The centre of a box (`bbox_centerFirstAsteroid`, ...). -/
def boxCenter (lo hi : Vec3 F) : Vec3 F :=
  ⟨(lo.x + hi.x) / 2, (lo.y + hi.y) / 2, (lo.z + hi.z) / 2⟩

/-- One asteroid block of `checkIntersection`. -/
def pushAsteroid (sqrt : F → F) (w : World F) (i : Fin 5) (p : Vec3 F) : Vec3 F :=
  if w.g_AsteroidVisible i = true then
    if insideBox (asteroidBoxMin w i) (asteroidBoxMax w i) p then
      vadd p (vscale 10 (normalize sqrt
        (vsub p (boxCenter (asteroidBoxMin w i) (asteroidBoxMax w i)))))
    else p
  else p

/-- The function `checkIntersection`: skybox, the two planets, then the five
asteroids in index order, each block reading the position left by the one
before it. -/
def checkIntersection (sqrt : F → F) (w : World F) (cameraPosition : Vec3 F) : Vec3 F :=
  pushAsteroid sqrt w 4 (pushAsteroid sqrt w 3 (pushAsteroid sqrt w 2
    (pushAsteroid sqrt w 1 (pushAsteroid sqrt w 0
      (pushSmallPlanet sqrt w (pushBigPlanet sqrt w (skyboxClamp cameraPosition)))))))

end Collision

section TargetLock

variable {F : Type} [LinearOrderedField F]

/-- The globals written by the target-lock branch of the orientation update. -/
structure LockState (F : Type) where
  g_MiddleMouseButtonToggled : Bool
  g_TargetLocked : Bool
  g_ClosestAsteroid : Int
  g_CameraLookAt : Vec3 F

/-- The array subscript `g_AsteroidPos[c]` for an `int` index.  Every read of
the modelled code happens with `c` in `0..4`. -/
def asteroidIndex (c : Int) : Fin 5 := ⟨c.toNat % 5, Nat.mod_lt _ (by decide)⟩

/-- The body of the loop `for (i = 1; i <= 4; i++)` of the closest-asteroid
scan, on the pair (`g_ClosestAsteroid`, `distanceClosest`). -/
def scanStep (sqrt : F → F) (cameraPosition : Vec3 F) (visible : Fin 5 → Bool)
    (st : Int × F) (i : Fin 5) : Int × F :=
  let distanceToAsteroid := distanceBetweenPoints sqrt cameraPosition (g_AsteroidPos i)
  if distanceToAsteroid ≤ st.2 ∧ visible i = true then ((i.val : Int), distanceToAsteroid)
  else st

/-- The closest-asteroid scan of the target-lock entry: the final values of
`g_ClosestAsteroid` and `distanceClosest`. -/
def closestAsteroidScan (sqrt : F → F) (cameraPosition : Vec3 F) (visible : Fin 5 → Bool) :
    Int × F :=
  let distanceToAsteroid := distanceBetweenPoints sqrt cameraPosition (g_AsteroidPos 0)
  let distanceClosest := distanceToAsteroid
  let g_ClosestAsteroid : Int := if visible 0 = true then 0 else -1
  [1, 2, 3, 4].foldl (scanStep sqrt cameraPosition visible) (g_ClosestAsteroid, distanceClosest)

/-- The branch `if(!g_TargetLocked)` of the orientation update with the
target-lock toggle active: scan, then lock on the asteroid found or clear the
toggle. -/
def targetLockEntry (sqrt : F → F) (cameraPosition : Vec3 F) (visible : Fin 5 → Bool)
    (s : LockState F) : LockState F :=
  let closest := (closestAsteroidScan sqrt cameraPosition visible).1
  if closest > -1 then
    { s with g_ClosestAsteroid := closest
             g_CameraLookAt := g_AsteroidPos (asteroidIndex closest)
             g_TargetLocked := true }
  else
    { s with g_ClosestAsteroid := closest
             g_MiddleMouseButtonToggled := false }

end TargetLock

section Bezier

variable {F : Type} [LinearOrderedField F]

/-- The globals of the Bezier direction state machine. -/
structure BezierState (F : Type) where
  g_BezierOrientation : Int
  g_TimePassed : F

/-- The direction state machine of the animator of asteroid 0 (the four `if`
statements before the evaluation of the curve).  `now1` .. `now4` are the values
returned by the four calls of `glfwGetTime()` in program order, and `junk` is
the indeterminate initial value of the local variable `time`.  The result is
the new state and the value of `time` at which the curve is evaluated. -/
def bezierStep (junk now1 now2 now3 now4 : F) (s : BezierState F) : BezierState F × F :=
  let tmp := now1 / 25 - s.g_TimePassed
  let time := if s.g_BezierOrientation = 1 then tmp else junk
  let flip := time ≥ 1 ∧ s.g_BezierOrientation = 1
  let s1 : BezierState F := if flip then ⟨0, now2 / 25⟩ else s
  let tmp1 := if flip then now3 / 25 - s1.g_TimePassed else tmp
  let time1 := if s1.g_BezierOrientation = 0 then 1 - tmp1 else time
  let s2 : BezierState F :=
    if time1 ≤ 0 ∧ s1.g_BezierOrientation = 0 then ⟨1, now4 / 25⟩ else s1
  (s2, time1)

/-- One animator tick in which every call of `glfwGetTime()` returns `now`. -/
def bezierTick (junk now : F) (s : BezierState F) : BezierState F × F :=
  bezierStep junk now now now now s

/-- The values of `time` over a sequence of animator ticks, one clock value per
tick, asteroid 0 being visible on each of them. -/
def bezierTimes (junk : F) : List F → BezierState F → List F
  | [], _ => []
  | now :: rest, s =>
      (bezierTick junk now s).2 :: bezierTimes junk rest (bezierTick junk now s).1

/-- The initial values `g_BezierOrientation = 1`, `g_TimePassed = 0.0`. -/
def bezierInit : BezierState F := ⟨1, 0⟩

end Bezier

section Projectile

variable {F : Type} [LinearOrderedField F]

/-- The globals of the projectile. -/
structure Bullet (F : Type) where
  g_BulletVisible : Bool
  g_BulletOrigin : Vec3 F
  g_BulletPosition : Vec3 F
  g_BulletDirection : Vec3 F
  g_BulletDistance : F

/-- The camera globals read by the projectile code. -/
structure Camera (F : Type) where
  g_CameraPosition : Vec3 F
  g_CameraViewVector : Vec3 F
  g_CameraUpVector : Vec3 F

/-- The local constant `cameraSpeed = 0.05f`. -/
def cameraSpeed : F := 5 / 100

/-- The local `downVector = normalize(-g_CameraUpVector)`. -/
def downVector (sqrt : F → F) (cam : Camera F) : Vec3 F := normalize sqrt (vneg cam.g_CameraUpVector)

/-- The spawn block: `if(g_LeftMouseButtonPressed == true && g_BulletVisible == false)`. -/
def spawnBullet (sqrt : F → F) (g_LeftMouseButtonPressed : Bool) (cam : Camera F)
    (b : Bullet F) : Bullet F :=
  if g_LeftMouseButtonPressed = true ∧ b.g_BulletVisible = false then
    let origin := vadd (vadd cam.g_CameraPosition (vscale 3 cam.g_CameraViewVector))
      (vscale (7 / 10) (downVector sqrt cam))
    { g_BulletVisible := true
      g_BulletOrigin := origin
      g_BulletPosition := origin
      g_BulletDirection := cam.g_CameraViewVector
      g_BulletDistance := 0 }
  else b

/-- The flight block: `if(g_BulletVisible == true)`, with the draw calls left out. -/
def advanceBullet (sqrt : F → F) (t_diff : F) (b : Bullet F) : Bullet F :=
  if b.g_BulletVisible = true then
    let position := vadd b.g_BulletPosition (vscale (cameraSpeed + t_diff) b.g_BulletDirection)
    let distance := distanceBetweenPoints sqrt b.g_BulletOrigin position
    { b with g_BulletPosition := position
             g_BulletDistance := distance
             g_BulletVisible := if distance ≥ 60 then false else true }
  else b

/-- The projectile part of a frame up to the call of `bulletCollision`. -/
def projectileTick (sqrt : F → F) (g_LeftMouseButtonPressed : Bool) (t_diff : F)
    (cam : Camera F) (b : Bullet F) : Bullet F :=
  advanceBullet sqrt t_diff (spawnBullet sqrt g_LeftMouseButtonPressed cam b)

/-- One asteroid block of `bulletCollision`. -/
def bulletHit (g_BulletPosition : Vec3 F) (w : World F) (i : Fin 5) : World F :=
  if w.g_AsteroidVisible i = true then
    if insideBox (asteroidBoxMin w i) (asteroidBoxMax w i) g_BulletPosition then
      { w with g_AsteroidVisible := Function.update w.g_AsteroidVisible i false }
    else w
  else w

/-- The function `bulletCollision`: the five asteroid blocks in index order. -/
def bulletCollision (g_BulletPosition : Vec3 F) (w : World F) : World F :=
  bulletHit g_BulletPosition (bulletHit g_BulletPosition (bulletHit g_BulletPosition
    (bulletHit g_BulletPosition (bulletHit g_BulletPosition w 0) 1) 2) 3) 4

/-- The projectile part of a frame: spawn, flight, then the unconditional call
of `bulletCollision`, which reads `g_BulletPosition` and writes
`g_AsteroidVisible`. -/
def projectileFrame (sqrt : F → F) (g_LeftMouseButtonPressed : Bool) (t_diff : F)
    (cam : Camera F) (s : Bullet F × World F) : Bullet F × World F :=
  let b := projectileTick sqrt g_LeftMouseButtonPressed t_diff cam s.1
  (b, bulletCollision b.g_BulletPosition s.2)

end Projectile

/-! ## Vocabulary for stating the collision properties

The definitions of this section are not code of the program: they name the
seven collision volumes of `checkIntersection` and the notions the properties
of the push-out are stated with. -/

/-- The seven collision volumes tested by `checkIntersection`, in the order in
which the function tests them. -/
inductive Volume where
  | bigPlanet : Volume
  | smallPlanet : Volume
  | asteroid (i : Fin 5) : Volume
  deriving DecidableEq

section Vocabulary

variable {F : Type} [LinearOrderedField F]

/-- Every coordinate lies in `[-250, 250]`: none of the six skybox tests fires. -/
def inSkybox (p : Vec3 F) : Prop :=
  (-250 ≤ p.x ∧ p.x ≤ 250) ∧ (-250 ≤ p.y ∧ p.y ≤ 250) ∧ (-250 ≤ p.z ∧ p.z ≤ 250)

/-- The collision centre of a volume: the centre computed for a planet, the
centre of the transformed box for an asteroid. -/
def volumeCenter (w : World F) : Volume → Vec3 F
  | .bigPlanet => bbox_centerBigPlanet w
  | .smallPlanet => bbox_centerSmallPlanet w
  | .asteroid i => boxCenter (asteroidBoxMin w i) (asteroidBoxMax w i)

/-- The length of the push applied by the block of a volume. -/
def pushDistance : Volume → F
  | .bigPlanet => 10
  | .smallPlanet => 3
  | .asteroid _ => 10

/-- The position `p` penetrates a volume: the test of the volume's block in
`checkIntersection` succeeds on `p` (for an asteroid, the asteroid is visible
and `p` is in its closed box). -/
def penetrates (sqrt : F → F) (w : World F) : Volume → Vec3 F → Prop
  | .bigPlanet, p => distanceBetweenPoints sqrt p (bbox_centerBigPlanet w) - 200 < EPSILON
  | .smallPlanet, p => distanceBetweenPoints sqrt p (bbox_centerSmallPlanet w) - 10 < EPSILON
  | .asteroid i, p =>
      w.g_AsteroidVisible i = true ∧ insideBox (asteroidBoxMin w i) (asteroidBoxMax w i) p

/-- The position `p` lies strictly inside a volume: at a distance from the
centre smaller than the radius for a planet, in the open box for an asteroid. -/
def strictlyInside (sqrt : F → F) (w : World F) : Volume → Vec3 F → Prop
  | .bigPlanet, p => distanceBetweenPoints sqrt p (bbox_centerBigPlanet w) < 200
  | .smallPlanet, p => distanceBetweenPoints sqrt p (bbox_centerSmallPlanet w) < 10
  | .asteroid i, p =>
      (asteroidBoxMin w i).x < p.x ∧ p.x < (asteroidBoxMax w i).x
      ∧ (asteroidBoxMin w i).y < p.y ∧ p.y < (asteroidBoxMax w i).y
      ∧ (asteroidBoxMin w i).z < p.z ∧ p.z < (asteroidBoxMax w i).z

/-- The position `p` moved by `k` along the unit vector from `c` to `p`. -/
def pushAway (sqrt : F → F) (c : Vec3 F) (k : F) (p : Vec3 F) : Vec3 F :=
  vadd p (vscale k (normalize sqrt (vsub p c)))

/-- The boundary of the volume is at most one push away from `p` along the ray
from the centre through `p`.  For a planet: `radius - push ≤ distance(p, c)`.
For a box with half extent `h` and `d = p - c`: the ray leaves the box through a
face of axis `k` at distance `h_k * |d| / |d_k|` from the centre, so the
condition is `h_k * |d| ≤ (|d| + 10) * |d_k|` for one of the axes. -/
def shallow (sqrt : F → F) (w : World F) : Volume → Vec3 F → Prop
  | .bigPlanet, p => 200 - 10 ≤ distanceBetweenPoints sqrt p (bbox_centerBigPlanet w)
  | .smallPlanet, p => 10 - 3 ≤ distanceBetweenPoints sqrt p (bbox_centerSmallPlanet w)
  | .asteroid i, p =>
      let lo := asteroidBoxMin w i
      let hi := asteroidBoxMax w i
      let c := boxCenter lo hi
      let n := norm sqrt (vsub p c)
      (hi.x - lo.x) / 2 * n ≤ (n + 10) * |p.x - c.x|
      ∨ (hi.y - lo.y) / 2 * n ≤ (n + 10) * |p.y - c.y|
      ∨ (hi.z - lo.z) / 2 * n ≤ (n + 10) * |p.z - c.z|

/-- A collision-free position: inside the skybox bounds and penetrating none of
the seven volumes. -/
def collisionFree (sqrt : F → F) (w : World F) (p : Vec3 F) : Prop :=
  inSkybox p ∧ ∀ V, ¬ penetrates sqrt w V p

/-- The block of `checkIntersection` that belongs to a volume. -/
def blockOf (sqrt : F → F) (w : World F) : Volume → Vec3 F → Vec3 F
  | .bigPlanet => pushBigPlanet sqrt w
  | .smallPlanet => pushSmallPlanet sqrt w
  | .asteroid i => pushAsteroid sqrt w i

end Vocabulary

section Examples

variable {F : Type} [LinearOrderedField F]

/-- A world for concrete evaluations: both meshes have the bounding box
`[-1, 1]³`, and the globals have their initial values (all five asteroids
visible, Bezier displacement zero). -/
def unitWorld : World F :=
  { sphere := ⟨⟨-1, -1, -1⟩, ⟨1, 1, 1⟩⟩
    asteroid := ⟨⟨-1, -1, -1⟩, ⟨1, 1, 1⟩⟩
    g_AsteroidVisible := fun _ => true
    g_BezierDisplacement := ⟨0, 0, 0⟩ }

/-- A world in which the asteroid mesh has the bounding box `[-10, 10]³`; the
other values are those of `unitWorld`. -/
def wideWorld : World F :=
  { sphere := ⟨⟨-1, -1, -1⟩, ⟨1, 1, 1⟩⟩
    asteroid := ⟨⟨-10, -10, -10⟩, ⟨10, 10, 10⟩⟩
    g_AsteroidVisible := fun _ => true
    g_BezierDisplacement := ⟨0, 0, 0⟩ }

/-- A camera in front of the face `z = -45` of the box of asteroid 3 of
`unitWorld`, looking along the z axis with the up-vector on the y axis: a
projectile fired from it starts at `(43, 89, -45.1)`. -/
def cameraAtAsteroid3 : Camera F :=
  { g_CameraPosition := ⟨43, 897 / 10, -481 / 10⟩
    g_CameraViewVector := ⟨0, 0, 1⟩
    g_CameraUpVector := ⟨0, 1, 0⟩ }

/-- The projectile one tick of frame time 0 after it was fired from
`cameraAtAsteroid3`: in flight along the z axis, 0.05 units from its origin and
0.05 units in front of the box of asteroid 3 of `unitWorld`. -/
def bulletAtFace : Bullet F :=
  { g_BulletVisible := true
    g_BulletOrigin := ⟨43, 89, -451 / 10⟩
    g_BulletPosition := ⟨43, 89, -451 / 10 + 5 / 100⟩
    g_BulletDirection := ⟨0, 0, 1⟩
    g_BulletDistance := 5 / 100 }

/-- The camera globals at program start: position at the origin, view along
the z axis, up along the y axis. -/
def cameraInit : Camera F :=
  { g_CameraPosition := ⟨0, 0, 0⟩
    g_CameraViewVector := ⟨0, 0, 1⟩
    g_CameraUpVector := ⟨0, 1, 0⟩ }

/-- The projectile globals at program start: no projectile visible. -/
def bulletIdle : Bullet F :=
  { g_BulletVisible := false
    g_BulletOrigin := ⟨0, 0, 0⟩
    g_BulletPosition := ⟨0, 0, 0⟩
    g_BulletDirection := ⟨0, 0, 0⟩
    g_BulletDistance := 0 }

/-- A projectile in flight along the z axis, 59.99 units from its origin. -/
def bulletNearLimit : Bullet F :=
  { g_BulletVisible := true
    g_BulletOrigin := ⟨0, 0, 0⟩
    g_BulletPosition := ⟨0, 0, 5999 / 100⟩
    g_BulletDirection := ⟨0, 0, 1⟩
    g_BulletDistance := 5999 / 100 }

end Examples

/-! ## Frames of the projectile, the mouse buttons, the orientation update,
the Bezier curve and the movement step -/

section Flight

variable {F : Type} [LinearOrderedField F]

/-- The values read by the projectile part of one frame: the fire flag
`g_LeftMouseButtonPressed`, the frame time `t_diff` and the camera. -/
structure TickInput (F : Type) where
  g_LeftMouseButtonPressed : Bool
  t_diff : F
  cam : Camera F

/-- The projectile after a sequence of frames, one `projectileTick` per frame. -/
def projectileRun (sqrt : F → F) (b : Bullet F) : List (TickInput F) → Bullet F
  | [] => b
  | i :: rest =>
      projectileRun sqrt (projectileTick sqrt i.g_LeftMouseButtonPressed i.t_diff i.cam b) rest

/-- The sum of the travel increments `cameraSpeed + t_diff` of a sequence of
frames. -/
def travel (ticks : List (TickInput F)) : F :=
  (ticks.map (fun i => cameraSpeed + i.t_diff)).sum

/-- The argument `button` of `MouseButtonCallback`. -/
inductive MouseButton where
  | left : MouseButton
  | middle : MouseButton
  | right : MouseButton
  | other : MouseButton
  deriving DecidableEq

/-- The argument `action` of `MouseButtonCallback`: `GLFW_PRESS` or `GLFW_RELEASE`. -/
inductive MouseAction where
  | press : MouseAction
  | release : MouseAction
  deriving DecidableEq

/-- The globals written by `MouseButtonCallback`. -/
structure MouseGlobals (F : Type) where
  g_LeftMouseButtonPressed : Bool
  g_MiddleMouseButtonToggled : Bool
  g_RightMouseButtonPressed : Bool
  g_TargetLocked : Bool
  g_LastCursorPosX : F
  g_LastCursorPosY : F

/-- One call of `MouseButtonCallback`, with the cursor position that
`glfwGetCursorPos` returns. -/
structure MouseEvent (F : Type) where
  button : MouseButton
  action : MouseAction
  xpos : F
  ypos : F

/-- The function `MouseButtonCallback`: its five `if` statements in order. -/
def MouseButtonCallback (e : MouseEvent F) (g : MouseGlobals F) : MouseGlobals F :=
  let g1 := if e.button = .right ∧ e.action = .press then
      { g with g_LastCursorPosX := e.xpos, g_LastCursorPosY := e.ypos
               g_RightMouseButtonPressed := true }
    else g
  let g2 := if e.button = .right ∧ e.action = .release then
      { g1 with g_RightMouseButtonPressed := false }
    else g1
  let g3 := if e.button = .middle ∧ e.action = .press then
      (if g2.g_MiddleMouseButtonToggled = true then
        { g2 with g_MiddleMouseButtonToggled := false, g_TargetLocked := false }
      else { g2 with g_MiddleMouseButtonToggled := true })
    else g2
  let g4 := if e.button = .left ∧ e.action = .press then
      { g3 with g_LeftMouseButtonPressed := true }
    else g3
  if e.button = .left ∧ e.action = .release then
    { g4 with g_LeftMouseButtonPressed := false }
  else g4

/-- The inputs of one frame of the render loop for the projectile: the frame
time, the camera, and the mouse-button events that `glfwPollEvents` delivers at
the end of the frame. -/
structure FrameInput (F : Type) where
  t_diff : F
  cam : Camera F
  events : List (MouseEvent F)

/-- One frame: the projectile part reads the fire flag left by the events of the
earlier frames, then `glfwPollEvents` runs the callbacks of this frame's events. -/
def fireFrame (sqrt : F → F) (inp : FrameInput F) (s : MouseGlobals F × Bullet F) :
    MouseGlobals F × Bullet F :=
  (inp.events.foldl (fun g e => MouseButtonCallback e g) s.1,
    projectileTick sqrt s.1.g_LeftMouseButtonPressed inp.t_diff inp.cam s.2)

end Flight

section Orientation

variable {F : Type} [LinearOrderedField F]

/-- The branch of the orientation update taken with the target-lock toggle
active, up to the assignment of `g_CameraViewVector`: entry, tracking of the
moving asteroid 0, or release when the locked asteroid is no longer visible. -/
def targetLockUpdate (sqrt : F → F) (cameraPosition : Vec3 F) (w : World F)
    (s : LockState F) : LockState F :=
  if s.g_TargetLocked = false then
    targetLockEntry sqrt cameraPosition w.g_AsteroidVisible s
  else if s.g_TargetLocked = true ∧ s.g_ClosestAsteroid = 0 ∧ w.g_AsteroidVisible 0 = true then
    { s with g_CameraLookAt := vadd (g_AsteroidPos 0) w.g_BezierDisplacement }
  else if s.g_TargetLocked = true
      ∧ w.g_AsteroidVisible (asteroidIndex s.g_ClosestAsteroid) = false then
    { s with g_TargetLocked := false, g_MiddleMouseButtonToggled := false }
  else s

/-- The spherical coordinates of the free-look direction. -/
structure Spherical (F : Type) where
  g_CameraTheta : F
  g_CameraPhi : F
  g_CameraDistance : F

/-- The look-at point of the free-look branch:
`position + r * (sin(phi) sin(theta), cos(phi), sin(phi) cos(theta))`. -/
def freeLookAt (sin cos : F → F) (cameraPosition : Vec3 F) (a : Spherical F) : Vec3 F :=
  ⟨cameraPosition.x + a.g_CameraDistance * sin a.g_CameraPhi * sin a.g_CameraTheta,
   cameraPosition.y + a.g_CameraDistance * cos a.g_CameraPhi,
   cameraPosition.z + a.g_CameraDistance * sin a.g_CameraPhi * cos a.g_CameraTheta⟩

/-- The orientation update of a frame (from `if(!g_MiddleMouseButtonToggled)` to
the assignment of `g_CameraViewVector`), on the target-lock globals and
`g_CameraViewVector`.  `sin` and `cos` are the functions of `<cmath>`. -/
def orientationUpdate (sin cos sqrt : F → F) (cameraPosition : Vec3 F) (a : Spherical F)
    (w : World F) (s : LockState F × Vec3 F) : LockState F × Vec3 F :=
  if s.1.g_MiddleMouseButtonToggled = false then
    let lookAt := freeLookAt sin cos cameraPosition a
    ({ s.1 with g_CameraLookAt := lookAt }, normalize sqrt (vsub lookAt cameraPosition))
  else
    let s1 := targetLockUpdate sqrt cameraPosition w s.1
    (s1, normalize sqrt (vsub s1.g_CameraLookAt cameraPosition))

end Orientation

section BezierCurve

variable {F : Type} [LinearOrderedField F]

/-- The constant table `g_ControlPoints`. -/
def g_ControlPoints : Fin 4 → Vec3 F :=
  ![⟨1111 / 10, 2104 / 10, 111⟩, ⟨21156 / 100, 11225 / 100, 111⟩,
    ⟨-5033 / 100, 5099 / 100, 51⟩, ⟨4078 / 100, 9285 / 100, 31⟩]

/-- One of the three sums that follow `double mt = 1 - time;`. -/
def bezierAxis (time p0 p1 p2 p3 : F) : F :=
  let mt := 1 - time
  mt * mt * mt * p0 + 3 * time * mt * mt * p1 + 3 * time * time * mt * p2
    + time * time * time * p3

/-- The three values `g_BezierDisplacementX`, `Y`, `Z` computed at `time`. -/
def bezierDisplacement (time : F) : Vec3 F :=
  ⟨bezierAxis time (g_ControlPoints 0).x (g_ControlPoints 1).x (g_ControlPoints 2).x
      (g_ControlPoints 3).x,
   bezierAxis time (g_ControlPoints 0).y (g_ControlPoints 1).y (g_ControlPoints 2).y
      (g_ControlPoints 3).y,
   bezierAxis time (g_ControlPoints 0).z (g_ControlPoints 1).z (g_ControlPoints 2).z
      (g_ControlPoints 3).z⟩

/-- The animator block of a frame, `if(g_AsteroidVisible[0] == true)`, with one
clock value for the frame: the direction state machine, then the evaluation of
the curve into `g_BezierDisplacement`. -/
def bezierAnimator (junk now : F) (s : World F × BezierState F) : World F × BezierState F :=
  if s.1.g_AsteroidVisible 0 = true then
    ({ s.1 with g_BezierDisplacement := bezierDisplacement (bezierTick junk now s.2).2 },
      (bezierTick junk now s.2).1)
  else s

/-- The state of the direction state machine after a sequence of animator
ticks, one clock value per tick, asteroid 0 being visible on each of them. -/
def bezierRun (junk : F) : List F → BezierState F → BezierState F
  | [], s => s
  | now :: rest, s => bezierRun junk rest (bezierTick junk now s).1

end BezierCurve

section Movement

variable {F : Type} [LinearOrderedField F]

/-- Modelled from the spec: `crossproduct` of `matrices.h`, the cross product
of two vectors. -/
def crossproduct (u v : Vec3 F) : Vec3 F :=
  ⟨u.y * v.z - u.z * v.y, u.z * v.x - u.x * v.z, u.x * v.y - u.y * v.x⟩

/-- The key flags read by the movement step. -/
structure Keys where
  g_WKeyPressed : Bool
  g_AKeyPressed : Bool
  g_SKeyPressed : Bool
  g_DKeyPressed : Bool
  g_QKeyPressed : Bool
  g_EKeyPressed : Bool
  g_SpaceKeyPressed : Bool
  g_LeftShiftKeyPressed : Bool

/-- The local constant `rotationSpeed = 0.001f`. -/
def rotationSpeed : F := 1 / 1000

/-- The value assigned to `g_CameraRightVector` at the start of the movement
step. -/
def rightVector (sqrt : F → F) (cam : Camera F) : Vec3 F :=
  normalize sqrt (crossproduct cam.g_CameraViewVector cam.g_CameraUpVector)

/-- A statement `if (held) g_CameraPosition += k * v;` of the movement step. -/
def moveIf (held : Bool) (k : F) (v : Vec3 F) (cam : Camera F) : Camera F :=
  if held = true then
    { cam with g_CameraPosition := vadd cam.g_CameraPosition (vscale k v) }
  else cam

/-- A statement `if (held) g_CameraPosition -= k * v;` of the movement step. -/
def moveBackIf (held : Bool) (k : F) (v : Vec3 F) (cam : Camera F) : Camera F :=
  if held = true then
    { cam with g_CameraPosition := vsub cam.g_CameraPosition (vscale k v) }
  else cam

/-- A statement
`if (held) g_CameraUpVector = Matrix_Rotate(angle, g_CameraViewVector) * g_CameraUpVector;`
of the movement step.  `rotate angle axis v` stands for
`Matrix_Rotate(angle, axis) * v`, the matrix builder being that of `matrices.h`. -/
def rollIf (rotate : F → Vec3 F → Vec3 F → Vec3 F) (held : Bool) (angle : F)
    (cam : Camera F) : Camera F :=
  if held = true then
    { cam with g_CameraUpVector := rotate angle cam.g_CameraViewVector cam.g_CameraUpVector }
  else cam

/-- The movement step of a frame: the eight `if` statements on the key flags, in
order (W, A, S, D, Q, E, Space without LeftShift, Space with LeftShift), each
reading the camera globals left by the one before it; `g_CameraRightVector` is
computed once, before the first of them. -/
def movementStep (sqrt : F → F) (rotate : F → Vec3 F → Vec3 F → Vec3 F) (keys : Keys)
    (t_diff : F) (cam : Camera F) : Camera F :=
  let right := rightVector sqrt cam
  let step := cameraSpeed + t_diff
  let c1 := moveIf keys.g_WKeyPressed step cam.g_CameraViewVector cam
  let c2 := moveBackIf keys.g_AKeyPressed step right c1
  let c3 := moveBackIf keys.g_SKeyPressed step c2.g_CameraViewVector c2
  let c4 := moveIf keys.g_DKeyPressed step right c3
  let c5 := rollIf rotate keys.g_QKeyPressed (rotationSpeed + t_diff) c4
  let c6 := rollIf rotate keys.g_EKeyPressed (-rotationSpeed - t_diff) c5
  let c7 := moveIf (keys.g_SpaceKeyPressed && !keys.g_LeftShiftKeyPressed) step
    c6.g_CameraUpVector c6
  moveBackIf (keys.g_SpaceKeyPressed && keys.g_LeftShiftKeyPressed) step
    c7.g_CameraUpVector c7

end Movement

section FrameExamples

variable {F : Type} [LinearOrderedField F]

/-- The mouse globals while the left button is held down and nothing else is
active. -/
def mouseLeftHeld : MouseGlobals F :=
  { g_LeftMouseButtonPressed := true
    g_MiddleMouseButtonToggled := false
    g_RightMouseButtonPressed := false
    g_TargetLocked := false
    g_LastCursorPosX := 0
    g_LastCursorPosY := 0 }

/-- A frame with frame time 0, the initial camera and no mouse-button event. -/
def quietFrame : FrameInput F :=
  { t_diff := 0
    cam := cameraInit
    events := [] }

/-- The midpoint of the positions of asteroid 0 and asteroid 3. -/
def tieCamera : Vec3 F := ⟨-57 / 2, 189 / 2, -25 / 2⟩

/-- The world of `unitWorld` after all five asteroids have been hidden. -/
def emptyWorld : World F :=
  { sphere := ⟨⟨-1, -1, -1⟩, ⟨1, 1, 1⟩⟩
    asteroid := ⟨⟨-1, -1, -1⟩, ⟨1, 1, 1⟩⟩
    g_AsteroidVisible := fun _ => false
    g_BezierDisplacement := ⟨0, 0, 0⟩ }

/-- The spherical coordinates at program start: theta 0, phi `PI / 2` with the
program's constant `PI = 3.141592f`, distance 3.5. -/
def sphericalInit : Spherical F :=
  { g_CameraTheta := 0
    g_CameraPhi := 3141592 / 1000000 / 2
    g_CameraDistance := 35 / 10 }

end FrameExamples

/-! ## The pointer callbacks, the matrix stack, the draw transforms of the
asteroids and the bounding boxes of the meshes -/

section Pointer

variable {F : Type} [LinearOrderedField F]

/-- The global `PI = 3.141592f`. -/
def PI : F := 3141592 / 1000000

/-- The local `phimax = 29*PI/32` of `CursorPosCallback`. -/
def phimax : F := 29 * PI / 32

/-- The local `phimin = 3*PI/32` of `CursorPosCallback`. -/
def phimin : F := 3 * PI / 32

/-- The function `CursorPosCallback`, on the mouse globals and the spherical
coordinates of the free-look direction. -/
def CursorPosCallback (xpos ypos : F) (s : MouseGlobals F × Spherical F) :
    MouseGlobals F × Spherical F :=
  if s.1.g_RightMouseButtonPressed = true ∧ s.1.g_MiddleMouseButtonToggled = false then
    let dx := xpos - s.1.g_LastCursorPosX
    let dy := ypos - s.1.g_LastCursorPosY
    let theta := s.2.g_CameraTheta - 1 / 100 * dx
    let phi := s.2.g_CameraPhi + 1 / 100 * dy
    let phi1 := if phi ≥ phimax then phimax else phi
    let phi2 := if phi1 < phimin then phimin else phi1
    ({ s.1 with g_LastCursorPosX := xpos, g_LastCursorPosY := ypos },
      { s.2 with g_CameraTheta := theta, g_CameraPhi := phi2 })
  else s

/-- The local `verysmallnumber = std::numeric_limits<float>::epsilon()` of
`ScrollCallback`, the value `2^-23`. -/
def verysmallnumber : F := 1 / 8388608

/-- The function `ScrollCallback`. -/
def ScrollCallback (yoffset : F) (a : Spherical F) : Spherical F :=
  let distance := a.g_CameraDistance - 1 / 10 * yoffset
  { a with g_CameraDistance := if distance < verysmallnumber then verysmallnumber else distance }

/-- The events that reach the mouse globals and the spherical coordinates: a
call of one of the three callbacks, or a write of the two target-lock flags by
the code of the render loop (the orientation update), with arbitrary values. -/
inductive PointerEvent (F : Type) where
  | button (e : MouseEvent F) : PointerEvent F
  | cursor (xpos ypos : F) : PointerEvent F
  | scroll (yoffset : F) : PointerEvent F
  | flags (toggled locked : Bool) : PointerEvent F

/-- The effect of one event on the mouse globals and the spherical coordinates. -/
def pointerStep (s : MouseGlobals F × Spherical F) : PointerEvent F →
    MouseGlobals F × Spherical F
  | .button e => (MouseButtonCallback e s.1, s.2)
  | .cursor xpos ypos => CursorPosCallback xpos ypos s
  | .scroll yoffset => (s.1, ScrollCallback yoffset s.2)
  | .flags toggled locked =>
      ({ s.1 with g_MiddleMouseButtonToggled := toggled, g_TargetLocked := locked }, s.2)

/-- The state after a sequence of events. -/
def pointerRun (s : MouseGlobals F × Spherical F) (evs : List (PointerEvent F)) :
    MouseGlobals F × Spherical F :=
  evs.foldl pointerStep s

/-- The mouse globals at program start. -/
def mouseInit : MouseGlobals F :=
  { g_LeftMouseButtonPressed := false
    g_MiddleMouseButtonToggled := false
    g_RightMouseButtonPressed := false
    g_TargetLocked := false
    g_LastCursorPosX := 0
    g_LastCursorPosY := 0 }

end Pointer

section MatrixStack

variable {Mat : Type}

/-- The function `PushMatrix` on `g_MatrixStack`; the head of the list is the
top of the stack. -/
def PushMatrix (M : Mat) (g_MatrixStack : List Mat) : List Mat := M :: g_MatrixStack

/-- The function `PopMatrix`: the value stored in its reference argument and the
stack it leaves.  `identity` is the value of `Matrix_Identity()`. -/
def PopMatrix (identity : Mat) : List Mat → Mat × List Mat
  | [] => (identity, [])
  | top :: rest => (top, rest)

/-- The pairs `PopMatrix(model); PushMatrix(model);` of the render loop, `n` of
them one after the other: the values stored in `model` by the calls of
`PopMatrix`, in order, and the stack left by the last pair.  The draw code
between two pairs assigns `model` but the next `PopMatrix` overwrites it before
it is pushed. -/
def popPushPairs (identity : Mat) : Nat → List Mat → List Mat × List Mat
  | 0, stack => ([], stack)
  | n + 1, stack =>
      let popped := PopMatrix identity stack
      let rest := popPushPairs identity n (PushMatrix popped.1 popped.2)
      (popped.1 :: rest.1, rest.2)

/-- The calls of `PushMatrix` and `PopMatrix` of one frame of the render loop:
`model = Matrix_Identity(); PushMatrix(model);`, then the fourteen pairs
`PopMatrix(model); PushMatrix(model);` that separate the draw blocks.  The
result is the list of the popped values and the stack at the end of the frame. -/
def frameStack (identity : Mat) (g_MatrixStack : List Mat) : List Mat × List Mat :=
  popPushPairs identity 14 (PushMatrix identity g_MatrixStack)

/-- The stack after a number of frames. -/
def framesStack (identity : Mat) : Nat → List Mat → List Mat
  | 0, stack => stack
  | n + 1, stack => framesStack identity n (frameStack identity stack).2

end MatrixStack

section RenderTransforms

variable {F : Type} [LinearOrderedField F]

/-- The arguments of `Matrix_Scale` in the draw block of each asteroid in the
render loop. -/
def renderScale : Fin 5 → Vec3 F :=
  ![⟨30, 30, 20⟩, ⟨30, 30, 30⟩, ⟨35, 20, 35⟩, ⟨20, 20, 20⟩, ⟨25, 25, 25⟩]

/-- The arguments of `Matrix_Translate` in the draw block of each asteroid: the
asteroid's position, plus the Bezier displacement for asteroid 0. -/
def renderTranslation (w : World F) (i : Fin 5) : Vec3 F :=
  if i = 0 then
    ⟨(g_AsteroidPos 0).x + w.g_BezierDisplacement.x, (g_AsteroidPos 0).y + w.g_BezierDisplacement.y,
      (g_AsteroidPos 0).z + w.g_BezierDisplacement.z⟩
  else g_AsteroidPos i

/-- The corners of the mesh box of asteroid `i` under the translation and the
scale of its draw block (the rotations of the draw blocks of asteroids 1 to 4
left out). -/
def renderBoxMin (w : World F) (i : Fin 5) : Vec3 F :=
  translateScale (renderTranslation w i) (renderScale i) w.asteroid.bbox_min

/-- See `renderBoxMin`. -/
def renderBoxMax (w : World F) (i : Fin 5) : Vec3 F :=
  translateScale (renderTranslation w i) (renderScale i) w.asteroid.bbox_max

end RenderTransforms

section BoundingBox

variable {F : Type} [LinearOrderedField F]

/-- The local `minval = std::numeric_limits<float>::min()` of
`BuildTrianglesAndAddToVirtualScene`: the smallest positive normalised `float`,
`2^-126`. -/
def minval : F := 1 / 2 ^ 126

/-- The local `maxval = std::numeric_limits<float>::max()`: the largest finite
`float`, `(2 - 2^-23) * 2^127`. -/
def maxval : F := (2 - 1 / 2 ^ 23) * 2 ^ 127

/-- The six `std::min` / `std::max` statements executed for one vertex. -/
def bboxStep (b : SceneObject F) (v : Vec3 F) : SceneObject F :=
  { bbox_min := ⟨min b.bbox_min.x v.x, min b.bbox_min.y v.y, min b.bbox_min.z v.z⟩
    bbox_max := ⟨max b.bbox_max.x v.x, max b.bbox_max.y v.y, max b.bbox_max.z v.z⟩ }

/-- The bounding box stored for a shape by `BuildTrianglesAndAddToVirtualScene`.
The list holds the vertices read by the two loops, three per triangle, in the
order of the loops. -/
def shapeBBox (vertices : List (Vec3 F)) : SceneObject F :=
  vertices.foldl bboxStep
    { bbox_min := ⟨maxval, maxval, maxval⟩, bbox_max := ⟨minval, minval, minval⟩ }

/-- The vertices referenced by the triangles of a shape: `indices` holds three
vertex indices per triangle and `attrib` the coordinates of the vertices. -/
def shapeVertices (attrib : Nat → Vec3 F) (indices : List Nat) : List (Vec3 F) :=
  indices.map attrib

end BoundingBox

section BoundingBoxExamples

variable {F : Type} [LinearOrderedField F]

/-- The three vertices of a triangle that lies in the octant of negative
coordinates. -/
def negativeTriangle : List (Vec3 F) := [⟨-1, -1, -1⟩, ⟨-2, -1, -1⟩, ⟨-1, -2, -1⟩]

end BoundingBoxExamples

/-! ## The target-lock globals over the frames, and the up-vector stabilization -/

section LockMachine

variable {F : Type} [LinearOrderedField F]

/-- The steps of the program that write the target-lock globals or the asteroid
flags: a call of `MouseButtonCallback`, the orientation update of a frame (with
the camera position and the spherical coordinates of that frame), and the call
of `bulletCollision` of a frame (with the projectile position of that frame). -/
inductive LockEvent (F : Type) where
  | button (e : MouseEvent F) : LockEvent F
  | orientation (cameraPosition : Vec3 F) (a : Spherical F) : LockEvent F
  | collision (g_BulletPosition : Vec3 F) : LockEvent F

/-- The function `MouseButtonCallback` on the target-lock globals.  The two flags
`g_MiddleMouseButtonToggled` and `g_TargetLocked` are passed in and read back;
the other globals of the callback take no part in what it writes to them. -/
def lockButton (e : MouseEvent F) (s : LockState F) : LockState F :=
  let g := MouseButtonCallback e
    { g_LeftMouseButtonPressed := false
      g_MiddleMouseButtonToggled := s.g_MiddleMouseButtonToggled
      g_RightMouseButtonPressed := false
      g_TargetLocked := s.g_TargetLocked
      g_LastCursorPosX := 0
      g_LastCursorPosY := 0 }
  { s with g_MiddleMouseButtonToggled := g.g_MiddleMouseButtonToggled
           g_TargetLocked := g.g_TargetLocked }

/-- The effect of one step on the target-lock globals, the view vector and the
world. -/
def lockStep (sin cos sqrt : F → F) (s : (LockState F × Vec3 F) × World F) :
    LockEvent F → (LockState F × Vec3 F) × World F
  | .button e => ((lockButton e s.1.1, s.1.2), s.2)
  | .orientation cameraPosition a =>
      (orientationUpdate sin cos sqrt cameraPosition a s.2 s.1, s.2)
  | .collision g_BulletPosition => (s.1, bulletCollision g_BulletPosition s.2)

/-- The state after a sequence of steps. -/
def lockRun (sin cos sqrt : F → F) (s : (LockState F × Vec3 F) × World F)
    (evs : List (LockEvent F)) : (LockState F × Vec3 F) × World F :=
  evs.foldl (lockStep sin cos sqrt) s

/-- The target-lock globals at program start: both flags false,
`g_ClosestAsteroid = 0`; the look-at point is the one of the initial camera. -/
def lockInit (g_CameraLookAt : Vec3 F) : LockState F :=
  { g_MiddleMouseButtonToggled := false
    g_TargetLocked := false
    g_ClosestAsteroid := 0
    g_CameraLookAt := g_CameraLookAt }

end LockMachine

/-- The upper-left 3×3 block of a `glm::mat4`, given by its rows.  The fourth
row and the fourth column of the rotation matrices are `(0, 0, 0, 1)` and the
fourth coordinate of the vectors they are applied to is `0`. -/
structure Mat3 (F : Type) where
  r1 : Vec3 F
  r2 : Vec3 F
  r3 : Vec3 F

section UpVector

variable {F : Type} [LinearOrderedField F]

/-- Modelled from the spec: `dotproduct` of `matrices.h`, the dot product of two
vectors. -/
def dotproduct (u v : Vec3 F) : F := u.x * v.x + u.y * v.y + u.z * v.z

/-- The axis-angle rotation matrix for the cosine `c` and the sine `s` of the
angle and the unit axis `v` (the formula of Rodrigues). -/
def rotationMatrix (c s : F) (v : Vec3 F) : Mat3 F :=
  { r1 := ⟨v.x * v.x * (1 - c) + c, v.x * v.y * (1 - c) - v.z * s, v.x * v.z * (1 - c) + v.y * s⟩
    r2 := ⟨v.x * v.y * (1 - c) + v.z * s, v.y * v.y * (1 - c) + c, v.y * v.z * (1 - c) - v.x * s⟩
    r3 := ⟨v.x * v.z * (1 - c) - v.y * s, v.y * v.z * (1 - c) + v.x * s, v.z * v.z * (1 - c) + c⟩ }

/-- Modelled from the spec: `Matrix_Rotate(angle, axis)` of `matrices.h`, the
standard rotation matrix by `angle` about `axis`, the axis being divided by its
length first. -/
def Matrix_Rotate (sin cos sqrt : F → F) (angle : F) (axis : Vec3 F) : Mat3 F :=
  rotationMatrix (cos angle) (sin angle) (normalize sqrt axis)

/-- The product `M * v` of a matrix and a column vector. -/
def matMulVec (M : Mat3 F) (v : Vec3 F) : Vec3 F :=
  ⟨dotproduct M.r1 v, dotproduct M.r2 v, dotproduct M.r3 v⟩

/-- The product `v * M` of a row vector and a matrix, as `glm` defines it. -/
def vecMulMat (v : Vec3 F) (M : Mat3 F) : Vec3 F :=
  ⟨v.x * M.r1.x + v.y * M.r2.x + v.z * M.r3.x, v.x * M.r1.y + v.y * M.r2.y + v.z * M.r3.y,
    v.x * M.r1.z + v.y * M.r2.z + v.z * M.r3.z⟩

/-- Modelled from the spec: `notEqual(a, b, epsilon)`, the comparison of two
vectors component by component: some component differs by more than `epsilon`. -/
def notEqual (a b : Vec3 F) (epsilon : F) : Prop :=
  |a.x - b.x| > epsilon ∨ |a.y - b.y| > epsilon ∨ |a.z - b.z| > epsilon

instance (a b : Vec3 F) (epsilon : F) : Decidable (notEqual a b epsilon) := by
  unfold notEqual; infer_instance

/-- The local `rotationAngle` of the up-vector stabilization: the angle between
the new view vector and the old one. -/
def rotationAngle (acos sqrt : F → F) (oldViewVector g_CameraViewVector : Vec3 F) : F :=
  acos (dotproduct g_CameraViewVector oldViewVector
    / (norm sqrt g_CameraViewVector * norm sqrt oldViewVector))

/-- The local `rotationAxis` of the up-vector stabilization. -/
def rotationAxis (sqrt : F → F) (oldViewVector g_CameraViewVector : Vec3 F) : Vec3 F :=
  normalize sqrt (crossproduct g_CameraViewVector oldViewVector)

/-- The up-vector stabilization of a frame: the block
`if(notEqual(oldViewVector, g_CameraViewVector, EPSILON))` that follows the
orientation update.  `acos`, `sin` and `cos` are the functions of `<cmath>`. -/
def upVectorStabilization (acos sin cos sqrt : F → F) (oldViewVector : Vec3 F)
    (cam : Camera F) : Camera F :=
  if notEqual oldViewVector cam.g_CameraViewVector EPSILON then
    { cam with
      g_CameraUpVector :=
        vecMulMat cam.g_CameraUpVector
          (Matrix_Rotate sin cos sqrt (rotationAngle acos sqrt oldViewVector cam.g_CameraViewVector)
            (rotationAxis sqrt oldViewVector cam.g_CameraViewVector)) }
  else cam

end UpVector

section StateExamples

variable {F : Type} [LinearOrderedField F]

/-- A projectile that is no longer in flight: the visible flag is false and
`g_BulletPosition` keeps the last position of the flight. -/
def bulletSpent : Bullet F :=
  { g_BulletVisible := false
    g_BulletOrigin := ⟨-59, 192, -29⟩
    g_BulletPosition := ⟨-59, 192, 31⟩
    g_BulletDirection := ⟨0, 0, 1⟩
    g_BulletDistance := 60 }

/-- The world of `unitWorld` with asteroid 0 at the start of its Bezier curve. -/
def curveStartWorld : World F :=
  { sphere := ⟨⟨-1, -1, -1⟩, ⟨1, 1, 1⟩⟩
    asteroid := ⟨⟨-1, -1, -1⟩, ⟨1, 1, 1⟩⟩
    g_AsteroidVisible := fun _ => true
    g_BezierDisplacement := bezierDisplacement 0 }

/-- The world of `unitWorld` with asteroid 0 at the end of its Bezier curve. -/
def curveEndWorld : World F :=
  { sphere := ⟨⟨-1, -1, -1⟩, ⟨1, 1, 1⟩⟩
    asteroid := ⟨⟨-1, -1, -1⟩, ⟨1, 1, 1⟩⟩
    g_AsteroidVisible := fun _ => true
    g_BezierDisplacement := bezierDisplacement 1 }

/-- A unit vector close to the z axis: the point of the unit circle of the
xz plane with the rational parameter `10^-13`. -/
def nearZ : Vec3 F :=
  ⟨2 * 10 ^ 13 / (10 ^ 26 + 1), 0, (10 ^ 26 - 1) / (10 ^ 26 + 1)⟩

/-- A camera that looks along `nearZ` with the up-vector on the x axis. -/
def cameraNearZ : Camera F :=
  { g_CameraPosition := ⟨0, 0, 0⟩
    g_CameraViewVector := nearZ
    g_CameraUpVector := ⟨1, 0, 0⟩ }

/-- A camera that looks along `(3/5, 0, 4/5)` with the up-vector on the x axis. -/
def cameraTilted : Camera F :=
  { g_CameraPosition := ⟨0, 0, 0⟩
    g_CameraViewVector := ⟨3 / 5, 0, 4 / 5⟩
    g_CameraUpVector := ⟨1, 0, 0⟩ }

end StateExamples

/-! ## Facts about the geometry helpers over the reals -/

section RealGeometry

theorem norm_nonneg_real (v : Vec3 ℝ) : 0 ≤ norm Real.sqrt v := Real.sqrt_nonneg _

theorem norm_eq_zero_real (v : Vec3 ℝ) : norm Real.sqrt v = 0 ↔ v = ⟨0, 0, 0⟩ := by
  unfold norm
  rw [Real.sqrt_eq_zero']
  constructor
  · intro h
    have hx : v.x = 0 := by nlinarith [mul_self_nonneg v.x, mul_self_nonneg v.y, mul_self_nonneg v.z]
    have hy : v.y = 0 := by nlinarith [mul_self_nonneg v.x, mul_self_nonneg v.y, mul_self_nonneg v.z]
    have hz : v.z = 0 := by nlinarith [mul_self_nonneg v.x, mul_self_nonneg v.y, mul_self_nonneg v.z]
    ext <;> assumption
  · intro h
    rw [h]
    simp

theorem norm_vscale_real (k : ℝ) (hk : 0 ≤ k) (v : Vec3 ℝ) :
    norm Real.sqrt (vscale k v) = k * norm Real.sqrt v := by
  unfold norm vscale
  have h : k * v.x * (k * v.x) + k * v.y * (k * v.y) + k * v.z * (k * v.z)
      = (k * k) * (v.x * v.x + v.y * v.y + v.z * v.z) := by ring
  simp only [h]
  rw [Real.sqrt_mul (mul_self_nonneg k), Real.sqrt_mul_self hk]

theorem distance_comm_real (p q : Vec3 ℝ) :
    distanceBetweenPoints Real.sqrt p q = distanceBetweenPoints Real.sqrt q p := by
  unfold distanceBetweenPoints norm vsub
  congr 1
  ring

theorem vsub_ne_zero {F : Type} [LinearOrderedField F] (p c : Vec3 F) (h : p ≠ c) :
    vsub p c ≠ ⟨0, 0, 0⟩ := by
  intro h0
  apply h
  have hx : p.x - c.x = 0 := congrArg Vec3.x h0
  have hy : p.y - c.y = 0 := congrArg Vec3.y h0
  have hz : p.z - c.z = 0 := congrArg Vec3.z h0
  ext
  · exact sub_eq_zero.mp hx
  · exact sub_eq_zero.mp hy
  · exact sub_eq_zero.mp hz

theorem distance_pos_real (p c : Vec3 ℝ) (h : p ≠ c) :
    0 < distanceBetweenPoints Real.sqrt p c := by
  rw [distance_comm_real]
  have h1 : norm Real.sqrt (vsub p c) ≠ 0 := fun h0 =>
    vsub_ne_zero p c h ((norm_eq_zero_real _).mp h0)
  exact lt_of_le_of_ne (norm_nonneg_real _) (Ne.symm h1)

/-- The camera moved by `k` along the unit vector from `c` to `p`: the vector
from `c` to the new position is the old one stretched by `1 + k / |p - c|`. -/
theorem vsub_push_real (p c : Vec3 ℝ) (k : ℝ) (h : p ≠ c) :
    vsub (vadd p (vscale k (normalize Real.sqrt (vsub p c)))) c
      = vscale (1 + k / norm Real.sqrt (vsub p c)) (vsub p c) := by
  have hn : norm Real.sqrt (vsub p c) ≠ 0 := fun h0 =>
    vsub_ne_zero p c h ((norm_eq_zero_real _).mp h0)
  ext <;> simp only [vsub, vadd, vscale, normalize] <;> field_simp <;> ring

/-- A push of `k ≥ 0` away from `c` increases the distance from `c` by exactly `k`. -/
theorem distance_push_real (p c : Vec3 ℝ) (k : ℝ) (hk : 0 ≤ k) (h : p ≠ c) :
    distanceBetweenPoints Real.sqrt (vadd p (vscale k (normalize Real.sqrt (vsub p c)))) c
      = distanceBetweenPoints Real.sqrt p c + k := by
  have hpos := distance_pos_real p c h
  rw [distance_comm_real p c] at hpos
  rw [distance_comm_real, distance_comm_real p c]
  unfold distanceBetweenPoints at *
  rw [vsub_push_real p c k h, norm_vscale_real _ (by positivity)]
  field_simp

/-- A push away from `c` keeps the direction from `c`. -/
theorem normalize_push_real (p c : Vec3 ℝ) (k : ℝ) (hk : 0 ≤ k) (h : p ≠ c) :
    normalize Real.sqrt (vsub (vadd p (vscale k (normalize Real.sqrt (vsub p c)))) c)
      = normalize Real.sqrt (vsub p c) := by
  have hpos := distance_pos_real p c h
  rw [distance_comm_real p c] at hpos
  unfold distanceBetweenPoints at hpos
  have hs : 0 < 1 + k / norm Real.sqrt (vsub p c) := by positivity
  rw [vsub_push_real p c k h]
  unfold normalize
  rw [norm_vscale_real _ hs.le]
  ext <;> simp only [vscale] <;> field_simp <;> ring

end RealGeometry

/-! ## The skybox step and the planet steps of `checkIntersection` -/

section SkyboxPlanets

theorem clampAxis_eq {F : Type} [LinearOrderedField F] (c : F) :
    clampAxis c = if c > 250 then 240 else if c < -250 then -240 else c := by
  unfold clampAxis
  by_cases h : c > 250
  · have h2 : ¬ ((240 : F) < -250) := by norm_num
    simp [h, h2]
  · simp [h]

theorem clampAxis_bounds {F : Type} [LinearOrderedField F] (c : F) :
    -250 ≤ clampAxis c ∧ clampAxis c ≤ 250 := by
  rw [clampAxis_eq]
  split_ifs with h1 h2
  · constructor <;> norm_num
  · constructor <;> norm_num
  · exact ⟨not_lt.mp h2, not_lt.mp h1⟩

theorem clampAxis_of_bounds {F : Type} [LinearOrderedField F] (c : F)
    (h : -250 ≤ c ∧ c ≤ 250) : clampAxis c = c := by
  rw [clampAxis_eq, if_neg (not_lt.mpr h.2), if_neg (not_lt.mpr h.1)]

theorem skyboxClamp_idem {F : Type} [LinearOrderedField F] (p : Vec3 F) :
    skyboxClamp (skyboxClamp p) = skyboxClamp p := by
  unfold skyboxClamp
  ext <;> exact clampAxis_of_bounds _ (clampAxis_bounds _)

/-- C7: the skybox step of `checkIntersection` treats each axis on its own: a
coordinate above 250 becomes 240, one below -250 becomes -240, any other is
kept; so every coordinate lies in [-250, 250] right after the step, the step
applied twice equals the step applied once, and `checkIntersection` gives the
same result on a position and on its clamped position. -/
theorem skyboxClamp_spec {F : Type} [LinearOrderedField F] (sqrt : F → F) (w : World F)
    (p : Vec3 F) :
    (skyboxClamp p).x = (if p.x > 250 then 240 else if p.x < -250 then -240 else p.x)
    ∧ (skyboxClamp p).y = (if p.y > 250 then 240 else if p.y < -250 then -240 else p.y)
    ∧ (skyboxClamp p).z = (if p.z > 250 then 240 else if p.z < -250 then -240 else p.z)
    ∧ (-250 ≤ (skyboxClamp p).x ∧ (skyboxClamp p).x ≤ 250)
    ∧ (-250 ≤ (skyboxClamp p).y ∧ (skyboxClamp p).y ≤ 250)
    ∧ (-250 ≤ (skyboxClamp p).z ∧ (skyboxClamp p).z ≤ 250)
    ∧ skyboxClamp (skyboxClamp p) = skyboxClamp p
    ∧ checkIntersection sqrt w (skyboxClamp p) = checkIntersection sqrt w p := by
  refine ⟨clampAxis_eq _, clampAxis_eq _, clampAxis_eq _, clampAxis_bounds _,
    clampAxis_bounds _, clampAxis_bounds _, skyboxClamp_idem p, ?_⟩
  unfold checkIntersection
  rw [skyboxClamp_idem]

theorem pushPlanet_of_lt {F : Type} [LinearOrderedField F] (sqrt : F → F) (c : Vec3 F)
    (radius push : F) (p : Vec3 F) (h : distanceBetweenPoints sqrt p c - radius < EPSILON) :
    pushPlanet sqrt c radius push p = vadd p (vscale push (normalize sqrt (vsub p c))) := by
  unfold pushPlanet
  rw [if_pos h]

theorem pushPlanet_of_ge {F : Type} [LinearOrderedField F] (sqrt : F → F) (c : Vec3 F)
    (radius push : F) (p : Vec3 F) (h : EPSILON ≤ distanceBetweenPoints sqrt p c - radius) :
    pushPlanet sqrt c radius push p = p := by
  unfold pushPlanet
  rw [if_neg (not_lt.mpr h)]

theorem pushAsteroid_of_invisible {F : Type} [LinearOrderedField F] (sqrt : F → F)
    (w : World F) (i : Fin 5) (p : Vec3 F) (h : w.g_AsteroidVisible i = false) :
    pushAsteroid sqrt w i p = p := by
  unfold pushAsteroid
  simp [h]

theorem pushAsteroid_of_outside {F : Type} [LinearOrderedField F] (sqrt : F → F)
    (w : World F) (i : Fin 5) (p : Vec3 F)
    (h : ¬ insideBox (asteroidBoxMin w i) (asteroidBoxMax w i) p) :
    pushAsteroid sqrt w i p = p := by
  unfold pushAsteroid
  simp [h]

theorem pushAsteroid_of_inside {F : Type} [LinearOrderedField F] (sqrt : F → F)
    (w : World F) (i : Fin 5) (p : Vec3 F) (hv : w.g_AsteroidVisible i = true)
    (h : insideBox (asteroidBoxMin w i) (asteroidBoxMax w i) p) :
    pushAsteroid sqrt w i p = vadd p (vscale 10 (normalize sqrt
      (vsub p (boxCenter (asteroidBoxMin w i) (asteroidBoxMax w i))))) := by
  unfold pushAsteroid
  simp [hv, h]

/-- C8: the planet steps.  For a position `p` other than the big planet's
centre `c`: if `distance(p, c) - 200 < EPSILON` the step returns
`p + 10 * normalize(p - c)`, the distance from `c` grows by exactly 10 and the
direction from `c` is kept; otherwise the step returns `p`.  The same holds for
the small planet with radius 10 and push 3.  In `checkIntersection` the small
planet's step runs on the output of the big planet's step, which runs on the
clamped position. -/
theorem planet_push_out (w : World ℝ) (p q : Vec3 ℝ)
    (hp : p ≠ bbox_centerBigPlanet w) (hq : q ≠ bbox_centerSmallPlanet w) :
    (distanceBetweenPoints Real.sqrt p (bbox_centerBigPlanet w) - 200 < EPSILON →
      pushBigPlanet Real.sqrt w p
          = vadd p (vscale 10 (normalize Real.sqrt (vsub p (bbox_centerBigPlanet w))))
      ∧ distanceBetweenPoints Real.sqrt (pushBigPlanet Real.sqrt w p) (bbox_centerBigPlanet w)
          = distanceBetweenPoints Real.sqrt p (bbox_centerBigPlanet w) + 10
      ∧ normalize Real.sqrt (vsub (pushBigPlanet Real.sqrt w p) (bbox_centerBigPlanet w))
          = normalize Real.sqrt (vsub p (bbox_centerBigPlanet w)))
    ∧ (EPSILON ≤ distanceBetweenPoints Real.sqrt p (bbox_centerBigPlanet w) - 200 →
      pushBigPlanet Real.sqrt w p = p)
    ∧ (distanceBetweenPoints Real.sqrt q (bbox_centerSmallPlanet w) - 10 < EPSILON →
      pushSmallPlanet Real.sqrt w q
          = vadd q (vscale 3 (normalize Real.sqrt (vsub q (bbox_centerSmallPlanet w))))
      ∧ distanceBetweenPoints Real.sqrt (pushSmallPlanet Real.sqrt w q) (bbox_centerSmallPlanet w)
          = distanceBetweenPoints Real.sqrt q (bbox_centerSmallPlanet w) + 3
      ∧ normalize Real.sqrt (vsub (pushSmallPlanet Real.sqrt w q) (bbox_centerSmallPlanet w))
          = normalize Real.sqrt (vsub q (bbox_centerSmallPlanet w)))
    ∧ (EPSILON ≤ distanceBetweenPoints Real.sqrt q (bbox_centerSmallPlanet w) - 10 →
      pushSmallPlanet Real.sqrt w q = q)
    ∧ checkIntersection Real.sqrt w p
        = pushAsteroid Real.sqrt w 4 (pushAsteroid Real.sqrt w 3 (pushAsteroid Real.sqrt w 2
            (pushAsteroid Real.sqrt w 1 (pushAsteroid Real.sqrt w 0
              (pushSmallPlanet Real.sqrt w (pushBigPlanet Real.sqrt w (skyboxClamp p)))))))
    ∧ ((∀ i, w.g_AsteroidVisible i = false) →
      checkIntersection Real.sqrt w p
        = pushSmallPlanet Real.sqrt w (pushBigPlanet Real.sqrt w (skyboxClamp p))) := by
  refine ⟨?_, ?_, ?_, ?_, rfl, ?_⟩
  · intro h
    have e := pushPlanet_of_lt Real.sqrt (bbox_centerBigPlanet w) 200 10 p h
    unfold pushBigPlanet
    rw [e]
    exact ⟨rfl, distance_push_real p _ 10 (by norm_num) hp,
      normalize_push_real p _ 10 (by norm_num) hp⟩
  · intro h
    exact pushPlanet_of_ge Real.sqrt _ 200 10 p h
  · intro h
    have e := pushPlanet_of_lt Real.sqrt (bbox_centerSmallPlanet w) 10 3 q h
    unfold pushSmallPlanet
    rw [e]
    exact ⟨rfl, distance_push_real q _ 3 (by norm_num) hq,
      normalize_push_real q _ 3 (by norm_num) hq⟩
  · intro h
    exact pushPlanet_of_ge Real.sqrt _ 10 3 q h
  · intro h
    unfold checkIntersection
    simp only [pushAsteroid_of_invisible Real.sqrt w _ _ (h _)]

theorem bbox_centerBigPlanet_unitWorld {F : Type} [LinearOrderedField F] :
    bbox_centerBigPlanet (unitWorld : World F) = ⟨0, -250, 0⟩ := by
  simp [bbox_centerBigPlanet, planetCenter, unitWorld, vadd, vscale]

theorem bbox_centerSmallPlanet_unitWorld {F : Type} [LinearOrderedField F] :
    bbox_centerSmallPlanet (unitWorld : World F) = ⟨-245, 170, 0⟩ := by
  simp [bbox_centerSmallPlanet, planetCenter, unitWorld, vadd, vscale]

theorem sqrt_sq_real (a : ℝ) (h : 0 ≤ a) : Real.sqrt (a * a) = a := Real.sqrt_mul_self h

/-- Witness of C8: a position 100 above the big planet's centre and one 5 to the
right of the small planet's centre, in the world with unit bounding boxes: both
steps fire, and the distances from the centres become 110 and 8. -/
theorem planet_push_out_witness :
    (⟨0, -150, 0⟩ : Vec3 ℝ) ≠ bbox_centerBigPlanet unitWorld
    ∧ (⟨-240, 170, 0⟩ : Vec3 ℝ) ≠ bbox_centerSmallPlanet unitWorld
    ∧ distanceBetweenPoints Real.sqrt (pushBigPlanet Real.sqrt unitWorld ⟨0, -150, 0⟩)
          (bbox_centerBigPlanet unitWorld) = 100 + 10
    ∧ distanceBetweenPoints Real.sqrt (pushSmallPlanet Real.sqrt unitWorld ⟨-240, 170, 0⟩)
          (bbox_centerSmallPlanet unitWorld) = 5 + 3 := by
  have h1 : (⟨0, -150, 0⟩ : Vec3 ℝ) ≠ bbox_centerBigPlanet unitWorld := by
    rw [bbox_centerBigPlanet_unitWorld]
    intro h
    have := congrArg Vec3.y h
    norm_num at this
  have h2 : (⟨-240, 170, 0⟩ : Vec3 ℝ) ≠ bbox_centerSmallPlanet unitWorld := by
    rw [bbox_centerSmallPlanet_unitWorld]
    intro h
    have := congrArg Vec3.x h
    norm_num at this
  have d1 : distanceBetweenPoints Real.sqrt (⟨0, -150, 0⟩ : Vec3 ℝ)
      (bbox_centerBigPlanet unitWorld) = 100 := by
    rw [bbox_centerBigPlanet_unitWorld]
    simp only [distanceBetweenPoints, norm, vsub]
    rw [← sqrt_sq_real 100 (by norm_num)]
    norm_num
  have d2 : distanceBetweenPoints Real.sqrt (⟨-240, 170, 0⟩ : Vec3 ℝ)
      (bbox_centerSmallPlanet unitWorld) = 5 := by
    rw [bbox_centerSmallPlanet_unitWorld]
    simp only [distanceBetweenPoints, norm, vsub]
    rw [← sqrt_sq_real 5 (by norm_num)]
    norm_num
  have e1 : distanceBetweenPoints Real.sqrt (⟨0, -150, 0⟩ : Vec3 ℝ)
      (bbox_centerBigPlanet unitWorld) - 200 < EPSILON := by
    rw [d1]; norm_num [EPSILON]
  have e2 : distanceBetweenPoints Real.sqrt (⟨-240, 170, 0⟩ : Vec3 ℝ)
      (bbox_centerSmallPlanet unitWorld) - 10 < EPSILON := by
    rw [d2]; norm_num [EPSILON]
  refine ⟨h1, h2, ?_, ?_⟩
  · rw [((planet_push_out unitWorld _ _ h1 h2).1 e1).2.1, d1]
  · rw [((planet_push_out unitWorld _ _ h1 h2).2.2.1 e2).2.1, d2]

end SkyboxPlanets

/-! ## The projectile: spawn, flight and the hit pass -/

section ProjectileFacts

variable {F : Type} [LinearOrderedField F]

theorem bulletHit_visible (pos : Vec3 F) (w : World F) (j i : Fin 5) :
    (bulletHit pos w j).g_AsteroidVisible i
      = if i = j then
          (w.g_AsteroidVisible j
            && !decide (insideBox (asteroidBoxMin w j) (asteroidBoxMax w j) pos))
        else w.g_AsteroidVisible i := by
  unfold bulletHit
  by_cases hv : w.g_AsteroidVisible j = true
  · by_cases hb : insideBox (asteroidBoxMin w j) (asteroidBoxMax w j) pos
    · by_cases hij : i = j
      · subst hij; simp [hv, hb]
      · simp [hv, hb, hij]
    · by_cases hij : i = j
      · subst hij; simp [hv, hb]
      · simp [hv, hb, hij]
  · by_cases hij : i = j
    · subst hij; simp [hv]
    · simp [hv, hij]

theorem bulletHit_frame (pos : Vec3 F) (w : World F) (j : Fin 5) :
    (bulletHit pos w j).sphere = w.sphere ∧ (bulletHit pos w j).asteroid = w.asteroid
    ∧ (bulletHit pos w j).g_BezierDisplacement = w.g_BezierDisplacement := by
  unfold bulletHit
  split_ifs <;> exact ⟨rfl, rfl, rfl⟩

theorem asteroidBox_bulletHit (pos : Vec3 F) (w : World F) (j i : Fin 5) :
    asteroidBoxMin (bulletHit pos w j) i = asteroidBoxMin w i
    ∧ asteroidBoxMax (bulletHit pos w j) i = asteroidBoxMax w i := by
  obtain ⟨-, h2, h3⟩ := bulletHit_frame pos w j
  simp only [asteroidBoxMin, asteroidBoxMax, collisionTranslation, h2, h3, and_self]

theorem bulletCollision_visible (pos : Vec3 F) (w : World F) (i : Fin 5) :
    (bulletCollision pos w).g_AsteroidVisible i
      = (w.g_AsteroidVisible i
          && !decide (insideBox (asteroidBoxMin w i) (asteroidBoxMax w i) pos)) := by
  unfold bulletCollision
  simp only [bulletHit_visible, asteroidBox_bulletHit]
  fin_cases i <;> simp

/-- C9: the projectile hit pass.  For every asteroid `i` the flag after the
pass is the flag before it AND NOT (the projectile position lies in the closed
box with corners `translation + scale * bbox_min` and `translation + scale *
bbox_max`, the translation being the asteroid's position, plus the Bezier
displacement for asteroid 0).  All five tests read the same position, no flag
goes from false to true, the other globals of the pass are kept, and one pass
can hide two asteroids. -/
theorem bulletCollision_spec (pos : Vec3 F) (w : World F) :
    (∀ i, (bulletCollision pos w).g_AsteroidVisible i
        = (w.g_AsteroidVisible i
            && !decide (insideBox
                (translateScale (collisionTranslation w i) (collisionScale i)
                  w.asteroid.bbox_min)
                (translateScale (collisionTranslation w i) (collisionScale i)
                  w.asteroid.bbox_max) pos)))
    ∧ collisionTranslation w 0 = vadd (g_AsteroidPos 0) w.g_BezierDisplacement
    ∧ (∀ i, i ≠ 0 → collisionTranslation w i = g_AsteroidPos i)
    ∧ (∀ i, (bulletCollision pos w).g_AsteroidVisible i = true → w.g_AsteroidVisible i = true)
    ∧ ((bulletCollision pos w).sphere = w.sphere
        ∧ (bulletCollision pos w).asteroid = w.asteroid
        ∧ (bulletCollision pos w).g_BezierDisplacement = w.g_BezierDisplacement)
    ∧ ((wideWorld : World F).g_AsteroidVisible 0 = true
        ∧ (wideWorld : World F).g_AsteroidVisible 3 = true
        ∧ (bulletCollision ⟨0, 0, 0⟩ (wideWorld : World F)).g_AsteroidVisible 0 = false
        ∧ (bulletCollision ⟨0, 0, 0⟩ (wideWorld : World F)).g_AsteroidVisible 3 = false) := by
  refine ⟨fun i => bulletCollision_visible pos w i, ?_, ?_, ?_, ?_, ?_⟩
  · simp [collisionTranslation]
  · intro i hi
    simp [collisionTranslation, hi]
  · intro i h
    rw [bulletCollision_visible] at h
    simp only [Bool.and_eq_true] at h
    exact h.1
  · unfold bulletCollision
    simp only [bulletHit_frame, and_self]
  · refine ⟨rfl, rfl, ?_, ?_⟩
    · rw [bulletCollision_visible]
      simp [wideWorld, insideBox, asteroidBoxMin, asteroidBoxMax, translateScale,
        collisionTranslation, collisionScale, g_AsteroidPos, vadd]
      norm_num
    · rw [bulletCollision_visible]
      simp [wideWorld, insideBox, asteroidBoxMin, asteroidBoxMax, translateScale,
        collisionTranslation, collisionScale, g_AsteroidPos, vadd]
      norm_num

/-- C10: projectile spawn.  With the fire input active and no projectile
visible, the spawn block makes the projectile visible, and after the tick the
origin is `position + 3 * viewVector + 0.7 * normalize(-upVector)` and the
direction is the view vector (the projectile is still visible at the end of the
tick exactly when the first advance leaves its distance below 60).  With a
projectile already visible the spawn block changes nothing, and origin and
direction after the tick are those before it, for every camera. -/
theorem projectile_spawn (sqrt : F → F) (fire : Bool) (t_diff : F) (cam : Camera F)
    (b : Bullet F) :
    (fire = true → b.g_BulletVisible = false →
      (spawnBullet sqrt fire cam b).g_BulletVisible = true
      ∧ (projectileTick sqrt fire t_diff cam b).g_BulletOrigin
          = vadd (vadd cam.g_CameraPosition (vscale 3 cam.g_CameraViewVector))
              (vscale (7 / 10) (normalize sqrt (vneg cam.g_CameraUpVector)))
      ∧ (projectileTick sqrt fire t_diff cam b).g_BulletDirection = cam.g_CameraViewVector
      ∧ ((projectileTick sqrt fire t_diff cam b).g_BulletVisible = true
          ↔ (projectileTick sqrt fire t_diff cam b).g_BulletDistance < 60))
    ∧ (b.g_BulletVisible = true →
      spawnBullet sqrt fire cam b = b
      ∧ (projectileTick sqrt fire t_diff cam b).g_BulletOrigin = b.g_BulletOrigin
      ∧ (projectileTick sqrt fire t_diff cam b).g_BulletDirection = b.g_BulletDirection) := by
  constructor
  · intro hf hv
    simp only [projectileTick, spawnBullet, advanceBullet, downVector, hf, hv, and_self,
      if_true, true_and]
    split_ifs with h
    · simp [not_lt.mpr h]
    · simp [not_le.mp h]
  · intro hv
    simp [projectileTick, spawnBullet, advanceBullet, hv]

end ProjectileFacts

/-! ## The push-out of `checkIntersection` -/

section PushOut
variable {F : Type} [LinearOrderedField F]

theorem skyboxClamp_of_inSkybox (p : Vec3 F) (h : inSkybox p) : skyboxClamp p = p := by
  unfold skyboxClamp
  ext
  · exact clampAxis_of_bounds _ h.1
  · exact clampAxis_of_bounds _ h.2.1
  · exact clampAxis_of_bounds _ h.2.2

theorem inSkybox_skyboxClamp (p : Vec3 F) : inSkybox (skyboxClamp p) :=
  ⟨clampAxis_bounds _, clampAxis_bounds _, clampAxis_bounds _⟩

theorem checkIntersection_blocks (sqrt : F → F) (w : World F) (p : Vec3 F) :
    checkIntersection sqrt w p
      = blockOf sqrt w (.asteroid 4) (blockOf sqrt w (.asteroid 3) (blockOf sqrt w (.asteroid 2)
          (blockOf sqrt w (.asteroid 1) (blockOf sqrt w (.asteroid 0)
            (blockOf sqrt w .smallPlanet (blockOf sqrt w .bigPlanet (skyboxClamp p))))))) := rfl

theorem blockOf_of_not_penetrates (sqrt : F → F) (w : World F) (V : Volume) (q : Vec3 F)
    (h : ¬ penetrates sqrt w V q) : blockOf sqrt w V q = q := by
  cases V with
  | bigPlanet => exact pushPlanet_of_ge sqrt _ 200 10 q (not_lt.mp h)
  | smallPlanet => exact pushPlanet_of_ge sqrt _ 10 3 q (not_lt.mp h)
  | asteroid i =>
    simp only [blockOf]
    by_cases hv : w.g_AsteroidVisible i = true
    · exact pushAsteroid_of_outside sqrt w i q (fun hb => h ⟨hv, hb⟩)
    · exact pushAsteroid_of_invisible sqrt w i q (by simpa using hv)

theorem blockOf_of_penetrates (sqrt : F → F) (w : World F) (V : Volume) (q : Vec3 F)
    (h : penetrates sqrt w V q) :
    blockOf sqrt w V q = pushAway sqrt (volumeCenter w V) (pushDistance V) q := by
  cases V with
  | bigPlanet => exact pushPlanet_of_lt sqrt _ 200 10 q h
  | smallPlanet => exact pushPlanet_of_lt sqrt _ 10 3 q h
  | asteroid i => exact pushAsteroid_of_inside sqrt w i q h.1 h.2

/-- A collision-free position is returned unchanged. -/
theorem checkIntersection_of_collisionFree (sqrt : F → F) (w : World F) (q : Vec3 F)
    (h : collisionFree sqrt w q) : checkIntersection sqrt w q = q := by
  rw [checkIntersection_blocks, skyboxClamp_of_inSkybox q h.1]
  repeat rw [blockOf_of_not_penetrates sqrt w _ q (h.2 _)]

/-- The volumes in the order of their blocks in `checkIntersection`. -/
theorem checkIntersection_foldl (sqrt : F → F) (w : World F) (p : Vec3 F) :
    checkIntersection sqrt w p
      = ([Volume.bigPlanet, .smallPlanet, .asteroid 0, .asteroid 1, .asteroid 2, .asteroid 3,
          .asteroid 4] : List Volume).foldl (fun q V => blockOf sqrt w V q) (skyboxClamp p) := rfl

theorem foldl_blocks_of_free (sqrt : F → F) (w : World F) (L : List Volume) (q : Vec3 F)
    (h : ∀ V ∈ L, ¬ penetrates sqrt w V q) :
    L.foldl (fun q V => blockOf sqrt w V q) q = q := by
  induction L with
  | nil => rfl
  | cons V0 rest ih =>
    rw [List.foldl_cons, blockOf_of_not_penetrates sqrt w V0 q (h V0 (List.mem_cons_self _ _))]
    exact ih (fun V hV => h V (List.mem_cons_of_mem _ hV))

theorem foldl_blocks_of_single (sqrt : F → F) (w : World F) (V : Volume) (p : Vec3 F)
    (hV : penetrates sqrt w V p) (L : List Volume) (hnd : L.Nodup) (hmem : V ∈ L)
    (hone : ∀ V' ∈ L, V' ≠ V → ¬ penetrates sqrt w V' p)
    (hland : ∀ V' ∈ L, V' ≠ V →
      ¬ penetrates sqrt w V' (pushAway sqrt (volumeCenter w V) (pushDistance V) p)) :
    L.foldl (fun q V => blockOf sqrt w V q) p
      = pushAway sqrt (volumeCenter w V) (pushDistance V) p := by
  induction L with
  | nil => exact absurd hmem (List.not_mem_nil _)
  | cons V0 rest ih =>
    rw [List.foldl_cons]
    rw [List.nodup_cons] at hnd
    by_cases e : V0 = V
    · subst e
      rw [blockOf_of_penetrates sqrt w V0 p hV]
      apply foldl_blocks_of_free
      intro V' hV'
      exact hland V' (List.mem_cons_of_mem _ hV') (fun e => hnd.1 (e ▸ hV'))
    · rw [blockOf_of_not_penetrates sqrt w V0 p (hone V0 (List.mem_cons_self _ _) e)]
      have hmem' : V ∈ rest := by
        rcases List.mem_cons.mp hmem with h | h
        · exact absurd h.symm e
        · exact h
      exact ih hnd.2 hmem' (fun V' hV' => hone V' (List.mem_cons_of_mem _ hV'))
        (fun V' hV' => hland V' (List.mem_cons_of_mem _ hV'))

theorem volume_mem_blocks (V : Volume) :
    V ∈ ([Volume.bigPlanet, .smallPlanet, .asteroid 0, .asteroid 1, .asteroid 2, .asteroid 3,
          .asteroid 4] : List Volume) := by
  cases V with
  | bigPlanet => simp
  | smallPlanet => simp
  | asteroid i => fin_cases i <;> simp

/-- A position inside the skybox bounds that penetrates exactly one volume, and
whose pushed position penetrates no other volume, is returned pushed once. -/
theorem checkIntersection_of_single (sqrt : F → F) (w : World F) (V : Volume) (p : Vec3 F)
    (hb : inSkybox p) (hV : penetrates sqrt w V p)
    (hone : ∀ V', V' ≠ V → ¬ penetrates sqrt w V' p)
    (hland : ∀ V', V' ≠ V →
      ¬ penetrates sqrt w V' (pushAway sqrt (volumeCenter w V) (pushDistance V) p)) :
    checkIntersection sqrt w p = pushAway sqrt (volumeCenter w V) (pushDistance V) p := by
  rw [checkIntersection_foldl, skyboxClamp_of_inSkybox p hb]
  exact foldl_blocks_of_single sqrt w V p hV _ (by decide) (volume_mem_blocks V)
    (fun V' _ => hone V') (fun V' _ => hland V')

end PushOut

section PushOutReal

theorem pushAway_distance_real (c p : Vec3 ℝ) (k : ℝ) (hk : 0 ≤ k) (h : p ≠ c) :
    distanceBetweenPoints Real.sqrt (pushAway Real.sqrt c k p) c
      = distanceBetweenPoints Real.sqrt p c + k :=
  distance_push_real p c k hk h

/-- One axis of a box: a point moved along the ray from the centre far enough
to reach the face is no longer strictly between the two faces. -/
theorem axis_escape (lo hi q d n : ℝ) (hn : 0 < n)
    (hs : (hi - lo) / 2 * n ≤ (n + 10) * |d|)
    (hq : q - (lo + hi) / 2 = (1 + 10 / n) * d) : ¬ (lo < q ∧ q < hi) := by
  rintro ⟨h1, h2⟩
  have habs : |q - (lo + hi) / 2| < (hi - lo) / 2 := by
    rw [abs_lt]; constructor <;> linarith
  have hpos : 0 < 1 + 10 / n := by positivity
  rw [hq, abs_mul, abs_of_pos hpos] at habs
  have e : (1 + 10 / n) * |d| = (n + 10) * |d| / n := by field_simp
  rw [e, div_lt_iff₀ hn] at habs
  linarith

theorem pushAway_not_strictlyInside (w : World ℝ) (V : Volume) (p : Vec3 ℝ)
    (hc : p ≠ volumeCenter w V) (hs : shallow Real.sqrt w V p) :
    ¬ strictlyInside Real.sqrt w V
        (pushAway Real.sqrt (volumeCenter w V) (pushDistance V) p) := by
  cases V with
  | bigPlanet =>
    have e := pushAway_distance_real (bbox_centerBigPlanet w) p 10 (by norm_num) hc
    simp only [strictlyInside, volumeCenter, pushDistance, shallow] at hs ⊢
    rw [e]
    linarith
  | smallPlanet =>
    have e := pushAway_distance_real (bbox_centerSmallPlanet w) p 3 (by norm_num) hc
    simp only [strictlyInside, volumeCenter, pushDistance, shallow] at hs ⊢
    rw [e]
    linarith
  | asteroid i =>
    simp only [volumeCenter] at hc
    have hn : 0 < norm Real.sqrt (vsub p (boxCenter (asteroidBoxMin w i) (asteroidBoxMax w i))) := by
      have := distance_pos_real p _ hc
      rwa [distance_comm_real] at this
    have hv := vsub_push_real p (boxCenter (asteroidBoxMin w i) (asteroidBoxMax w i)) 10 hc
    have hx := congrArg Vec3.x hv
    have hy := congrArg Vec3.y hv
    have hz := congrArg Vec3.z hv
    simp only [strictlyInside, volumeCenter, pushDistance, pushAway]
    simp only [shallow] at hs
    intro hin
    rcases hs with h | h | h
    · exact axis_escape _ _ _ _ _ hn h hx ⟨hin.1, hin.2.1⟩
    · exact axis_escape _ _ _ _ _ hn h hy ⟨hin.2.2.1, hin.2.2.2.1⟩
    · exact axis_escape _ _ _ _ _ hn h hz ⟨hin.2.2.2.2.1, hin.2.2.2.2.2⟩

end PushOutReal

section UnitWorld

theorem unitWorld_yaxis_not_asteroid (y : ℝ) (i : Fin 5) :
    ¬ penetrates Real.sqrt unitWorld (.asteroid i) ⟨0, y, 0⟩ := by
  rintro ⟨-, h⟩
  fin_cases i <;>
    simp [unitWorld, insideBox, asteroidBoxMin, asteroidBoxMax, translateScale,
      collisionTranslation, collisionScale, g_AsteroidPos, vadd] at h <;>
    norm_num at h

theorem unitWorld_yaxis_not_small (y : ℝ) :
    ¬ penetrates Real.sqrt unitWorld .smallPlanet ⟨0, y, 0⟩ := by
  simp only [penetrates, bbox_centerSmallPlanet_unitWorld, distanceBetweenPoints, norm, vsub,
    not_lt]
  have h : (10 + EPSILON : ℝ) ≤ Real.sqrt ((-245 - 0) * (-245 - 0) + (170 - y) * (170 - y)
      + (0 - 0) * (0 - 0)) := by
    rw [Real.le_sqrt' (by norm_num [EPSILON])]
    norm_num [EPSILON]
    nlinarith [mul_self_nonneg (170 - y)]
  linarith

theorem unitWorld_yaxis_distance_big (y : ℝ) (hy : -250 ≤ y) :
    distanceBetweenPoints Real.sqrt (⟨0, y, 0⟩ : Vec3 ℝ) (bbox_centerBigPlanet unitWorld)
      = y + 250 := by
  rw [bbox_centerBigPlanet_unitWorld]
  simp only [distanceBetweenPoints, norm, vsub]
  rw [← sqrt_sq_real (y + 250) (by linarith)]
  congr 1
  ring

theorem unitWorld_yaxis_push_big (y : ℝ) (hy : -250 < y) :
    pushAway Real.sqrt (volumeCenter (unitWorld : World ℝ) .bigPlanet)
        (pushDistance .bigPlanet) ⟨0, y, 0⟩ = ⟨0, y + 10, 0⟩ := by
  have hn : Real.sqrt ((0 - 0) * (0 - 0) + (y - -250) * (y - -250) + (0 - 0) * (0 - 0))
      = y + 250 := by
    rw [← sqrt_sq_real (y + 250) (by linarith)]
    congr 1
    ring
  have hne : y + 250 ≠ 0 := by linarith
  simp only [volumeCenter, pushDistance, bbox_centerBigPlanet_unitWorld, pushAway, vadd, vscale,
    normalize, norm, vsub, hn]
  ext <;> simp
  field_simp

/-- In the world with unit bounding boxes, a position on the y axis above the
big planet's centre and inside its sphere is returned moved up by 10. -/
theorem checkIntersection_unitWorld_yaxis (y : ℝ) (h1 : -250 < y) (h2 : y + 50 < EPSILON) :
    checkIntersection Real.sqrt unitWorld ⟨0, y, 0⟩ = ⟨0, y + 10, 0⟩ := by
  have hE : (EPSILON : ℝ) < 1 := by norm_num [EPSILON]
  have hb : inSkybox (⟨0, y, 0⟩ : Vec3 ℝ) := by
    refine ⟨⟨?_, ?_⟩, ⟨?_, ?_⟩, ⟨?_, ?_⟩⟩ <;> norm_num <;> linarith
  have hV : penetrates Real.sqrt unitWorld .bigPlanet ⟨0, y, 0⟩ := by
    simp only [penetrates]
    rw [unitWorld_yaxis_distance_big y h1.le]
    linarith
  have hother : ∀ (t : ℝ) (V' : Volume), V' ≠ .bigPlanet →
      ¬ penetrates Real.sqrt unitWorld V' ⟨0, t, 0⟩ := by
    intro t V' hV'
    cases V' with
    | bigPlanet => exact absurd rfl hV'
    | smallPlanet => exact unitWorld_yaxis_not_small t
    | asteroid i => exact unitWorld_yaxis_not_asteroid t i
  rw [checkIntersection_of_single Real.sqrt unitWorld .bigPlanet ⟨0, y, 0⟩ hb hV (hother y)
    (by rw [unitWorld_yaxis_push_big y h1]; exact hother (y + 10))]
  exact unitWorld_yaxis_push_big y h1

theorem unitWorld_center_asteroid3 :
    volumeCenter (unitWorld : World ℝ) (.asteroid 3) = ⟨43, 89, -25⟩ := by
  simp only [volumeCenter, boxCenter, unitWorld, asteroidBoxMin, asteroidBoxMax, translateScale,
    collisionTranslation, collisionScale, g_AsteroidPos]
  ext <;> simp <;> norm_num

theorem unitWorld_line3_not_other (z : ℝ) (V' : Volume) (hV' : V' ≠ .asteroid 3) :
    ¬ penetrates Real.sqrt unitWorld V' ⟨43, 89, z⟩ := by
  cases V' with
  | bigPlanet =>
    simp only [penetrates, bbox_centerBigPlanet_unitWorld, distanceBetweenPoints, norm, vsub,
      not_lt]
    have h : (200 + EPSILON : ℝ) ≤ Real.sqrt ((0 - 43) * (0 - 43) + (-250 - 89) * (-250 - 89)
        + (0 - z) * (0 - z)) := by
      rw [Real.le_sqrt' (by norm_num [EPSILON])]
      norm_num [EPSILON]
      nlinarith [mul_self_nonneg z]
    linarith
  | smallPlanet =>
    simp only [penetrates, bbox_centerSmallPlanet_unitWorld, distanceBetweenPoints, norm, vsub,
      not_lt]
    have h : (10 + EPSILON : ℝ) ≤ Real.sqrt ((-245 - 43) * (-245 - 43) + (170 - 89) * (170 - 89)
        + (0 - z) * (0 - z)) := by
      rw [Real.le_sqrt' (by norm_num [EPSILON])]
      norm_num [EPSILON]
      nlinarith [mul_self_nonneg z]
    linarith
  | asteroid i =>
    rintro ⟨-, h⟩
    fin_cases i
    · simp [unitWorld, insideBox, asteroidBoxMin, asteroidBoxMax, translateScale,
        collisionTranslation, collisionScale, g_AsteroidPos, vadd] at h
      norm_num at h
    · simp [unitWorld, insideBox, asteroidBoxMin, asteroidBoxMax, translateScale,
        collisionTranslation, collisionScale, g_AsteroidPos, vadd] at h
      norm_num at h
    · simp [unitWorld, insideBox, asteroidBoxMin, asteroidBoxMax, translateScale,
        collisionTranslation, collisionScale, g_AsteroidPos, vadd] at h
      norm_num at h
    · exact hV' rfl
    · simp [unitWorld, insideBox, asteroidBoxMin, asteroidBoxMax, translateScale,
        collisionTranslation, collisionScale, g_AsteroidPos, vadd] at h
      norm_num at h

theorem unitWorld_push_asteroid3 :
    pushAway Real.sqrt (volumeCenter (unitWorld : World ℝ) (.asteroid 3))
        (pushDistance (.asteroid 3)) ⟨43, 89, -43⟩ = ⟨43, 89, -53⟩ := by
  have hn : Real.sqrt ((43 - 43) * (43 - 43) + (89 - 89) * (89 - 89)
      + (-43 - -25) * (-43 - -25)) = 18 := by
    rw [← sqrt_sq_real 18 (by norm_num)]
    norm_num
  rw [unitWorld_center_asteroid3]
  simp only [pushDistance, pushAway, vadd, vscale, normalize, norm, vsub, hn]
  ext <;> norm_num

end UnitWorld

section CameraCollisionClaims

/-- Counterexample to C4: in the world with unit bounding boxes the position
(0, -150, 0) penetrates the big planet only (100 from its centre, radius 200) and
is not its centre; `checkIntersection` returns (0, -140, 0), which is 110 from
the centre and so strictly inside the planet. -/
theorem deep_penetration_stays_inside :
    penetrates Real.sqrt unitWorld .bigPlanet (⟨0, -150, 0⟩ : Vec3 ℝ)
    ∧ (∀ V', V' ≠ Volume.bigPlanet →
        ¬ penetrates Real.sqrt unitWorld V' (⟨0, -150, 0⟩ : Vec3 ℝ))
    ∧ (⟨0, -150, 0⟩ : Vec3 ℝ) ≠ volumeCenter unitWorld .bigPlanet
    ∧ checkIntersection Real.sqrt unitWorld ⟨0, -150, 0⟩ = ⟨0, -140, 0⟩
    ∧ strictlyInside Real.sqrt unitWorld .bigPlanet
        (checkIntersection Real.sqrt unitWorld ⟨0, -150, 0⟩) := by
  have hE : (0 : ℝ) < EPSILON := by norm_num [EPSILON]
  have hci : checkIntersection Real.sqrt unitWorld ⟨0, -150, 0⟩ = ⟨0, -140, 0⟩ := by
    rw [checkIntersection_unitWorld_yaxis (-150) (by norm_num) (by linarith)]
    norm_num
  refine ⟨?_, ?_, ?_, hci, ?_⟩
  · simp only [penetrates]
    rw [unitWorld_yaxis_distance_big _ (by norm_num)]
    linarith
  · intro V' hV'
    cases V' with
    | bigPlanet => exact absurd rfl hV'
    | smallPlanet => exact unitWorld_yaxis_not_small _
    | asteroid i => exact unitWorld_yaxis_not_asteroid _ i
  · simp only [volumeCenter, bbox_centerBigPlanet_unitWorld]
    intro h
    have := congrArg Vec3.y h
    norm_num at this
  · rw [hci]
    simp only [strictlyInside]
    rw [unitWorld_yaxis_distance_big _ (by norm_num)]
    norm_num

/-- C4 (amended): for every camera position inside the skybox bounds that
penetrates exactly one collision volume, is not at that volume's centre, has the
volume's boundary at most one push away along the ray from the centre, and whose
pushed position penetrates no other volume, `checkIntersection` returns the
position pushed once (10 units, 3 for the small planet) away from the centre;
its distance from the centre has grown by exactly the push, and it does not lie
strictly inside that volume. -/
theorem checkIntersection_single_shallow (w : World ℝ) (V : Volume) (p : Vec3 ℝ)
    (hb : inSkybox p) (hV : penetrates Real.sqrt w V p)
    (hone : ∀ V', V' ≠ V → ¬ penetrates Real.sqrt w V' p)
    (hc : p ≠ volumeCenter w V) (hs : shallow Real.sqrt w V p)
    (hland : ∀ V', V' ≠ V →
      ¬ penetrates Real.sqrt w V' (pushAway Real.sqrt (volumeCenter w V) (pushDistance V) p)) :
    checkIntersection Real.sqrt w p
        = pushAway Real.sqrt (volumeCenter w V) (pushDistance V) p
    ∧ distanceBetweenPoints Real.sqrt (checkIntersection Real.sqrt w p) (volumeCenter w V)
        = distanceBetweenPoints Real.sqrt p (volumeCenter w V) + pushDistance V
    ∧ ¬ strictlyInside Real.sqrt w V (checkIntersection Real.sqrt w p) := by
  have e := checkIntersection_of_single Real.sqrt w V p hb hV hone hland
  have hk : (0 : ℝ) ≤ pushDistance V := by
    cases V <;> simp [pushDistance]
  rw [e]
  exact ⟨rfl, pushAway_distance_real _ p _ hk hc, pushAway_not_strictlyInside w V p hc hs⟩

/-- Witness of C4 (amended), in the world with unit bounding boxes: the position
(0, -55, 0), 195 from the centre of the big planet, and the position
(43, 89, -43), 2 inside the lower z face of the box of asteroid 3, which is
returned as (43, 89, -53). -/
theorem checkIntersection_single_shallow_witness :
    (inSkybox (⟨0, -55, 0⟩ : Vec3 ℝ)
    ∧ penetrates Real.sqrt unitWorld .bigPlanet (⟨0, -55, 0⟩ : Vec3 ℝ)
    ∧ (∀ V', V' ≠ Volume.bigPlanet → ¬ penetrates Real.sqrt unitWorld V' (⟨0, -55, 0⟩ : Vec3 ℝ))
    ∧ (⟨0, -55, 0⟩ : Vec3 ℝ) ≠ volumeCenter unitWorld .bigPlanet
    ∧ shallow Real.sqrt unitWorld .bigPlanet (⟨0, -55, 0⟩ : Vec3 ℝ)
    ∧ checkIntersection Real.sqrt unitWorld ⟨0, -55, 0⟩
        = pushAway Real.sqrt (volumeCenter unitWorld .bigPlanet) (pushDistance .bigPlanet)
            ⟨0, -55, 0⟩
    ∧ ¬ strictlyInside Real.sqrt unitWorld .bigPlanet
        (checkIntersection Real.sqrt unitWorld ⟨0, -55, 0⟩))
    ∧ (inSkybox (⟨43, 89, -43⟩ : Vec3 ℝ)
    ∧ penetrates Real.sqrt unitWorld (.asteroid 3) (⟨43, 89, -43⟩ : Vec3 ℝ)
    ∧ (⟨43, 89, -43⟩ : Vec3 ℝ) ≠ volumeCenter unitWorld (.asteroid 3)
    ∧ shallow Real.sqrt unitWorld (.asteroid 3) (⟨43, 89, -43⟩ : Vec3 ℝ)
    ∧ checkIntersection Real.sqrt unitWorld ⟨43, 89, -43⟩ = ⟨43, 89, -53⟩
    ∧ ¬ strictlyInside Real.sqrt unitWorld (.asteroid 3)
        (checkIntersection Real.sqrt unitWorld ⟨43, 89, -43⟩)) := by
  constructor
  · have hE : (0 : ℝ) < EPSILON := by norm_num [EPSILON]
    have hb : inSkybox (⟨0, -55, 0⟩ : Vec3 ℝ) := by
      refine ⟨⟨?_, ?_⟩, ⟨?_, ?_⟩, ⟨?_, ?_⟩⟩ <;> norm_num
    have hV : penetrates Real.sqrt unitWorld .bigPlanet (⟨0, -55, 0⟩ : Vec3 ℝ) := by
      simp only [penetrates]
      rw [unitWorld_yaxis_distance_big _ (by norm_num)]
      linarith
    have hother : ∀ (t : ℝ) (V' : Volume), V' ≠ .bigPlanet →
        ¬ penetrates Real.sqrt unitWorld V' ⟨0, t, 0⟩ := by
      intro t V' hV'
      cases V' with
      | bigPlanet => exact absurd rfl hV'
      | smallPlanet => exact unitWorld_yaxis_not_small t
      | asteroid i => exact unitWorld_yaxis_not_asteroid t i
    have hc : (⟨0, -55, 0⟩ : Vec3 ℝ) ≠ volumeCenter unitWorld .bigPlanet := by
      simp only [volumeCenter, bbox_centerBigPlanet_unitWorld]
      intro h
      have := congrArg Vec3.y h
      norm_num at this
    have hs : shallow Real.sqrt unitWorld .bigPlanet (⟨0, -55, 0⟩ : Vec3 ℝ) := by
      simp only [shallow]
      rw [unitWorld_yaxis_distance_big _ (by norm_num)]
      norm_num
    have hland : ∀ V', V' ≠ Volume.bigPlanet → ¬ penetrates Real.sqrt unitWorld V'
        (pushAway Real.sqrt (volumeCenter unitWorld .bigPlanet) (pushDistance .bigPlanet)
          (⟨0, -55, 0⟩ : Vec3 ℝ)) := by
      rw [unitWorld_yaxis_push_big _ (by norm_num)]
      exact hother _
    have h := checkIntersection_single_shallow unitWorld .bigPlanet ⟨0, -55, 0⟩ hb hV (hother _)
      hc hs hland
    exact ⟨hb, hV, hother _, hc, hs, h.1, h.2.2⟩
  · have hb : inSkybox (⟨43, 89, -43⟩ : Vec3 ℝ) := by
      refine ⟨⟨?_, ?_⟩, ⟨?_, ?_⟩, ⟨?_, ?_⟩⟩ <;> norm_num
    have hV : penetrates Real.sqrt unitWorld (.asteroid 3) (⟨43, 89, -43⟩ : Vec3 ℝ) := by
      refine ⟨rfl, ?_⟩
      simp [unitWorld, insideBox, asteroidBoxMin, asteroidBoxMax, translateScale,
        collisionTranslation, collisionScale, g_AsteroidPos]
      norm_num
    have hc : (⟨43, 89, -43⟩ : Vec3 ℝ) ≠ volumeCenter unitWorld (.asteroid 3) := by
      rw [unitWorld_center_asteroid3]
      intro h
      have := congrArg Vec3.z h
      norm_num at this
    have hs : shallow Real.sqrt unitWorld (.asteroid 3) (⟨43, 89, -43⟩ : Vec3 ℝ) := by
      have hn : Real.sqrt ((43 - 43) * (43 - 43) + (89 - 89) * (89 - 89)
          + (-43 - -25) * (-43 - -25)) = 18 := by
        rw [← sqrt_sq_real 18 (by norm_num)]
        norm_num
      have hcen := unitWorld_center_asteroid3
      simp only [volumeCenter] at hcen
      simp only [shallow, hcen, norm, vsub, hn]
      right; right
      simp [unitWorld, asteroidBoxMin, asteroidBoxMax, translateScale,
        collisionTranslation, collisionScale, g_AsteroidPos]
      norm_num [abs_of_neg]
    have hland : ∀ V', V' ≠ Volume.asteroid 3 → ¬ penetrates Real.sqrt unitWorld V'
        (pushAway Real.sqrt (volumeCenter unitWorld (.asteroid 3)) (pushDistance (.asteroid 3))
          (⟨43, 89, -43⟩ : Vec3 ℝ)) := by
      rw [unitWorld_push_asteroid3]
      exact unitWorld_line3_not_other _
    have h := checkIntersection_single_shallow unitWorld (.asteroid 3) ⟨43, 89, -43⟩ hb hV
      (unitWorld_line3_not_other _) hc hs hland
    refine ⟨hb, hV, hc, hs, ?_, h.2.2⟩
    rw [h.1, unitWorld_push_asteroid3]

/-- Counterexample to C5: the position (0, -150, 0) penetrates the big planet
only; the first call returns (0, -140, 0) and the second call, on that result,
returns (0, -130, 0). -/
theorem second_call_moves_again :
    penetrates Real.sqrt unitWorld .bigPlanet (⟨0, -150, 0⟩ : Vec3 ℝ)
    ∧ (∀ V', V' ≠ Volume.bigPlanet →
        ¬ penetrates Real.sqrt unitWorld V' (⟨0, -150, 0⟩ : Vec3 ℝ))
    ∧ checkIntersection Real.sqrt unitWorld (checkIntersection Real.sqrt unitWorld ⟨0, -150, 0⟩)
        ≠ checkIntersection Real.sqrt unitWorld ⟨0, -150, 0⟩ := by
  have hE : (0 : ℝ) < EPSILON := by norm_num [EPSILON]
  refine ⟨?_, ?_, ?_⟩
  · simp only [penetrates]
    rw [unitWorld_yaxis_distance_big _ (by norm_num)]
    linarith
  · intro V' hV'
    cases V' with
    | bigPlanet => exact absurd rfl hV'
    | smallPlanet => exact unitWorld_yaxis_not_small _
    | asteroid i => exact unitWorld_yaxis_not_asteroid _ i
  · rw [checkIntersection_unitWorld_yaxis (-150) (by norm_num) (by linarith),
      checkIntersection_unitWorld_yaxis (-150 + 10) (by norm_num) (by linarith)]
    intro h
    have := congrArg Vec3.y h
    norm_num at this

/-- C5 (amended): for every world state and every position `p` inside the skybox
bounds that penetrates no collision volume, or penetrates exactly one volume
with the once-pushed position collision-free (inside the skybox bounds and
penetrating none of the volumes), a second call of `checkIntersection` returns
the result of the first. -/
theorem checkIntersection_idempotent {F : Type} [LinearOrderedField F] (sqrt : F → F)
    (w : World F) (p : Vec3 F) (hb : inSkybox p)
    (hpen : (∀ V, ¬ penetrates sqrt w V p) ∨
      ∃ V, penetrates sqrt w V p ∧ (∀ V', V' ≠ V → ¬ penetrates sqrt w V' p)
        ∧ collisionFree sqrt w (pushAway sqrt (volumeCenter w V) (pushDistance V) p)) :
    checkIntersection sqrt w (checkIntersection sqrt w p) = checkIntersection sqrt w p := by
  rcases hpen with h | ⟨V, hV, hone, hfree⟩
  · rw [checkIntersection_of_collisionFree sqrt w p ⟨hb, h⟩,
      checkIntersection_of_collisionFree sqrt w p ⟨hb, h⟩]
  · rw [checkIntersection_of_single sqrt w V p hb hV hone (fun V' _ => hfree.2 V')]
    exact checkIntersection_of_collisionFree sqrt w _ hfree

/-- Witness of C5 (amended): the position (0, -55, 0) penetrates the big planet
only, and the pushed position (0, -45, 0) is collision-free. -/
theorem checkIntersection_idempotent_witness :
    inSkybox (⟨0, -55, 0⟩ : Vec3 ℝ)
    ∧ penetrates Real.sqrt unitWorld .bigPlanet (⟨0, -55, 0⟩ : Vec3 ℝ)
    ∧ collisionFree Real.sqrt unitWorld
        (pushAway Real.sqrt (volumeCenter unitWorld .bigPlanet) (pushDistance .bigPlanet)
          (⟨0, -55, 0⟩ : Vec3 ℝ))
    ∧ checkIntersection Real.sqrt unitWorld (checkIntersection Real.sqrt unitWorld ⟨0, -55, 0⟩)
        = checkIntersection Real.sqrt unitWorld ⟨0, -55, 0⟩ := by
  have hE : (0 : ℝ) < EPSILON := by norm_num [EPSILON]
  have hE1 : (EPSILON : ℝ) < 1 := by norm_num [EPSILON]
  have hb : inSkybox (⟨0, -55, 0⟩ : Vec3 ℝ) := by
    refine ⟨⟨?_, ?_⟩, ⟨?_, ?_⟩, ⟨?_, ?_⟩⟩ <;> norm_num
  have hV : penetrates Real.sqrt unitWorld .bigPlanet (⟨0, -55, 0⟩ : Vec3 ℝ) := by
    simp only [penetrates]
    rw [unitWorld_yaxis_distance_big _ (by norm_num)]
    linarith
  have hother : ∀ (t : ℝ) (V' : Volume), V' ≠ .bigPlanet →
      ¬ penetrates Real.sqrt unitWorld V' ⟨0, t, 0⟩ := by
    intro t V' hV'
    cases V' with
    | bigPlanet => exact absurd rfl hV'
    | smallPlanet => exact unitWorld_yaxis_not_small t
    | asteroid i => exact unitWorld_yaxis_not_asteroid t i
  have hfree : collisionFree Real.sqrt unitWorld
      (pushAway Real.sqrt (volumeCenter unitWorld .bigPlanet) (pushDistance .bigPlanet)
        (⟨0, -55, 0⟩ : Vec3 ℝ)) := by
    rw [unitWorld_yaxis_push_big _ (by norm_num)]
    refine ⟨?_, ?_⟩
    · refine ⟨⟨?_, ?_⟩, ⟨?_, ?_⟩, ⟨?_, ?_⟩⟩ <;> norm_num
    · intro V
      by_cases hVb : V = .bigPlanet
      · subst hVb
        simp only [penetrates]
        rw [unitWorld_yaxis_distance_big _ (by norm_num)]
        norm_num
        linarith
      · exact hother _ V hVb
  exact ⟨hb, hV, hfree, checkIntersection_idempotent Real.sqrt unitWorld ⟨0, -55, 0⟩ hb
    (Or.inr ⟨.bigPlanet, hV, hother _, hfree⟩)⟩

end CameraCollisionClaims

section AxisBound

theorem unitWorld_x_not_asteroid (x y : ℝ) (i : Fin 5) (hx : x < -155 ∨ 260 < x) :
    ¬ penetrates Real.sqrt unitWorld (.asteroid i) ⟨x, y, 0⟩ := by
  rintro ⟨-, h⟩
  fin_cases i <;>
    simp [unitWorld, insideBox, asteroidBoxMin, asteroidBoxMax, translateScale,
      collisionTranslation, collisionScale, g_AsteroidPos, vadd] at h <;>
    rcases hx with hx | hx <;> linarith [h.1, h.2.1]

theorem unitWorld_left_not_big (x : ℝ) (hx : x ≤ -250) :
    ¬ penetrates Real.sqrt unitWorld .bigPlanet ⟨x, 170, 0⟩ := by
  simp only [penetrates, bbox_centerBigPlanet_unitWorld, distanceBetweenPoints, norm, vsub,
    not_lt]
  have h : (200 + EPSILON : ℝ) ≤ Real.sqrt ((0 - x) * (0 - x) + (-250 - 170) * (-250 - 170)
      + (0 - 0) * (0 - 0)) := by
    rw [Real.le_sqrt' (by norm_num [EPSILON])]
    norm_num [EPSILON]
    nlinarith
  linarith

theorem unitWorld_push_small :
    pushAway Real.sqrt (volumeCenter (unitWorld : World ℝ) .smallPlanet)
        (pushDistance .smallPlanet) ⟨-250, 170, 0⟩ = ⟨-253, 170, 0⟩ := by
  have hn : Real.sqrt ((-250 - -245) * (-250 - -245) + (170 - 170) * (170 - 170)
      + (0 - 0) * (0 - 0)) = 5 := by
    rw [← sqrt_sq_real 5 (by norm_num)]
    norm_num
  simp only [volumeCenter, pushDistance, bbox_centerSmallPlanet_unitWorld, pushAway, vadd,
    vscale, normalize, norm, vsub, hn]
  ext <;> norm_num

end AxisBound

/-! ## The projectile and the hit pass in one frame -/

section ProjectileFrame

theorem advanceBullet_visible {F : Type} [LinearOrderedField F] (sqrt : F → F) (t_diff : F)
    (b : Bullet F) :
    (advanceBullet sqrt t_diff b).g_BulletVisible = true
      ↔ b.g_BulletVisible = true ∧ (advanceBullet sqrt t_diff b).g_BulletDistance < 60 := by
  unfold advanceBullet
  by_cases hv : b.g_BulletVisible = true
  · simp only [hv, if_true, true_and]
    split_ifs with h
    · simp [not_lt.mpr h]
    · simp [not_le.mp h]
  · simp [hv]

theorem projectileFrame_parts {F : Type} [LinearOrderedField F] (sqrt : F → F)
    (fire : Bool) (t_diff : F) (cam : Camera F) (b : Bullet F) (w : World F) :
    (projectileFrame sqrt fire t_diff cam (b, w)).1 = projectileTick sqrt fire t_diff cam b
    ∧ (projectileFrame sqrt fire t_diff cam (b, w)).2
        = bulletCollision (projectileTick sqrt fire t_diff cam b).g_BulletPosition w
    ∧ ((projectileFrame sqrt fire t_diff cam (b, w)).1.g_BulletVisible = true
        ↔ (b.g_BulletVisible = true ∨ fire = true)
          ∧ (projectileFrame sqrt fire t_diff cam (b, w)).1.g_BulletDistance < 60) := by
  refine ⟨rfl, rfl, ?_⟩
  simp only [projectileFrame, projectileTick]
  rw [advanceBullet_visible]
  have hs : (spawnBullet sqrt fire cam b).g_BulletVisible = true
      ↔ (b.g_BulletVisible = true ∨ fire = true) := by
    unfold spawnBullet
    cases hb : b.g_BulletVisible <;> cases fire <;> simp [hb]
  rw [hs]

/-- The frame that fires the projectile from `cameraAtAsteroid3` with frame
time 0, from the idle projectile: the projectile is spawned at `(43, 89, -45.1)`
and advanced by 0.05; no asteroid box contains it, and the world is unchanged. -/
theorem projectileFrame_fire_atAsteroid3 :
    projectileFrame Real.sqrt true 0 cameraAtAsteroid3 ((bulletIdle : Bullet ℝ), unitWorld)
      = (bulletAtFace, unitWorld) := by
  have h400 : Real.sqrt 400 = 20 := by
    rw [show (400 : ℝ) = 20 * 20 by norm_num]
    exact sqrt_sq_real 20 (by norm_num)
  have htick : projectileTick Real.sqrt true 0 cameraAtAsteroid3 (bulletIdle : Bullet ℝ)
      = bulletAtFace := by
    simp [projectileTick, spawnBullet, advanceBullet, bulletIdle, bulletAtFace, cameraAtAsteroid3,
      downVector, normalize, norm, vneg, vadd, vscale, vsub, distanceBetweenPoints, cameraSpeed]
    norm_num [h400]
  have hworld : bulletCollision (bulletAtFace : Bullet ℝ).g_BulletPosition unitWorld
      = unitWorld := by
    simp [bulletCollision, bulletHit, bulletAtFace, unitWorld, insideBox, asteroidBoxMin,
      asteroidBoxMax, translateScale, collisionTranslation, collisionScale, g_AsteroidPos, vadd]
    norm_num
  rw [Prod.ext_iff]
  exact ⟨(projectileFrame_parts _ _ _ _ _ _).1.trans htick,
    by rw [(projectileFrame_parts _ _ _ _ _ _).2.1, htick, hworld]⟩

/-- Counterexample to C3: two frames from the start of the program, in the
world with unit bounding boxes.  The first frame fires the projectile from
`cameraAtAsteroid3`; it ends 0.05 in front of the box of asteroid 3 and nothing
is hit.  On the second frame the projectile in flight advances onto the face
`z = -45` of the box of the visible asteroid 3: the pass hides the asteroid, and
the projectile, 0.1 from its origin, is still visible after the tick. -/
theorem hit_keeps_projectile_visible :
    projectileFrame Real.sqrt true 0 cameraAtAsteroid3 ((bulletIdle : Bullet ℝ), unitWorld)
      = (bulletAtFace, unitWorld)
    ∧ (bulletAtFace : Bullet ℝ).g_BulletVisible = true
    ∧ (unitWorld : World ℝ).g_AsteroidVisible 3 = true
    ∧ (projectileFrame Real.sqrt false 0 cameraAtAsteroid3
        (bulletAtFace, unitWorld)).2.g_AsteroidVisible 3 = false
    ∧ insideBox (asteroidBoxMin (unitWorld : World ℝ) 3) (asteroidBoxMax unitWorld 3)
        (projectileFrame Real.sqrt false 0 cameraAtAsteroid3
          (bulletAtFace, unitWorld)).1.g_BulletPosition
    ∧ (projectileFrame Real.sqrt false 0 cameraAtAsteroid3
        (bulletAtFace, unitWorld)).1.g_BulletVisible = true := by
  have hpos : (projectileTick Real.sqrt false 0 cameraAtAsteroid3
      (bulletAtFace : Bullet ℝ)).g_BulletPosition = ⟨43, 89, -45⟩ := by
    simp [projectileTick, spawnBullet, advanceBullet, bulletAtFace, vadd, vscale, cameraSpeed]
    norm_num
  have hdist : (projectileTick Real.sqrt false 0 cameraAtAsteroid3
      (bulletAtFace : Bullet ℝ)).g_BulletDistance
      = distanceBetweenPoints Real.sqrt ⟨43, 89, -451 / 10⟩ ⟨43, 89, -45⟩ := by
    simp [projectileTick, spawnBullet, advanceBullet, bulletAtFace, vadd, vscale, cameraSpeed]
    norm_num
  have hin : insideBox (asteroidBoxMin (unitWorld : World ℝ) 3) (asteroidBoxMax unitWorld 3)
      (⟨43, 89, -45⟩ : Vec3 ℝ) := by
    simp [unitWorld, insideBox, asteroidBoxMin, asteroidBoxMax, translateScale,
      collisionTranslation, collisionScale, g_AsteroidPos]
    norm_num
  have hd : distanceBetweenPoints Real.sqrt (⟨43, 89, -451 / 10⟩ : Vec3 ℝ) ⟨43, 89, -45⟩ < 60 := by
    simp only [distanceBetweenPoints, norm, vsub]
    rw [Real.sqrt_lt' (by norm_num)]
    norm_num
  obtain ⟨e1, e2, e3⟩ := projectileFrame_parts Real.sqrt false 0 cameraAtAsteroid3
    (bulletAtFace : Bullet ℝ) unitWorld
  refine ⟨projectileFrame_fire_atAsteroid3, rfl, rfl, ?_, ?_, ?_⟩
  · rw [e2, bulletCollision_visible, hpos]
    simp [hin]
  · rw [e1, hpos]
    exact hin
  · rw [e3, e1, hdist]
    exact ⟨Or.inl rfl, hd⟩

/-- C3 (amended): on every tick on which a projectile is in flight or is
spawned, the collision pass does not write the projectile, and a hit does not
despawn it: the projectile is visible after the tick exactly when its updated
distance is below 60, whether or not an asteroid was hit.  When the projectile
is visible when the pass runs, the pass hides exactly the visible asteroids
whose box contains the projectile position; so on a tick on which the
projectile in flight, at an updated distance below 60, is inside the box of a
visible asteroid, that asteroid is hidden and the projectile is still visible
after the tick. -/
theorem collision_pass_keeps_projectile {F : Type} [LinearOrderedField F] (sqrt : F → F)
    (fire : Bool) (t_diff : F) (cam : Camera F) (b : Bullet F) (w : World F)
    (hflight : b.g_BulletVisible = true ∨ fire = true) :
    (projectileFrame sqrt fire t_diff cam (b, w)).1 = projectileTick sqrt fire t_diff cam b
    ∧ ((projectileFrame sqrt fire t_diff cam (b, w)).1.g_BulletVisible = true
        ↔ (projectileFrame sqrt fire t_diff cam (b, w)).1.g_BulletDistance < 60)
    ∧ ((projectileFrame sqrt fire t_diff cam (b, w)).1.g_BulletVisible = true →
        ∀ i, (w.g_AsteroidVisible i = true
            ∧ (projectileFrame sqrt fire t_diff cam (b, w)).2.g_AsteroidVisible i = false)
          ↔ (w.g_AsteroidVisible i = true
            ∧ insideBox (asteroidBoxMin w i) (asteroidBoxMax w i)
                (projectileFrame sqrt fire t_diff cam (b, w)).1.g_BulletPosition))
    ∧ (∀ i, w.g_AsteroidVisible i = true →
        insideBox (asteroidBoxMin w i) (asteroidBoxMax w i)
          (projectileFrame sqrt fire t_diff cam (b, w)).1.g_BulletPosition →
        (projectileFrame sqrt fire t_diff cam (b, w)).1.g_BulletDistance < 60 →
        (projectileFrame sqrt fire t_diff cam (b, w)).2.g_AsteroidVisible i = false
        ∧ (projectileFrame sqrt fire t_diff cam (b, w)).1.g_BulletVisible = true) := by
  obtain ⟨e1, e2, e3⟩ := projectileFrame_parts sqrt fire t_diff cam b w
  have hvis : (projectileFrame sqrt fire t_diff cam (b, w)).1.g_BulletVisible = true
      ↔ (projectileFrame sqrt fire t_diff cam (b, w)).1.g_BulletDistance < 60 := by
    rw [e3]
    exact ⟨fun h => h.2, fun h => ⟨hflight, h⟩⟩
  have hhide : ∀ i, (w.g_AsteroidVisible i = true
        ∧ (projectileFrame sqrt fire t_diff cam (b, w)).2.g_AsteroidVisible i = false)
      ↔ (w.g_AsteroidVisible i = true
        ∧ insideBox (asteroidBoxMin w i) (asteroidBoxMax w i)
            (projectileFrame sqrt fire t_diff cam (b, w)).1.g_BulletPosition) := by
    intro i
    rw [e2, e1, bulletCollision_visible]
    cases hv : w.g_AsteroidVisible i <;> simp
  refine ⟨e1, hvis, fun _ => hhide, ?_⟩
  intro i hv hin hd
  exact ⟨((hhide i).mpr ⟨hv, hin⟩).2, hvis.mpr hd⟩

/-- Witness of C3: the projectile in flight 0.05 in front of the box of asteroid
3, one more tick of frame time 0: the hypothesis holds, asteroid 3 is hidden and
the projectile is still visible. -/
theorem collision_pass_keeps_projectile_witness :
    ((bulletAtFace : Bullet ℝ).g_BulletVisible = true ∨ false = true)
    ∧ (projectileFrame Real.sqrt false 0 cameraAtAsteroid3
        ((bulletAtFace : Bullet ℝ), unitWorld)).2.g_AsteroidVisible 3 = false
    ∧ (projectileFrame Real.sqrt false 0 cameraAtAsteroid3
        ((bulletAtFace : Bullet ℝ), unitWorld)).1.g_BulletVisible = true := by
  have hpos : (projectileFrame Real.sqrt false 0 cameraAtAsteroid3
      ((bulletAtFace : Bullet ℝ), unitWorld)).1.g_BulletPosition = ⟨43, 89, -45⟩ := by
    simp [projectileFrame, projectileTick, spawnBullet, advanceBullet, bulletAtFace, vadd, vscale,
      cameraSpeed]
    norm_num
  have hdist : (projectileFrame Real.sqrt false 0 cameraAtAsteroid3
      ((bulletAtFace : Bullet ℝ), unitWorld)).1.g_BulletDistance < 60 := by
    simp [projectileFrame, projectileTick, spawnBullet, advanceBullet, bulletAtFace, vadd, vscale,
      vsub, cameraSpeed, distanceBetweenPoints, norm]
    rw [Real.sqrt_lt' (by norm_num)]
    norm_num
  have hin : insideBox (asteroidBoxMin (unitWorld : World ℝ) 3) (asteroidBoxMax unitWorld 3)
      (projectileFrame Real.sqrt false 0 cameraAtAsteroid3
        ((bulletAtFace : Bullet ℝ), unitWorld)).1.g_BulletPosition := by
    rw [hpos]
    simp [unitWorld, insideBox, asteroidBoxMin, asteroidBoxMax, translateScale,
      collisionTranslation, collisionScale, g_AsteroidPos]
    norm_num
  exact ⟨Or.inl rfl,
    (collision_pass_keeps_projectile Real.sqrt false 0 cameraAtAsteroid3 bulletAtFace unitWorld
      (Or.inl rfl)).2.2.2 3 rfl hin hdist⟩

end ProjectileFrame

/-! ## The closest-asteroid scan and the Bezier direction state machine -/

section ScanFacts

variable {F : Type} [LinearOrderedField F]

/-- The invariant of the closest-asteroid scan over the indices `S` tested so
far (index 0 is handled before the loop). -/
theorem scanStep_invariant (sqrt : F → F) (cam : Vec3 F) (visible : Fin 5 → Bool)
    (S : Fin 5 → Prop) (st : Int × F) (i : Fin 5)
    (hle : st.2 ≤ distanceBetweenPoints sqrt cam (g_AsteroidPos 0))
    (hnone : st.1 = -1 → visible 0 = false
      ∧ st.2 = distanceBetweenPoints sqrt cam (g_AsteroidPos 0)
      ∧ ∀ j, S j → visible j = true →
          distanceBetweenPoints sqrt cam (g_AsteroidPos 0)
            < distanceBetweenPoints sqrt cam (g_AsteroidPos j))
    (hsome : st.1 ≠ -1 → ∃ j : Fin 5, st.1 = (j.val : Int) ∧ visible j = true
      ∧ st.2 = distanceBetweenPoints sqrt cam (g_AsteroidPos j)
      ∧ ∀ j', (j' = 0 ∨ S j') → visible j' = true →
          distanceBetweenPoints sqrt cam (g_AsteroidPos j)
            ≤ distanceBetweenPoints sqrt cam (g_AsteroidPos j')) :
    (scanStep sqrt cam visible st i).2 ≤ distanceBetweenPoints sqrt cam (g_AsteroidPos 0)
    ∧ ((scanStep sqrt cam visible st i).1 = -1 → visible 0 = false
      ∧ (scanStep sqrt cam visible st i).2 = distanceBetweenPoints sqrt cam (g_AsteroidPos 0)
      ∧ ∀ j, (S j ∨ j = i) → visible j = true →
          distanceBetweenPoints sqrt cam (g_AsteroidPos 0)
            < distanceBetweenPoints sqrt cam (g_AsteroidPos j))
    ∧ ((scanStep sqrt cam visible st i).1 ≠ -1 → ∃ j : Fin 5,
      (scanStep sqrt cam visible st i).1 = (j.val : Int) ∧ visible j = true
      ∧ (scanStep sqrt cam visible st i).2 = distanceBetweenPoints sqrt cam (g_AsteroidPos j)
      ∧ ∀ j', (j' = 0 ∨ (S j' ∨ j' = i)) → visible j' = true →
          distanceBetweenPoints sqrt cam (g_AsteroidPos j)
            ≤ distanceBetweenPoints sqrt cam (g_AsteroidPos j')) := by
  unfold scanStep
  by_cases hcond : distanceBetweenPoints sqrt cam (g_AsteroidPos i) ≤ st.2 ∧ visible i = true
  · simp only [hcond, and_self, if_true]
    refine ⟨le_trans hcond.1 hle, ?_, ?_⟩
    · intro h
      exact absurd h (by omega)
    · intro _
      refine ⟨i, rfl, hcond.2, rfl, ?_⟩
      intro j' hj' hv'
      by_cases hst : st.1 = -1
      · obtain ⟨h0, hd0, hall⟩ := hnone hst
        rcases hj' with h | h | h
        · rw [h, h0] at hv'; exact absurd hv' (by simp)
        · exact le_trans hcond.1 (hd0 ▸ (hall j' h hv').le)
        · rw [h]
      · obtain ⟨j, -, -, hdj, hall⟩ := hsome hst
        rcases hj' with h | h | h
        · exact le_trans hcond.1 (hdj ▸ hall j' (Or.inl h) hv')
        · exact le_trans hcond.1 (hdj ▸ hall j' (Or.inr h) hv')
        · rw [h]
  · rw [if_neg hcond]
    refine ⟨hle, ?_, ?_⟩
    · intro hst
      obtain ⟨h0, hd0, hall⟩ := hnone hst
      refine ⟨h0, hd0, ?_⟩
      intro j hj hv
      rcases hj with h | h
      · exact hall j h hv
      · subst h
        rw [← hd0]
        exact not_le.mp (fun hle' => hcond ⟨hle', hv⟩)
    · intro hst
      obtain ⟨j, hj1, hjv, hdj, hall⟩ := hsome hst
      refine ⟨j, hj1, hjv, hdj, ?_⟩
      intro j' hj' hv'
      rcases hj' with h | h | h
      · exact hall j' (Or.inl h) hv'
      · exact hall j' (Or.inr h) hv'
      · subst h
        rw [← hdj]
        exact (not_le.mp (fun hle' => hcond ⟨hle', hv'⟩)).le

/-- What the closest-asteroid scan computes, for every camera position and
visibility vector: it ends with `-1` exactly when asteroid 0 is invisible and
every visible asteroid is strictly farther from the camera than asteroid 0;
otherwise it ends with the index of a visible asteroid at minimal distance
among the visible ones. -/
theorem closestAsteroidScan_spec (sqrt : F → F) (cam : Vec3 F) (visible : Fin 5 → Bool) :
    ((closestAsteroidScan sqrt cam visible).1 = -1 ↔
      visible 0 = false ∧ ∀ j, visible j = true →
        distanceBetweenPoints sqrt cam (g_AsteroidPos 0)
          < distanceBetweenPoints sqrt cam (g_AsteroidPos j))
    ∧ ((closestAsteroidScan sqrt cam visible).1 ≠ -1 → ∃ j : Fin 5,
      (closestAsteroidScan sqrt cam visible).1 = (j.val : Int) ∧ visible j = true
      ∧ ∀ j', visible j' = true →
          distanceBetweenPoints sqrt cam (g_AsteroidPos j)
            ≤ distanceBetweenPoints sqrt cam (g_AsteroidPos j')) := by
  -- the state before the loop
  have h0 : ∀ st : Int × F,
      st = ((if visible 0 = true then 0 else -1 : Int),
        distanceBetweenPoints sqrt cam (g_AsteroidPos 0)) →
      st.2 ≤ distanceBetweenPoints sqrt cam (g_AsteroidPos 0)
      ∧ (st.1 = -1 → visible 0 = false
        ∧ st.2 = distanceBetweenPoints sqrt cam (g_AsteroidPos 0)
        ∧ ∀ j, False → visible j = true →
            distanceBetweenPoints sqrt cam (g_AsteroidPos 0)
              < distanceBetweenPoints sqrt cam (g_AsteroidPos j))
      ∧ (st.1 ≠ -1 → ∃ j : Fin 5, st.1 = (j.val : Int) ∧ visible j = true
        ∧ st.2 = distanceBetweenPoints sqrt cam (g_AsteroidPos j)
        ∧ ∀ j', (j' = 0 ∨ False) → visible j' = true →
            distanceBetweenPoints sqrt cam (g_AsteroidPos j)
              ≤ distanceBetweenPoints sqrt cam (g_AsteroidPos j')) := by
    intro st hst
    subst hst
    refine ⟨le_rfl, ?_, ?_⟩
    · intro h
      by_cases hv : visible 0 = true
      · simp [hv] at h
      · exact ⟨by simpa using hv, rfl, fun j hj => absurd hj id⟩
    · intro h
      by_cases hv : visible 0 = true
      · refine ⟨0, by simp [hv], hv, rfl, ?_⟩
        intro j' hj' _
        rcases hj' with h' | h'
        · rw [h']
        · exact absurd h' id
      · simp [hv] at h
  obtain ⟨a0, b0, c0⟩ := h0 _ rfl
  obtain ⟨a1, b1, c1⟩ := scanStep_invariant sqrt cam visible _ _ 1 a0 b0 c0
  obtain ⟨a2, b2, c2⟩ := scanStep_invariant sqrt cam visible _ _ 2 a1 b1 c1
  obtain ⟨a3, b3, c3⟩ := scanStep_invariant sqrt cam visible _ _ 3 a2 b2 c2
  obtain ⟨a4, b4, c4⟩ := scanStep_invariant sqrt cam visible _ _ 4 a3 b3 c3
  have hall : ∀ j : Fin 5, j = 0 ∨ ((((False ∨ j = 1) ∨ j = 2) ∨ j = 3) ∨ j = 4) := by
    intro j
    fin_cases j <;> simp
  have hscan : closestAsteroidScan sqrt cam visible
      = scanStep sqrt cam visible (scanStep sqrt cam visible (scanStep sqrt cam visible
          (scanStep sqrt cam visible ((if visible 0 = true then 0 else -1 : Int),
            distanceBetweenPoints sqrt cam (g_AsteroidPos 0)) 1) 2) 3) 4 := rfl
  rw [hscan]
  refine ⟨⟨?_, ?_⟩, ?_⟩
  · intro h
    obtain ⟨hv0, -, hfar⟩ := b4 h
    refine ⟨hv0, ?_⟩
    intro j hj
    rcases hall j with h' | h'
    · rw [h', hv0] at hj; exact absurd hj (by simp)
    · exact hfar j h' hj
  · rintro ⟨hv0, hfar⟩
    by_contra hne
    obtain ⟨j, -, hjv, hdj, hmin⟩ := c4 hne
    have h1 := hfar j hjv
    have h2 : distanceBetweenPoints sqrt cam (g_AsteroidPos j)
        ≤ distanceBetweenPoints sqrt cam (g_AsteroidPos 0) := hdj ▸ a4
    exact absurd h1 (not_lt.mpr h2)
  · intro hne
    obtain ⟨j, hj1, hjv, -, hmin⟩ := c4 hne
    exact ⟨j, hj1, hjv, fun j' hj' => hmin j' (hall j') hj'⟩

end ScanFacts

section EntryFacts

variable {F : Type} [LinearOrderedField F]

theorem asteroidIndex_val (j : Fin 5) : asteroidIndex (j.val : Int) = j := by
  fin_cases j <;> rfl

/-- The target-lock entry for every camera position and visibility vector:
either it locks on a visible asteroid at minimal distance among the visible
ones and writes its position into `g_CameraLookAt`, or the scan found nothing,
which happens exactly when asteroid 0 is invisible and every visible asteroid is
strictly farther than asteroid 0; then the toggle is cleared and the lock flag
and `g_CameraLookAt` are kept. -/
theorem targetLockEntry_spec (sqrt : F → F) (cam : Vec3 F) (visible : Fin 5 → Bool)
    (s : LockState F) :
    ((targetLockEntry sqrt cam visible s).g_TargetLocked = true
      ∧ (targetLockEntry sqrt cam visible s).g_MiddleMouseButtonToggled
          = s.g_MiddleMouseButtonToggled
      ∧ ∃ j : Fin 5, (targetLockEntry sqrt cam visible s).g_ClosestAsteroid = (j.val : Int)
        ∧ (targetLockEntry sqrt cam visible s).g_CameraLookAt = g_AsteroidPos j
        ∧ visible j = true
        ∧ ∀ j', visible j' = true →
            distanceBetweenPoints sqrt cam (g_AsteroidPos j)
              ≤ distanceBetweenPoints sqrt cam (g_AsteroidPos j'))
    ∨ ((targetLockEntry sqrt cam visible s).g_TargetLocked = s.g_TargetLocked
      ∧ (targetLockEntry sqrt cam visible s).g_MiddleMouseButtonToggled = false
      ∧ (targetLockEntry sqrt cam visible s).g_ClosestAsteroid = -1
      ∧ (targetLockEntry sqrt cam visible s).g_CameraLookAt = s.g_CameraLookAt
      ∧ visible 0 = false
      ∧ ∀ j, visible j = true →
          distanceBetweenPoints sqrt cam (g_AsteroidPos 0)
            < distanceBetweenPoints sqrt cam (g_AsteroidPos j)) := by
  obtain ⟨h1, h2⟩ := closestAsteroidScan_spec sqrt cam visible
  by_cases hc : (closestAsteroidScan sqrt cam visible).1 = -1
  · right
    obtain ⟨hv0, hfar⟩ := h1.mp hc
    refine ⟨?_, ?_, ?_, ?_, hv0, hfar⟩ <;> simp [targetLockEntry, hc]
  · left
    obtain ⟨j, hj, hjv, hmin⟩ := h2 hc
    have hpos : ((j.val : Nat) : Int) > -1 := by omega
    refine ⟨?_, ?_, j, ?_, ?_, hjv, hmin⟩ <;>
      simp only [targetLockEntry, hj, hpos, if_true, asteroidIndex_val]

end EntryFacts

section BezierFacts

variable {F : Type} [LinearOrderedField F]

/-- The value of `time` of one animator tick, for a state whose orientation is
0 or 1 and whose epoch is not after the clock: it is at most 1, and it is
negative exactly on a tick in the backward direction on which more than one
unit of `now / 25` has passed since the epoch (the tick that flips back to the
forward direction); the flip to the backward direction evaluates at exactly 1. -/
theorem bezierTick_time (junk now : F) (s : BezierState F)
    (ho : s.g_BezierOrientation = 1 ∨ s.g_BezierOrientation = 0)
    (hclock : s.g_TimePassed ≤ now / 25) :
    (bezierTick junk now s).2 ≤ 1
    ∧ ((bezierTick junk now s).2 < 0 ↔
        s.g_BezierOrientation = 0 ∧ 1 < now / 25 - s.g_TimePassed)
    ∧ (s.g_BezierOrientation = 1 → 1 ≤ now / 25 - s.g_TimePassed →
        (bezierTick junk now s).2 = 1 ∧ (bezierTick junk now s).1 = ⟨0, now / 25⟩)
    ∧ (s.g_BezierOrientation = 0 → 1 ≤ now / 25 - s.g_TimePassed →
        (bezierTick junk now s).2 = 1 - (now / 25 - s.g_TimePassed)
        ∧ (bezierTick junk now s).1 = ⟨1, now / 25⟩) := by
  have hnn : 0 ≤ now / 25 - s.g_TimePassed := sub_nonneg.mpr hclock
  rcases ho with ho | ho
  · by_cases hflip : now / 25 - s.g_TimePassed ≥ 1
    · refine ⟨?_, ?_, ?_, ?_⟩ <;> simp [bezierTick, bezierStep, ho, hflip]
    · have hlt := not_le.mp hflip
      refine ⟨?_, ?_, ?_, ?_⟩ <;> simp [bezierTick, bezierStep, ho, hflip]
      · linarith
      · exact hclock
  · refine ⟨?_, ?_, ?_, ?_⟩ <;> simp [bezierTick, bezierStep, ho]
    · linarith
    · intro h hlt
      exact absurd h (not_le.mpr hlt)

end BezierFacts

/-! ## Target-lock entry and the Bezier animator at concrete inputs -/

section Evaluations

theorem sqrt_not_le_real (a b : ℝ) (hb : 0 ≤ b) (h : b < a) : ¬ (Real.sqrt a ≤ Real.sqrt b) :=
  not_le.mpr (Real.sqrt_lt_sqrt hb h)

theorem closestAsteroidScan_origin :
    (closestAsteroidScan Real.sqrt (⟨0, 0, 0⟩ : Vec3 ℝ)
      ![false, true, true, false, true]).1 = -1 := by
  have h1 := sqrt_not_le_real 61325 20000 (by norm_num) (by norm_num)
  have h2 := sqrt_not_le_real 83025 20000 (by norm_num) (by norm_num)
  have h4 := sqrt_not_le_real 92300 20000 (by norm_num) (by norm_num)
  simp [closestAsteroidScan, scanStep, distanceBetweenPoints, norm, vsub, g_AsteroidPos]
  norm_num [h1, h2, h4]

/-- C1, the code at the failing input: camera at the origin, asteroids 0 and 3
hidden, asteroids 1, 2 and 4 visible, toggle active and not yet locked.  The scan
ends with `g_ClosestAsteroid = -1`, so the entry does not lock and clears the
toggle although three asteroids are visible. -/
theorem targetLockEntry_misses_visible (lookAt : Vec3 ℝ) :
    (targetLockEntry Real.sqrt ⟨0, 0, 0⟩ ![false, true, true, false, true]
        ⟨true, false, 0, lookAt⟩).g_TargetLocked = false
    ∧ (targetLockEntry Real.sqrt ⟨0, 0, 0⟩ ![false, true, true, false, true]
        ⟨true, false, 0, lookAt⟩).g_MiddleMouseButtonToggled = false
    ∧ (targetLockEntry Real.sqrt ⟨0, 0, 0⟩ ![false, true, true, false, true]
        ⟨true, false, 0, lookAt⟩).g_ClosestAsteroid = -1 := by
  have hscan := closestAsteroidScan_origin
  have hgt : ¬ ((-1 : Int) > -1) := by decide
  refine ⟨?_, ?_, ?_⟩
  · simp only [targetLockEntry, hscan, hgt, if_false]
  · simp only [targetLockEntry, hscan, hgt, if_false]
  · simp only [targetLockEntry, hscan, hgt, if_false]

/-- C2, the code at the failing input: from the initial state, a tick at clock
value 25 flips to the backward direction with `time = 1`, and the next tick at
clock value 51 flips back with the curve evaluated at `time = -1/25`. -/
theorem bezier_backward_flip_negative (junk : ℝ) :
    bezierTimes junk [25, 51] bezierInit = [1, -1 / 25] := by
  simp [bezierTimes, bezierTick, bezierStep, bezierInit]
  norm_num

end Evaluations

/-! ## The flight of the projectile -/

section FlightFacts

theorem projectileRun_append {F : Type} [LinearOrderedField F] (sqrt : F → F) (b : Bullet F)
    (l1 l2 : List (TickInput F)) :
    projectileRun sqrt b (l1 ++ l2) = projectileRun sqrt (projectileRun sqrt b l1) l2 := by
  induction l1 generalizing b with
  | nil => rfl
  | cons i rest ih => exact ih _

theorem travel_append {F : Type} [LinearOrderedField F] (l1 l2 : List (TickInput F)) :
    travel (l1 ++ l2) = travel l1 + travel l2 := by
  simp [travel]

theorem spawnBullet_of_visible {F : Type} [LinearOrderedField F] (sqrt : F → F) (fire : Bool)
    (cam : Camera F) (b : Bullet F) (hv : b.g_BulletVisible = true) :
    spawnBullet sqrt fire cam b = b := by
  simp [spawnBullet, hv]

/-- One flight step of a visible projectile that lies on the ray from its origin
along its direction, at parameter `s ≥ 0`. -/
theorem advanceBullet_onRay (b : Bullet ℝ) (s dt : ℝ) (hv : b.g_BulletVisible = true)
    (hs : 0 ≤ s) (hdt : 0 ≤ dt)
    (hray : b.g_BulletPosition = vadd b.g_BulletOrigin (vscale s b.g_BulletDirection)) :
    (advanceBullet Real.sqrt dt b).g_BulletOrigin = b.g_BulletOrigin
    ∧ (advanceBullet Real.sqrt dt b).g_BulletDirection = b.g_BulletDirection
    ∧ (advanceBullet Real.sqrt dt b).g_BulletPosition
        = vadd b.g_BulletOrigin (vscale (s + (cameraSpeed + dt)) b.g_BulletDirection)
    ∧ (advanceBullet Real.sqrt dt b).g_BulletDistance
        = (s + (cameraSpeed + dt)) * norm Real.sqrt b.g_BulletDirection := by
  have hk : (0 : ℝ) ≤ s + (cameraSpeed + dt) := by
    have : (0 : ℝ) ≤ cameraSpeed := by norm_num [cameraSpeed]
    linarith
  have hpos : vadd b.g_BulletPosition (vscale (cameraSpeed + dt) b.g_BulletDirection)
      = vadd b.g_BulletOrigin (vscale (s + (cameraSpeed + dt)) b.g_BulletDirection) := by
    rw [hray]
    ext <;> simp only [vadd, vscale] <;> ring
  have hsub : vsub (vadd b.g_BulletOrigin (vscale (s + (cameraSpeed + dt)) b.g_BulletDirection))
      b.g_BulletOrigin = vscale (s + (cameraSpeed + dt)) b.g_BulletDirection := by
    ext <;> simp only [vadd, vscale, vsub] <;> ring
  simp only [advanceBullet, hv, if_true, hpos, distanceBetweenPoints, hsub]
  exact ⟨trivial, trivial, trivial, norm_vscale_real _ hk _⟩

/-- The state of a flight: a visible projectile on its ray at parameter `s`,
advanced over frames that each start with the projectile visible. -/
theorem flight_invariant (b : Bullet ℝ) (s : ℝ) (hs : 0 ≤ s)
    (hray : b.g_BulletPosition = vadd b.g_BulletOrigin (vscale s b.g_BulletDirection))
    (ticks : List (TickInput ℝ)) (hdt : ∀ i ∈ ticks, 0 ≤ i.t_diff)
    (hvis : ∀ pre, pre <+: ticks → pre ≠ ticks →
      (projectileRun Real.sqrt b pre).g_BulletVisible = true) :
    (projectileRun Real.sqrt b ticks).g_BulletOrigin = b.g_BulletOrigin
    ∧ (projectileRun Real.sqrt b ticks).g_BulletDirection = b.g_BulletDirection
    ∧ (projectileRun Real.sqrt b ticks).g_BulletPosition
        = vadd b.g_BulletOrigin (vscale (s + travel ticks) b.g_BulletDirection)
    ∧ 0 ≤ travel ticks
    ∧ (ticks ≠ [] →
        (projectileRun Real.sqrt b ticks).g_BulletDistance
          = (s + travel ticks) * norm Real.sqrt b.g_BulletDirection
        ∧ ((projectileRun Real.sqrt b ticks).g_BulletVisible = true
          ↔ (projectileRun Real.sqrt b ticks).g_BulletDistance < 60)) := by
  induction ticks using List.reverseRecOn with
  | nil =>
    refine ⟨rfl, rfl, ?_, ?_, fun h => absurd rfl h⟩
    · simp [projectileRun, travel, hray]
    · simp [travel]
  | append_singleton pre x ih =>
    have hne : pre ≠ pre ++ [x] := by
      intro h
      have := congrArg List.length h
      simp at this
    have hdt' : ∀ i ∈ pre, 0 ≤ i.t_diff := fun i hi => hdt i (List.mem_append_left _ hi)
    have hvis' : ∀ q, q <+: pre → q ≠ pre →
        (projectileRun Real.sqrt b q).g_BulletVisible = true := by
      intro q hq hqne
      refine hvis q (hq.trans (List.prefix_append _ _)) ?_
      intro h
      have h1 := hq.length_le
      have h2 := congrArg List.length h
      simp at h2
      omega
    obtain ⟨i1, i2, i3, i4, -⟩ := ih hdt' hvis'
    have hvpre := hvis pre (List.prefix_append _ _) hne
    have hx : 0 ≤ x.t_diff := hdt x (by simp)
    have hs' : 0 ≤ s + travel pre := by linarith
    have hray' : (projectileRun Real.sqrt b pre).g_BulletPosition
        = vadd (projectileRun Real.sqrt b pre).g_BulletOrigin
            (vscale (s + travel pre) (projectileRun Real.sqrt b pre).g_BulletDirection) := by
      rw [i1, i2, i3]
    have hstep : projectileRun Real.sqrt b (pre ++ [x])
        = advanceBullet Real.sqrt x.t_diff (projectileRun Real.sqrt b pre) := by
      rw [projectileRun_append]
      simp only [projectileRun, projectileTick]
      rw [spawnBullet_of_visible _ _ _ _ hvpre]
    obtain ⟨a1, a2, a3, a4⟩ := advanceBullet_onRay _ (s + travel pre) x.t_diff hvpre hs' hx hray'
    have htr : travel (pre ++ [x]) = travel pre + (cameraSpeed + x.t_diff) := by
      rw [travel_append]
      simp [travel]
    have hc : (0 : ℝ) ≤ cameraSpeed := by norm_num [cameraSpeed]
    rw [hstep, htr]
    refine ⟨a1.trans i1, a2.trans i2, ?_, by linarith, fun _ => ⟨?_, ?_⟩⟩
    · rw [a3, i1, i2]
      congr 2
      ring
    · rw [a4, i2]
      ring
    · rw [advanceBullet_visible]
      simp [hvpre]

end FlightFacts
section FlightFromSpawn

theorem spawnBullet_state {F : Type} [LinearOrderedField F] (sqrt : F → F) (cam : Camera F)
    (b0 : Bullet F) (hb0 : b0.g_BulletVisible = false) :
    (spawnBullet sqrt true cam b0).g_BulletVisible = true
    ∧ (spawnBullet sqrt true cam b0).g_BulletPosition
        = (spawnBullet sqrt true cam b0).g_BulletOrigin
    ∧ (spawnBullet sqrt true cam b0).g_BulletDirection = cam.g_CameraViewVector := by
  simp [spawnBullet, hb0]

/-- A run that starts with a spawn frame equals the run of the spawned
projectile over the same frames. -/
theorem projectileRun_spawn {F : Type} [LinearOrderedField F] (sqrt : F → F) (b0 : Bullet F)
    (t0 : TickInput F) (rest : List (TickInput F)) (hb0 : b0.g_BulletVisible = false)
    (hfire : t0.g_LeftMouseButtonPressed = true) :
    projectileRun sqrt b0 (t0 :: rest)
      = projectileRun sqrt (spawnBullet sqrt true t0.cam b0) (t0 :: rest) := by
  simp only [projectileRun, projectileTick, hfire]
  rw [spawnBullet_of_visible sqrt true t0.cam _ (spawnBullet_state sqrt t0.cam b0 hb0).1]

/-- Along a run of a visible projectile on its ray, if the distance computed by
every frame but the last is below 60, the projectile is visible at the start of
every frame. -/
theorem flight_visible_of_distance (b : Bullet ℝ) (s : ℝ) (hv : b.g_BulletVisible = true)
    (hs : 0 ≤ s)
    (hray : b.g_BulletPosition = vadd b.g_BulletOrigin (vscale s b.g_BulletDirection))
    (ticks : List (TickInput ℝ)) (hdt : ∀ i ∈ ticks, 0 ≤ i.t_diff)
    (hd : ∀ q, q <+: ticks → q ≠ [] → q ≠ ticks →
      (projectileRun Real.sqrt b q).g_BulletDistance < 60) :
    ∀ q, q <+: ticks → q ≠ ticks → (projectileRun Real.sqrt b q).g_BulletVisible = true := by
  have key : ∀ q : List (TickInput ℝ), q <+: ticks → q ≠ ticks →
      ∀ r, r <+: q → (projectileRun Real.sqrt b r).g_BulletVisible = true := by
    intro q
    induction q using List.reverseRecOn with
    | nil =>
      intro _ _ r hr
      rw [List.prefix_nil.mp hr]
      exact hv
    | append_singleton pre x ih =>
      intro hq hqne r hr
      have hpre : pre <+: ticks := (List.prefix_append pre [x]).trans hq
      have hprene : pre ≠ ticks := by
        intro h
        have h1 := hq.length_le
        rw [h] at h1
        simp at h1
      have ih' := ih hpre hprene
      rcases List.prefix_concat_iff.mp hr with h | h
      · rw [h]
        have hdt' : ∀ i ∈ pre ++ [x], 0 ≤ i.t_diff := fun i hi => hdt i (hq.subset hi)
        have hvis' : ∀ q', q' <+: pre ++ [x] → q' ≠ pre ++ [x] →
            (projectileRun Real.sqrt b q').g_BulletVisible = true := by
          intro q' hq' hq'ne
          rcases List.prefix_concat_iff.mp hq' with h' | h'
          · exact absurd h' hq'ne
          · exact ih' q' h'
        have hinv := (flight_invariant b s hs hray (pre ++ [x]) hdt' hvis').2.2.2.2 (by simp)
        rw [hinv.2]
        exact hd (pre ++ [x]) hq (by simp) hqne
      · exact ih' r h
  intro q hq hqne
  exact key q hq hqne q (List.prefix_refl q)

/-- C11: distance-limit despawn along a flight.  The flight starts with a spawn
frame `t0` (fire input active, no projectile visible, view vector of length 1)
and goes on over the frames `pre` and then `x`, every frame time being
nonnegative.  After the spawn frame the distance is `0.05 + dt` and the
projectile is visible exactly when that is below 60.  If the distance computed
by the spawn frame and by every frame of `pre` is below 60, then after the frame
`x` the projectile is visible exactly when its updated distance is below 60,
and that distance is the previous one plus `0.05 + dt`, hence below
`60 + (0.05 + dt)`. -/
theorem distance_limit_despawn (b0 : Bullet ℝ) (t0 : TickInput ℝ)
    (pre : List (TickInput ℝ)) (x : TickInput ℝ)
    (hb0 : b0.g_BulletVisible = false) (hfire : t0.g_LeftMouseButtonPressed = true)
    (hunit : norm Real.sqrt t0.cam.g_CameraViewVector = 1)
    (hdt0 : 0 ≤ t0.t_diff) (hdt : ∀ i ∈ pre, 0 ≤ i.t_diff) (hx : 0 ≤ x.t_diff)
    (hearlier : ∀ q, q <+: pre →
      (projectileRun Real.sqrt b0 (t0 :: q)).g_BulletDistance < 60) :
    ((projectileRun Real.sqrt b0 [t0]).g_BulletDistance = cameraSpeed + t0.t_diff
      ∧ ((projectileRun Real.sqrt b0 [t0]).g_BulletVisible = true
          ↔ (projectileRun Real.sqrt b0 [t0]).g_BulletDistance < 60))
    ∧ ((projectileRun Real.sqrt b0 (t0 :: (pre ++ [x]))).g_BulletVisible = true
        ↔ (projectileRun Real.sqrt b0 (t0 :: (pre ++ [x]))).g_BulletDistance < 60)
    ∧ (projectileRun Real.sqrt b0 (t0 :: (pre ++ [x]))).g_BulletDistance
        = (projectileRun Real.sqrt b0 (t0 :: pre)).g_BulletDistance + (cameraSpeed + x.t_diff)
    ∧ (projectileRun Real.sqrt b0 (t0 :: (pre ++ [x]))).g_BulletDistance
        < 60 + (cameraSpeed + x.t_diff)
    ∧ (projectileRun Real.sqrt b0 (t0 :: (pre ++ [x]))).g_BulletDistance
        = travel (t0 :: (pre ++ [x])) := by
  obtain ⟨sv, sp, sd⟩ := spawnBullet_state Real.sqrt t0.cam b0 hb0
  have hray : (spawnBullet Real.sqrt true t0.cam b0).g_BulletPosition
      = vadd (spawnBullet Real.sqrt true t0.cam b0).g_BulletOrigin
          (vscale 0 (spawnBullet Real.sqrt true t0.cam b0).g_BulletDirection) := by
    rw [sp]
    ext <;> simp [vadd, vscale]
  have hnorm : norm Real.sqrt (spawnBullet Real.sqrt true t0.cam b0).g_BulletDirection = 1 := by
    rw [sd]; exact hunit
  -- the frames of the flight and their frame times
  have hdtall : ∀ i ∈ t0 :: (pre ++ [x]), 0 ≤ i.t_diff := by
    intro i hi
    simp only [List.mem_cons, List.mem_append, List.not_mem_nil, or_false] at hi
    rcases hi with h | h | h
    · rw [h]; exact hdt0
    · exact hdt i h
    · rw [h]; exact hx
  -- the distances of the earlier frames, for the spawned projectile
  have hd : ∀ q, q <+: t0 :: (pre ++ [x]) → q ≠ [] → q ≠ t0 :: (pre ++ [x]) →
      (projectileRun Real.sqrt (spawnBullet Real.sqrt true t0.cam b0) q).g_BulletDistance
        < 60 := by
    intro q hq hqne hqne'
    cases q with
    | nil => exact absurd rfl hqne
    | cons a q' =>
      have hq2 : a = t0 ∧ q' <+: pre ++ [x] := by
        have := List.cons_prefix_cons.mp hq
        exact this
      obtain ⟨ha, hq'⟩ := hq2
      subst ha
      rcases List.prefix_concat_iff.mp hq' with h | h
      · rw [h] at hqne'
        exact absurd rfl hqne'
      · rw [← projectileRun_spawn Real.sqrt b0 a q' hb0 hfire]
        exact hearlier q' h
  have hvis := flight_visible_of_distance _ 0 sv le_rfl hray (t0 :: (pre ++ [x])) hdtall hd
  -- the state after the spawn frame
  have h1 := flight_invariant _ 0 le_rfl hray [t0]
    (fun i hi => hdtall i (by
      rw [List.mem_singleton] at hi
      rw [hi]; simp))
    (fun q hq hqne => by
      have hq0 : q = [] := by
        rcases List.prefix_concat_iff.mp (show q <+: [] ++ [t0] from hq) with h | h
        · exact absurd h hqne
        · exact List.prefix_nil.mp h
      rw [hq0]
      exact sv)
  -- the state after the frames of `pre`
  have h2 := flight_invariant _ 0 le_rfl hray (t0 :: pre)
    (fun i hi => hdtall i (by
      simp only [List.mem_cons, List.mem_append] at hi ⊢
      rcases hi with h | h
      · exact Or.inl h
      · exact Or.inr (Or.inl h)))
    (fun q hq hqne => hvis q (hq.trans (by
        rw [show t0 :: (pre ++ [x]) = (t0 :: pre) ++ [x] from rfl]
        exact List.prefix_append _ _)) (by
      intro h
      have hl := hq.length_le
      rw [h] at hl
      simp at hl))
  -- the state after the frame `x`
  have h3 := flight_invariant _ 0 le_rfl hray (t0 :: (pre ++ [x])) hdtall hvis
  have e1 := h1.2.2.2.2 (by simp)
  have e2 := h2.2.2.2.2 (by simp)
  have e3 := h3.2.2.2.2 (by simp)
  have hprev := hearlier pre (List.prefix_refl pre)
  rw [projectileRun_spawn Real.sqrt b0 t0 [] hb0 hfire,
    projectileRun_spawn Real.sqrt b0 t0 (pre ++ [x]) hb0 hfire]
  rw [projectileRun_spawn Real.sqrt b0 t0 pre hb0 hfire] at hprev ⊢
  have htr : travel (t0 :: (pre ++ [x])) = travel (t0 :: pre) + (cameraSpeed + x.t_diff) := by
    rw [show t0 :: (pre ++ [x]) = (t0 :: pre) ++ [x] from rfl, travel_append]
    simp [travel]
  have htr0 : travel [t0] = cameraSpeed + t0.t_diff := by simp [travel]
  rw [hnorm, mul_one, zero_add] at e1 e2 e3
  refine ⟨⟨?_, e1.2⟩, e3.2, ?_, ?_, e3.1⟩
  · rw [e1.1, htr0]
  · rw [e3.1, e2.1, htr]
  · rw [e3.1, htr]
    rw [e2.1] at hprev
    linarith

end FlightFromSpawn
section FlightClaims

/-- The frame that spawns a projectile: the distance it computes and the
visible flag it leaves. -/
theorem spawn_frame (b0 : Bullet ℝ) (t0 : TickInput ℝ) (hb0 : b0.g_BulletVisible = false)
    (hfire : t0.g_LeftMouseButtonPressed = true) (hdt0 : 0 ≤ t0.t_diff) :
    (projectileRun Real.sqrt b0 [t0]).g_BulletDistance
      = (cameraSpeed + t0.t_diff) * norm Real.sqrt t0.cam.g_CameraViewVector
    ∧ ((projectileRun Real.sqrt b0 [t0]).g_BulletVisible = true
        ↔ (projectileRun Real.sqrt b0 [t0]).g_BulletDistance < 60) := by
  obtain ⟨sv, sp, sd⟩ := spawnBullet_state Real.sqrt t0.cam b0 hb0
  have hray : (spawnBullet Real.sqrt true t0.cam b0).g_BulletPosition
      = vadd (spawnBullet Real.sqrt true t0.cam b0).g_BulletOrigin
          (vscale 0 (spawnBullet Real.sqrt true t0.cam b0).g_BulletDirection) := by
    rw [sp]
    ext <;> simp [vadd, vscale]
  have h1 := (flight_invariant _ 0 le_rfl hray [t0]
    (fun i hi => by
      rw [List.mem_singleton] at hi
      rw [hi]; exact hdt0)
    (fun q hq hqne => by
      have hq0 : q = [] := by
        rcases List.prefix_concat_iff.mp (show q <+: [] ++ [t0] from hq) with h | h
        · exact absurd h hqne
        · exact List.prefix_nil.mp h
      rw [hq0]
      exact sv)).2.2.2.2 (by simp)
  rw [projectileRun_spawn Real.sqrt b0 t0 [] hb0 hfire]
  refine ⟨?_, h1.2⟩
  rw [h1.1, sd]
  simp [travel]

theorem norm_cameraInit_view :
    norm Real.sqrt (cameraInit : Camera ℝ).g_CameraViewVector = 1 := by
  simp [norm, cameraInit]

/-- Witness of C11: from the idle projectile, a spawn frame with frame time 0
(distance 0.05, visible) and then a frame with frame time 60: the distance
becomes 60.1 and the projectile is invisible. -/
theorem distance_limit_despawn_witness :
    (bulletIdle : Bullet ℝ).g_BulletVisible = false
    ∧ norm Real.sqrt (cameraInit : Camera ℝ).g_CameraViewVector = 1
    ∧ (projectileRun Real.sqrt bulletIdle [⟨true, 0, cameraInit⟩]).g_BulletVisible = true
    ∧ (projectileRun Real.sqrt bulletIdle
        (⟨true, 0, cameraInit⟩ :: ([] ++ [⟨false, 60, cameraInit⟩]))).g_BulletDistance
        = cameraSpeed + (cameraSpeed + 60)
    ∧ (projectileRun Real.sqrt bulletIdle
        (⟨true, 0, cameraInit⟩ :: ([] ++ [⟨false, 60, cameraInit⟩]))).g_BulletVisible
        = false := by
  have hs := spawn_frame (bulletIdle : Bullet ℝ) ⟨true, 0, cameraInit⟩ rfl rfl le_rfl
  have hd0 : (projectileRun Real.sqrt (bulletIdle : Bullet ℝ)
      [⟨true, 0, cameraInit⟩]).g_BulletDistance = cameraSpeed := by
    rw [hs.1, norm_cameraInit_view]
    simp
  have hearlier : ∀ q : List (TickInput ℝ), q <+: [] →
      (projectileRun Real.sqrt (bulletIdle : Bullet ℝ)
        (⟨true, 0, cameraInit⟩ :: q)).g_BulletDistance < 60 := by
    intro q hq
    rw [List.prefix_nil.mp hq, hd0]
    norm_num [cameraSpeed]
  have h := distance_limit_despawn (bulletIdle : Bullet ℝ) ⟨true, 0, cameraInit⟩ []
    ⟨false, 60, cameraInit⟩ rfl rfl norm_cameraInit_view le_rfl
    (fun i hi => absurd hi (List.not_mem_nil i)) (by norm_num) hearlier
  obtain ⟨⟨-, h1⟩, h2, h3, -, -⟩ := h
  have hd1 : (projectileRun Real.sqrt (bulletIdle : Bullet ℝ)
      (⟨true, 0, cameraInit⟩ :: ([] ++ [⟨false, 60, cameraInit⟩]))).g_BulletDistance
      = cameraSpeed + (cameraSpeed + 60) := by
    rw [h3, hd0]
  refine ⟨rfl, norm_cameraInit_view, ?_, hd1, ?_⟩
  · rw [h1, hd0]
    norm_num [cameraSpeed]
  · have hnot : ¬ ((projectileRun Real.sqrt (bulletIdle : Bullet ℝ)
        (⟨true, 0, cameraInit⟩ :: ([] ++ [⟨false, 60, cameraInit⟩]))).g_BulletVisible
        = true) := by
      rw [h2, hd1]
      norm_num [cameraSpeed]
    simpa using hnot

/-- C13: the distance is non-decreasing along a flight.  The flight starts with
a spawn frame `t0` and goes on over the frames `pre` and then `y`, every frame
time being nonnegative and the projectile being visible at the start of every
frame after the spawn.  The distance computed by the frame `y` is at least the
distance computed by the frame before it; after each of the two frames the
position is `origin + s * direction` with `s` the sum of the travel increments
so far, and the distance is the length of `position - origin`. -/
theorem distance_monotone (b0 : Bullet ℝ) (t0 : TickInput ℝ) (pre : List (TickInput ℝ))
    (y : TickInput ℝ)
    (hb0 : b0.g_BulletVisible = false) (hfire : t0.g_LeftMouseButtonPressed = true)
    (hdt0 : 0 ≤ t0.t_diff) (hdt : ∀ i ∈ pre, 0 ≤ i.t_diff) (hy : 0 ≤ y.t_diff)
    (hflight : ∀ q, q <+: pre →
      (projectileRun Real.sqrt b0 (t0 :: q)).g_BulletVisible = true) :
    (projectileRun Real.sqrt b0 (t0 :: pre)).g_BulletDistance
      ≤ (projectileRun Real.sqrt b0 (t0 :: (pre ++ [y]))).g_BulletDistance
    ∧ (projectileRun Real.sqrt b0 (t0 :: pre)).g_BulletPosition
        = vadd (projectileRun Real.sqrt b0 (t0 :: pre)).g_BulletOrigin
            (vscale (travel (t0 :: pre))
              (projectileRun Real.sqrt b0 (t0 :: pre)).g_BulletDirection)
    ∧ (projectileRun Real.sqrt b0 (t0 :: (pre ++ [y]))).g_BulletPosition
        = vadd (projectileRun Real.sqrt b0 (t0 :: (pre ++ [y]))).g_BulletOrigin
            (vscale (travel (t0 :: pre) + (cameraSpeed + y.t_diff))
              (projectileRun Real.sqrt b0 (t0 :: (pre ++ [y]))).g_BulletDirection)
    ∧ (projectileRun Real.sqrt b0 (t0 :: pre)).g_BulletDistance
        = norm Real.sqrt (vsub (projectileRun Real.sqrt b0 (t0 :: pre)).g_BulletPosition
            (projectileRun Real.sqrt b0 (t0 :: pre)).g_BulletOrigin)
    ∧ (projectileRun Real.sqrt b0 (t0 :: (pre ++ [y]))).g_BulletDistance
        = norm Real.sqrt
            (vsub (projectileRun Real.sqrt b0 (t0 :: (pre ++ [y]))).g_BulletPosition
              (projectileRun Real.sqrt b0 (t0 :: (pre ++ [y]))).g_BulletOrigin) := by
  obtain ⟨sv, sp, sd⟩ := spawnBullet_state Real.sqrt t0.cam b0 hb0
  have hray : (spawnBullet Real.sqrt true t0.cam b0).g_BulletPosition
      = vadd (spawnBullet Real.sqrt true t0.cam b0).g_BulletOrigin
          (vscale 0 (spawnBullet Real.sqrt true t0.cam b0).g_BulletDirection) := by
    rw [sp]
    ext <;> simp [vadd, vscale]
  have hdtall : ∀ i ∈ t0 :: (pre ++ [y]), 0 ≤ i.t_diff := by
    intro i hi
    simp only [List.mem_cons, List.mem_append, List.not_mem_nil, or_false] at hi
    rcases hi with h | h | h
    · rw [h]; exact hdt0
    · exact hdt i h
    · rw [h]; exact hy
  have hvis : ∀ q, q <+: t0 :: (pre ++ [y]) → q ≠ t0 :: (pre ++ [y]) →
      (projectileRun Real.sqrt (spawnBullet Real.sqrt true t0.cam b0) q).g_BulletVisible
        = true := by
    intro q hq hqne
    cases q with
    | nil => exact sv
    | cons a q' =>
      obtain ⟨ha, hq'⟩ := List.cons_prefix_cons.mp hq
      subst ha
      rcases List.prefix_concat_iff.mp hq' with h | h
      · rw [h] at hqne
        exact absurd rfl hqne
      · rw [← projectileRun_spawn Real.sqrt b0 a q' hb0 hfire]
        exact hflight q' h
  have h2 := flight_invariant _ 0 le_rfl hray (t0 :: pre)
    (fun i hi => hdtall i (by
      simp only [List.mem_cons, List.mem_append] at hi ⊢
      rcases hi with h | h
      · exact Or.inl h
      · exact Or.inr (Or.inl h)))
    (fun q hq hqne => hvis q (hq.trans (by
        rw [show t0 :: (pre ++ [y]) = (t0 :: pre) ++ [y] from rfl]
        exact List.prefix_append _ _)) (by
      intro h
      have hl := hq.length_le
      rw [h] at hl
      simp at hl))
  have h3 := flight_invariant _ 0 le_rfl hray (t0 :: (pre ++ [y])) hdtall hvis
  have e2 := (h2.2.2.2.2 (by simp)).1
  have e3 := (h3.2.2.2.2 (by simp)).1
  have htr : travel (t0 :: (pre ++ [y])) = travel (t0 :: pre) + (cameraSpeed + y.t_diff) := by
    rw [show t0 :: (pre ++ [y]) = (t0 :: pre) ++ [y] from rfl, travel_append]
    simp [travel]
  have hc : (0 : ℝ) ≤ cameraSpeed := by norm_num [cameraSpeed]
  have hsub : ∀ (o d : Vec3 ℝ) (k : ℝ), vsub (vadd o (vscale k d)) o = vscale k d := by
    intro o d k
    ext <;> simp only [vadd, vscale, vsub] <;> ring
  rw [projectileRun_spawn Real.sqrt b0 t0 pre hb0 hfire,
    projectileRun_spawn Real.sqrt b0 t0 (pre ++ [y]) hb0 hfire]
  rw [zero_add] at e2 e3
  refine ⟨?_, ?_, ?_, ?_, ?_⟩
  · rw [e2, e3, htr]
    have hn := norm_nonneg_real (spawnBullet Real.sqrt true t0.cam b0).g_BulletDirection
    nlinarith
  · rw [h2.2.2.1, h2.1, h2.2.1, zero_add]
  · rw [h3.2.2.1, h3.1, h3.2.1, zero_add, htr]
  · rw [e2, h2.2.2.1, h2.1, hsub, zero_add, norm_vscale_real _ h2.2.2.2.1]
  · rw [e3, h3.2.2.1, h3.1, hsub, zero_add, norm_vscale_real _ h3.2.2.2.1]

/-- Witness of C13: a spawn frame with frame time 0 followed by a frame with
frame time 1. -/
theorem distance_monotone_witness :
    (bulletIdle : Bullet ℝ).g_BulletVisible = false
    ∧ (projectileRun Real.sqrt bulletIdle [⟨true, 0, cameraInit⟩]).g_BulletVisible = true
    ∧ (projectileRun Real.sqrt (bulletIdle : Bullet ℝ) [⟨true, 0, cameraInit⟩]).g_BulletDistance
        ≤ (projectileRun Real.sqrt bulletIdle
            (⟨true, 0, cameraInit⟩ :: ([] ++ [⟨false, 1, cameraInit⟩]))).g_BulletDistance := by
  have hs := spawn_frame (bulletIdle : Bullet ℝ) ⟨true, 0, cameraInit⟩ rfl rfl le_rfl
  have hd0 : (projectileRun Real.sqrt (bulletIdle : Bullet ℝ)
      [⟨true, 0, cameraInit⟩]).g_BulletDistance = cameraSpeed := by
    rw [hs.1, norm_cameraInit_view]
    simp
  have hv0 : (projectileRun Real.sqrt (bulletIdle : Bullet ℝ)
      [⟨true, 0, cameraInit⟩]).g_BulletVisible = true := by
    rw [hs.2, hd0]
    norm_num [cameraSpeed]
  have hflight : ∀ q : List (TickInput ℝ), q <+: [] →
      (projectileRun Real.sqrt (bulletIdle : Bullet ℝ)
        (⟨true, 0, cameraInit⟩ :: q)).g_BulletVisible = true := by
    intro q hq
    rw [List.prefix_nil.mp hq]
    exact hv0
  exact ⟨rfl, hv0, (distance_monotone (bulletIdle : Bullet ℝ) ⟨true, 0, cameraInit⟩ []
    ⟨false, 1, cameraInit⟩ rfl rfl le_rfl (fun i hi => absurd hi (List.not_mem_nil i))
    (by norm_num) hflight).1⟩

end FlightClaims

/-! ## The fire input -/

section FireInput

theorem MouseButtonCallback_left {F : Type} [LinearOrderedField F] (e : MouseEvent F)
    (g : MouseGlobals F) :
    (MouseButtonCallback e g).g_LeftMouseButtonPressed
      = if e.button = .left ∧ e.action = .press then true
        else if e.button = .left ∧ e.action = .release then false
        else g.g_LeftMouseButtonPressed := by
  obtain ⟨button, action, xpos, ypos⟩ := e
  cases button <;> cases action <;> simp [MouseButtonCallback]
  split_ifs <;> rfl

theorem foldl_MouseButtonCallback_left {F : Type} [LinearOrderedField F]
    (events : List (MouseEvent F)) (g : MouseGlobals F)
    (h : ∀ e ∈ events, e.button ≠ .left) :
    (events.foldl (fun g e => MouseButtonCallback e g) g).g_LeftMouseButtonPressed
      = g.g_LeftMouseButtonPressed := by
  induction events generalizing g with
  | nil => rfl
  | cons e rest ih =>
    rw [List.foldl_cons, ih _ (fun e' he' => h e' (List.mem_cons_of_mem _ he')),
      MouseButtonCallback_left]
    have := h e (List.mem_cons_self _ _)
    simp [this]

/-- Counterexample to C12: the left button is held and no button event arrives.
The first frame despawns the projectile in flight (distance 60.04); at the start
of the second frame the button is still held, as it was on the previous frame,
and no projectile is visible; the second frame spawns a projectile, which is
visible after that frame. -/
theorem held_button_spawns_again :
    (mouseLeftHeld : MouseGlobals ℝ).g_LeftMouseButtonPressed = true
    ∧ (fireFrame Real.sqrt quietFrame
        (mouseLeftHeld, (bulletNearLimit : Bullet ℝ))).1.g_LeftMouseButtonPressed = true
    ∧ (fireFrame Real.sqrt quietFrame
        (mouseLeftHeld, (bulletNearLimit : Bullet ℝ))).2.g_BulletVisible = false
    ∧ (fireFrame Real.sqrt quietFrame (fireFrame Real.sqrt quietFrame
        (mouseLeftHeld, (bulletNearLimit : Bullet ℝ)))).2.g_BulletVisible = true := by
  have hE : (fireFrame Real.sqrt quietFrame
      (mouseLeftHeld, (bulletNearLimit : Bullet ℝ))).1 = mouseLeftHeld := rfl
  have hd : ¬ (distanceBetweenPoints Real.sqrt (⟨0, 0, 0⟩ : Vec3 ℝ)
      ⟨0, 0, 5999 / 100 + 5 / 100⟩ < 60) := by
    simp only [distanceBetweenPoints, norm, vsub, not_lt]
    rw [Real.le_sqrt' (by norm_num)]
    norm_num
  have h1 : (fireFrame Real.sqrt quietFrame
      (mouseLeftHeld, (bulletNearLimit : Bullet ℝ))).2.g_BulletVisible = false := by
    have hnot : ¬ ((fireFrame Real.sqrt quietFrame
        (mouseLeftHeld, (bulletNearLimit : Bullet ℝ))).2.g_BulletVisible = true) := by
      simp only [fireFrame, projectileTick]
      rw [advanceBullet_visible]
      intro h
      apply hd
      have h2 := h.2
      simpa [spawnBullet, advanceBullet, bulletNearLimit, quietFrame, mouseLeftHeld, vadd,
        vscale, cameraSpeed] using h2
    simpa using hnot
  refine ⟨rfl, rfl, h1, ?_⟩
  have hs := spawn_frame (fireFrame Real.sqrt quietFrame
      (mouseLeftHeld, (bulletNearLimit : Bullet ℝ))).2 ⟨true, 0, cameraInit⟩ h1 rfl le_rfl
  have hrun : (fireFrame Real.sqrt quietFrame (fireFrame Real.sqrt quietFrame
        (mouseLeftHeld, (bulletNearLimit : Bullet ℝ)))).2
      = projectileRun Real.sqrt (fireFrame Real.sqrt quietFrame
          (mouseLeftHeld, (bulletNearLimit : Bullet ℝ))).2 [⟨true, 0, cameraInit⟩] := rfl
  rw [hrun, hs.2, hs.1, norm_cameraInit_view]
  norm_num [cameraSpeed]

/-- C12 (amended): the fire input is the level of the flag
`g_LeftMouseButtonPressed`, which the press event of the left button sets, its
release event clears and every other event leaves as it is.  On a frame that
starts with no projectile visible and the flag set, a projectile is spawned,
whether or not the flag was already set on the frame before; with the flag clear
none is spawned and the projectile globals are left as they are. -/
theorem spawn_while_held {F : Type} [LinearOrderedField F] (sqrt : F → F)
    (inp : FrameInput F) (g : MouseGlobals F) (b : Bullet F)
    (hb : b.g_BulletVisible = false) :
    (fireFrame sqrt inp (g, b)).2
      = advanceBullet sqrt inp.t_diff (spawnBullet sqrt g.g_LeftMouseButtonPressed inp.cam b)
    ∧ (g.g_LeftMouseButtonPressed = true →
        (spawnBullet sqrt g.g_LeftMouseButtonPressed inp.cam b).g_BulletVisible = true
        ∧ (fireFrame sqrt inp (g, b)).2.g_BulletDirection = inp.cam.g_CameraViewVector
        ∧ ((fireFrame sqrt inp (g, b)).2.g_BulletVisible = true
            ↔ (fireFrame sqrt inp (g, b)).2.g_BulletDistance < 60))
    ∧ (g.g_LeftMouseButtonPressed = false → (fireFrame sqrt inp (g, b)).2 = b)
    ∧ (∀ e : MouseEvent F, (MouseButtonCallback e g).g_LeftMouseButtonPressed
        = if e.button = .left ∧ e.action = .press then true
          else if e.button = .left ∧ e.action = .release then false
          else g.g_LeftMouseButtonPressed)
    ∧ ((∀ e ∈ inp.events, e.button ≠ .left) →
        (fireFrame sqrt inp (g, b)).1.g_LeftMouseButtonPressed = g.g_LeftMouseButtonPressed) := by
  refine ⟨rfl, ?_, ?_, fun e => MouseButtonCallback_left e g, ?_⟩
  · intro hg
    have hsp := spawnBullet_state sqrt inp.cam b hb
    simp only [fireFrame, projectileTick, hg]
    refine ⟨hsp.1, ?_, ?_⟩
    · simp [advanceBullet, hsp.1, hsp.2.2]
    · rw [advanceBullet_visible]
      simp [hsp.1]
  · intro hg
    simp [fireFrame, projectileTick, spawnBullet, advanceBullet, hg, hb]
  · intro h
    exact foldl_MouseButtonCallback_left inp.events g h

/-- Witness of C12 (amended): the idle projectile, with the left button held. -/
theorem spawn_while_held_witness :
    (bulletIdle : Bullet ℝ).g_BulletVisible = false
    ∧ (mouseLeftHeld : MouseGlobals ℝ).g_LeftMouseButtonPressed = true
    ∧ (spawnBullet Real.sqrt (mouseLeftHeld : MouseGlobals ℝ).g_LeftMouseButtonPressed
        (quietFrame : FrameInput ℝ).cam bulletIdle).g_BulletVisible = true
    ∧ (fireFrame Real.sqrt quietFrame
        (mouseLeftHeld, (bulletIdle : Bullet ℝ))).1.g_LeftMouseButtonPressed = true :=
  ⟨rfl, rfl,
    ((spawn_while_held Real.sqrt quietFrame mouseLeftHeld (bulletIdle : Bullet ℝ) rfl).2.1
      rfl).1,
    ((spawn_while_held Real.sqrt quietFrame mouseLeftHeld (bulletIdle : Bullet ℝ)
      rfl).2.2.2.2 (fun e he => absurd he (List.not_mem_nil e))).trans rfl⟩

end FireInput

/-! ## Target-lock entry: the scenario, ties, and no visible asteroid -/

section EntryClaims

theorem sqrt_le_real (a b : ℝ) (h : a ≤ b) : Real.sqrt a ≤ Real.sqrt b :=
  Real.sqrt_le_sqrt h

/-- C14: the target-lock scenario.  With the five positions of `g_AsteroidPos`,
the camera at the origin and all five asteroids visible, the entry selects index
3, writes (43, 89, -25) into `g_CameraLookAt` and locks; with asteroid 3 hidden
and the others visible it selects index 0, which is at minimal distance among
the visible asteroids, writes (-100, 100, 0) and locks. -/
theorem targetLock_scenario (s : LockState ℝ) :
    (g_AsteroidPos : Fin 5 → Vec3 ℝ)
      = ![⟨-100, 100, 0⟩, ⟨-35, -50, -240⟩, ⟨225, 0, 180⟩, ⟨43, 89, -25⟩, ⟨-130, -150, 230⟩]
    ∧ ((targetLockEntry Real.sqrt ⟨0, 0, 0⟩ ![true, true, true, true, true]
          s).g_ClosestAsteroid = 3
      ∧ (targetLockEntry Real.sqrt ⟨0, 0, 0⟩ ![true, true, true, true, true]
          s).g_CameraLookAt = ⟨43, 89, -25⟩
      ∧ (targetLockEntry Real.sqrt ⟨0, 0, 0⟩ ![true, true, true, true, true]
          s).g_TargetLocked = true)
    ∧ ((targetLockEntry Real.sqrt ⟨0, 0, 0⟩ ![true, true, true, false, true]
          s).g_ClosestAsteroid = 0
      ∧ (targetLockEntry Real.sqrt ⟨0, 0, 0⟩ ![true, true, true, false, true]
          s).g_CameraLookAt = ⟨-100, 100, 0⟩
      ∧ (targetLockEntry Real.sqrt ⟨0, 0, 0⟩ ![true, true, true, false, true]
          s).g_TargetLocked = true)
    ∧ (∀ j : Fin 5, (![true, true, true, false, true] : Fin 5 → Bool) j = true →
        distanceBetweenPoints Real.sqrt (⟨0, 0, 0⟩ : Vec3 ℝ) (g_AsteroidPos 0)
          ≤ distanceBetweenPoints Real.sqrt (⟨0, 0, 0⟩ : Vec3 ℝ) (g_AsteroidPos j)) := by
  have h1 := sqrt_not_le_real 61325 20000 (by norm_num) (by norm_num)
  have h2 := sqrt_not_le_real 83025 20000 (by norm_num) (by norm_num)
  have h3 := sqrt_le_real 10395 20000 (by norm_num)
  have h4 := sqrt_not_le_real 92300 10395 (by norm_num) (by norm_num)
  have h4' := sqrt_not_le_real 92300 20000 (by norm_num) (by norm_num)
  have hall : (closestAsteroidScan Real.sqrt (⟨0, 0, 0⟩ : Vec3 ℝ)
      ![true, true, true, true, true]).1 = 3 := by
    simp [closestAsteroidScan, scanStep, distanceBetweenPoints, norm, vsub, g_AsteroidPos]
    norm_num [h1, h2, h3, h4]
    rfl
  have hhid : (closestAsteroidScan Real.sqrt (⟨0, 0, 0⟩ : Vec3 ℝ)
      ![true, true, true, false, true]).1 = 0 := by
    simp [closestAsteroidScan, scanStep, distanceBetweenPoints, norm, vsub, g_AsteroidPos]
    norm_num [h1, h2, h4']
  have hgt3 : ((3 : Int) > -1) := by decide
  have hgt0 : ((0 : Int) > -1) := by decide
  have hi3 : asteroidIndex 3 = 3 := rfl
  have hi0 : asteroidIndex 0 = 0 := rfl
  refine ⟨rfl, ⟨?_, ?_, ?_⟩, ⟨?_, ?_, ?_⟩, ?_⟩
  · simp only [targetLockEntry, hall, hgt3, if_true]
  · simp only [targetLockEntry, hall, hgt3, if_true, hi3]
    simp [g_AsteroidPos]
  · simp only [targetLockEntry, hall, hgt3, if_true]
  · simp only [targetLockEntry, hhid, hgt0, if_true]
  · simp only [targetLockEntry, hhid, hgt0, if_true, hi0]
    simp [g_AsteroidPos]
  · simp only [targetLockEntry, hhid, hgt0, if_true]
  · intro j hj
    fin_cases j
    · exact le_rfl
    · simp only [distanceBetweenPoints, norm, vsub, g_AsteroidPos]
      apply Real.sqrt_le_sqrt
      simp
      norm_num
    · simp only [distanceBetweenPoints, norm, vsub, g_AsteroidPos]
      apply Real.sqrt_le_sqrt
      simp
      norm_num
    · simp at hj
    · simp only [distanceBetweenPoints, norm, vsub, g_AsteroidPos]
      apply Real.sqrt_le_sqrt
      simp
      norm_num

end EntryClaims
section TieFacts

variable {F : Type} [LinearOrderedField F]

/-- The invariant of the scan for ties: among the indices tested so far, every
visible asteroid with a higher index than the selected one is strictly farther. -/
theorem scanStep_ties (sqrt : F → F) (cam : Vec3 F) (visible : Fin 5 → Bool)
    (st : Int × F) (i : Fin 5)
    (hst : st.1 ≠ -1 → ∃ j : Fin 5, st.1 = (j.val : Int)
      ∧ st.2 = distanceBetweenPoints sqrt cam (g_AsteroidPos j)
      ∧ ∀ j' : Fin 5, j'.val < i.val → j < j' → visible j' = true →
          distanceBetweenPoints sqrt cam (g_AsteroidPos j)
            < distanceBetweenPoints sqrt cam (g_AsteroidPos j')) :
    (scanStep sqrt cam visible st i).1 ≠ -1 → ∃ j : Fin 5,
      (scanStep sqrt cam visible st i).1 = (j.val : Int)
      ∧ (scanStep sqrt cam visible st i).2 = distanceBetweenPoints sqrt cam (g_AsteroidPos j)
      ∧ ∀ j' : Fin 5, j'.val < i.val + 1 → j < j' → visible j' = true →
          distanceBetweenPoints sqrt cam (g_AsteroidPos j)
            < distanceBetweenPoints sqrt cam (g_AsteroidPos j') := by
  unfold scanStep
  by_cases hcond : distanceBetweenPoints sqrt cam (g_AsteroidPos i) ≤ st.2 ∧ visible i = true
  · simp only [hcond, and_self, if_true]
    intro _
    refine ⟨i, rfl, rfl, ?_⟩
    intro j' hj' hlt _
    have : i.val < j'.val := hlt
    omega
  · rw [if_neg hcond]
    intro hne
    obtain ⟨j, hj, hd, hall⟩ := hst hne
    refine ⟨j, hj, hd, ?_⟩
    intro j' hj' hlt hv
    by_cases hji : j'.val < i.val
    · exact hall j' hji hlt hv
    · have hji' : j' = i := Fin.ext (by omega)
      subst hji'
      rw [← hd]
      exact not_le.mp (fun hle => hcond ⟨hle, hv⟩)

/-- Ties in the closest-asteroid scan: when the scan selects an asteroid, every
visible asteroid with a higher index is strictly farther from the camera, so
among the visible asteroids at minimal distance the scan selects the one with
the highest index. -/
theorem closestAsteroidScan_ties (sqrt : F → F) (cam : Vec3 F) (visible : Fin 5 → Bool)
    (hne : (closestAsteroidScan sqrt cam visible).1 ≠ -1) :
    ∃ j : Fin 5, (closestAsteroidScan sqrt cam visible).1 = (j.val : Int)
      ∧ visible j = true
      ∧ (∀ j', visible j' = true →
          distanceBetweenPoints sqrt cam (g_AsteroidPos j)
            ≤ distanceBetweenPoints sqrt cam (g_AsteroidPos j'))
      ∧ (∀ j', visible j' = true →
          distanceBetweenPoints sqrt cam (g_AsteroidPos j')
            = distanceBetweenPoints sqrt cam (g_AsteroidPos j) → j' ≤ j) := by
  have h0 : ((if visible 0 = true then 0 else -1 : Int),
      distanceBetweenPoints sqrt cam (g_AsteroidPos 0)).1 ≠ -1 → ∃ j : Fin 5,
      ((if visible 0 = true then 0 else -1 : Int),
        distanceBetweenPoints sqrt cam (g_AsteroidPos 0)).1 = (j.val : Int)
      ∧ ((if visible 0 = true then 0 else -1 : Int),
        distanceBetweenPoints sqrt cam (g_AsteroidPos 0)).2
          = distanceBetweenPoints sqrt cam (g_AsteroidPos j)
      ∧ ∀ j' : Fin 5, j'.val < (1 : Fin 5).val → j < j' → visible j' = true →
          distanceBetweenPoints sqrt cam (g_AsteroidPos j)
            < distanceBetweenPoints sqrt cam (g_AsteroidPos j') := by
    intro h
    by_cases hv : visible 0 = true
    · refine ⟨0, by simp [hv], rfl, ?_⟩
      intro j' hj' hlt _
      have h1 : j'.val < 1 := hj'
      have h2 : (0 : Fin 5).val < j'.val := hlt
      simp at h2
      omega
    · simp [hv] at h
  have h1 := scanStep_ties sqrt cam visible _ 1 h0
  have h2 := scanStep_ties sqrt cam visible _ 2 h1
  have h3 := scanStep_ties sqrt cam visible _ 3 h2
  have h4 := scanStep_ties sqrt cam visible _ 4 h3
  have hscan : closestAsteroidScan sqrt cam visible
      = scanStep sqrt cam visible (scanStep sqrt cam visible (scanStep sqrt cam visible
          (scanStep sqrt cam visible ((if visible 0 = true then 0 else -1 : Int),
            distanceBetweenPoints sqrt cam (g_AsteroidPos 0)) 1) 2) 3) 4 := rfl
  obtain ⟨j, hj, hjv, hmin⟩ := (closestAsteroidScan_spec sqrt cam visible).2 hne
  rw [hscan] at hne hj
  obtain ⟨k, hk, -, hties⟩ := h4 hne
  have hjk : j = k := by
    have : (j.val : Int) = (k.val : Int) := hj.symm.trans hk
    exact Fin.ext (by omega)
  subst hjk
  rw [hscan]
  refine ⟨j, hj, hjv, hmin, ?_⟩
  intro j' hv' heq
  by_contra hnot
  have hlt : j < j' := not_le.mp hnot
  have := hties j' (by have := j'.isLt; simp; omega) hlt hv'
  rw [heq] at this
  exact lt_irrefl _ this

end TieFacts
section TieClaims

theorem tieCamera_distances :
    distanceBetweenPoints Real.sqrt (tieCamera : Vec3 ℝ) (g_AsteroidPos 0)
      = distanceBetweenPoints Real.sqrt (tieCamera : Vec3 ℝ) (g_AsteroidPos 3)
    ∧ distanceBetweenPoints Real.sqrt (tieCamera : Vec3 ℝ) (g_AsteroidPos 3)
      < distanceBetweenPoints Real.sqrt (tieCamera : Vec3 ℝ) (g_AsteroidPos 1)
    ∧ distanceBetweenPoints Real.sqrt (tieCamera : Vec3 ℝ) (g_AsteroidPos 3)
      < distanceBetweenPoints Real.sqrt (tieCamera : Vec3 ℝ) (g_AsteroidPos 2)
    ∧ distanceBetweenPoints Real.sqrt (tieCamera : Vec3 ℝ) (g_AsteroidPos 3)
      < distanceBetweenPoints Real.sqrt (tieCamera : Vec3 ℝ) (g_AsteroidPos 4) := by
  refine ⟨?_, ?_, ?_, ?_⟩
  · simp only [distanceBetweenPoints, norm, vsub, tieCamera]
    simp [g_AsteroidPos]
    congr 1
    norm_num
  · simp only [distanceBetweenPoints, norm, vsub, tieCamera]
    simp [g_AsteroidPos]
    apply Real.sqrt_lt_sqrt <;> norm_num
  · simp only [distanceBetweenPoints, norm, vsub, tieCamera]
    simp [g_AsteroidPos]
    apply Real.sqrt_lt_sqrt <;> norm_num
  · simp only [distanceBetweenPoints, norm, vsub, tieCamera]
    simp [g_AsteroidPos]
    apply Real.sqrt_lt_sqrt <;> norm_num

theorem targetLockEntry_closest {F : Type} [LinearOrderedField F] (sqrt : F → F)
    (cam : Vec3 F) (visible : Fin 5 → Bool) (s : LockState F) :
    (targetLockEntry sqrt cam visible s).g_ClosestAsteroid
      = (closestAsteroidScan sqrt cam visible).1 := by
  simp only [targetLockEntry]
  split_ifs <;> rfl

/-- Counterexample to C15: with all five asteroids visible and the camera at the
midpoint of asteroids 0 and 3, these two are at the same distance, which is
minimal among the five; the entry selects index 3, not the lowest index 0. -/
theorem tie_selects_highest_index :
    distanceBetweenPoints Real.sqrt (tieCamera : Vec3 ℝ) (g_AsteroidPos 0)
      = distanceBetweenPoints Real.sqrt (tieCamera : Vec3 ℝ) (g_AsteroidPos 3)
    ∧ (∀ j : Fin 5, distanceBetweenPoints Real.sqrt (tieCamera : Vec3 ℝ) (g_AsteroidPos 0)
        ≤ distanceBetweenPoints Real.sqrt (tieCamera : Vec3 ℝ) (g_AsteroidPos j))
    ∧ (targetLockEntry Real.sqrt tieCamera (fun _ => true)
        ⟨true, false, 0, ⟨0, 0, 0⟩⟩).g_ClosestAsteroid = 3
    ∧ (targetLockEntry Real.sqrt tieCamera (fun _ => true)
        ⟨true, false, 0, ⟨0, 0, 0⟩⟩).g_TargetLocked = true := by
  obtain ⟨e03, l1, l2, l4⟩ := tieCamera_distances
  have hmin : ∀ j : Fin 5,
      distanceBetweenPoints Real.sqrt (tieCamera : Vec3 ℝ) (g_AsteroidPos 3)
        ≤ distanceBetweenPoints Real.sqrt (tieCamera : Vec3 ℝ) (g_AsteroidPos j) := by
    intro j
    fin_cases j
    · exact e03.symm.le
    · exact l1.le
    · exact l2.le
    · exact le_rfl
    · exact l4.le
  have hne : (closestAsteroidScan Real.sqrt (tieCamera : Vec3 ℝ) (fun _ => true)).1 ≠ -1 := by
    intro h
    have := ((closestAsteroidScan_spec Real.sqrt (tieCamera : Vec3 ℝ) (fun _ => true)).1.mp h).1
    simp at this
  obtain ⟨j, hj, -, hjmin, hties⟩ :=
    closestAsteroidScan_ties Real.sqrt (tieCamera : Vec3 ℝ) (fun _ => true) hne
  have h3j : (3 : Fin 5) ≤ j := hties 3 rfl (le_antisymm (hmin j) (hjmin 3 rfl))
  have hj3 : j = 3 := by
    have hcases : j = 3 ∨ j = 4 := by
      have h1 : (3 : Fin 5).val ≤ j.val := h3j
      have h2 := j.isLt
      have h3 : j.val = 3 ∨ j.val = 4 := by
        simp at h1
        omega
      rcases h3 with h | h
      · exact Or.inl (Fin.ext h)
      · exact Or.inr (Fin.ext h)
    rcases hcases with h | h
    · exact h
    · rw [h] at hjmin
      exact absurd (hjmin 3 rfl) (not_le.mpr l4)
  have hscan : (closestAsteroidScan Real.sqrt (tieCamera : Vec3 ℝ) (fun _ => true)).1 = 3 := by
    rw [hj, hj3]
    rfl
  refine ⟨e03, fun j => e03 ▸ hmin j, ?_, ?_⟩
  · rw [targetLockEntry_closest, hscan]
  · have hgt : ((3 : Int) > -1) := by decide
    simp only [targetLockEntry, hscan, hgt, if_true]

/-- C15 (amended): on a target-lock entry whose scan selects an asteroid, the
selected asteroid is visible and at minimal distance among the visible ones, and
when two or more visible asteroids are at that minimal distance the one with the
highest index is selected. -/
theorem targetLockEntry_tie {F : Type} [LinearOrderedField F] (sqrt : F → F) (cam : Vec3 F)
    (visible : Fin 5 → Bool) (s : LockState F)
    (hsel : (targetLockEntry sqrt cam visible s).g_ClosestAsteroid ≠ -1) :
    ∃ j : Fin 5, (targetLockEntry sqrt cam visible s).g_ClosestAsteroid = (j.val : Int)
      ∧ visible j = true
      ∧ (∀ j', visible j' = true →
          distanceBetweenPoints sqrt cam (g_AsteroidPos j)
            ≤ distanceBetweenPoints sqrt cam (g_AsteroidPos j'))
      ∧ (∀ j', visible j' = true →
          distanceBetweenPoints sqrt cam (g_AsteroidPos j')
            = distanceBetweenPoints sqrt cam (g_AsteroidPos j) → j' ≤ j) := by
  rw [targetLockEntry_closest] at hsel ⊢
  exact closestAsteroidScan_ties sqrt cam visible hsel

/-- Witness of C15 (amended): the camera at the midpoint of asteroids 0 and 3,
all five asteroids visible. -/
theorem targetLockEntry_tie_witness :
    (targetLockEntry Real.sqrt tieCamera (fun _ => true)
        ⟨true, false, 0, ⟨0, 0, 0⟩⟩).g_ClosestAsteroid ≠ -1
    ∧ ∃ j : Fin 5, (targetLockEntry Real.sqrt tieCamera (fun _ => true)
          ⟨true, false, 0, ⟨0, 0, 0⟩⟩).g_ClosestAsteroid = (j.val : Int)
        ∧ ∀ j', (fun _ => true : Fin 5 → Bool) j' = true →
          distanceBetweenPoints Real.sqrt (tieCamera : Vec3 ℝ) (g_AsteroidPos j')
            = distanceBetweenPoints Real.sqrt (tieCamera : Vec3 ℝ) (g_AsteroidPos j) →
          j' ≤ j := by
  have hne : (targetLockEntry Real.sqrt (tieCamera : Vec3 ℝ) (fun _ => true)
      ⟨true, false, 0, ⟨0, 0, 0⟩⟩).g_ClosestAsteroid ≠ -1 := by
    rw [targetLockEntry_closest]
    intro h
    have := ((closestAsteroidScan_spec Real.sqrt (tieCamera : Vec3 ℝ) (fun _ => true)).1.mp h).1
    simp at this
  obtain ⟨j, hj, -, -, hties⟩ := targetLockEntry_tie Real.sqrt (tieCamera : Vec3 ℝ)
    (fun _ => true) ⟨true, false, 0, ⟨0, 0, 0⟩⟩ hne
  exact ⟨hne, j, hj, hties⟩

end TieClaims

/-! ## The orientation update with the target-lock toggle active -/

section OrientationClaims

variable {F : Type} [LinearOrderedField F]

theorem orientationUpdate_freeLook (sin cos sqrt : F → F) (pos : Vec3 F) (a : Spherical F)
    (w : World F) (r : LockState F × Vec3 F) (h : r.1.g_MiddleMouseButtonToggled = false) :
    (orientationUpdate sin cos sqrt pos a w r).1
      = { r.1 with g_CameraLookAt := freeLookAt sin cos pos a } := by
  simp [orientationUpdate, h]

/-- C16: target-lock entry with all five asteroids invisible.  After the
orientation update the toggle is cleared, `g_TargetLocked` is still false,
`g_ClosestAsteroid` is -1 and `g_CameraLookAt` has the value it had before (the
view vector is recomputed from it); the following update takes the free-look
branch. -/
theorem entry_without_visible (sin cos sqrt : F → F) (pos pos' : Vec3 F)
    (a a' : Spherical F) (w w' : World F) (s : LockState F) (view : Vec3 F)
    (hall : ∀ i, w.g_AsteroidVisible i = false)
    (htog : s.g_MiddleMouseButtonToggled = true) (hlock : s.g_TargetLocked = false) :
    (orientationUpdate sin cos sqrt pos a w (s, view)).1.g_MiddleMouseButtonToggled = false
    ∧ (orientationUpdate sin cos sqrt pos a w (s, view)).1.g_TargetLocked = false
    ∧ (orientationUpdate sin cos sqrt pos a w (s, view)).1.g_CameraLookAt = s.g_CameraLookAt
    ∧ (orientationUpdate sin cos sqrt pos a w (s, view)).1.g_ClosestAsteroid = -1
    ∧ (orientationUpdate sin cos sqrt pos a w (s, view)).2
        = normalize sqrt (vsub s.g_CameraLookAt pos)
    ∧ (orientationUpdate sin cos sqrt pos' a' w'
        (orientationUpdate sin cos sqrt pos a w (s, view))).1.g_CameraLookAt
        = freeLookAt sin cos pos' a' := by
  have hupd : (orientationUpdate sin cos sqrt pos a w (s, view))
      = (targetLockEntry sqrt pos w.g_AsteroidVisible s,
          normalize sqrt (vsub (targetLockEntry sqrt pos w.g_AsteroidVisible s).g_CameraLookAt
            pos)) := by
    simp [orientationUpdate, targetLockUpdate, htog, hlock]
  rcases targetLockEntry_spec sqrt pos w.g_AsteroidVisible s with h | h
  · obtain ⟨-, -, j, -, -, hj, -⟩ := h
    rw [hall j] at hj
    exact absurd hj (by simp)
  · obtain ⟨h1, h2, h3, h4, -, -⟩ := h
    rw [hupd]
    refine ⟨h2, h1.trans hlock, h4, h3, by rw [h4], ?_⟩
    rw [orientationUpdate_freeLook sin cos sqrt pos' a' w' _ h2]

/-- Witness of C16: the world with all asteroids hidden, the camera at the
origin, toggle set and not locked. -/
theorem entry_without_visible_witness :
    (∀ i, (emptyWorld : World ℝ).g_AsteroidVisible i = false)
    ∧ (orientationUpdate Real.sin Real.cos Real.sqrt ⟨0, 0, 0⟩ sphericalInit emptyWorld
        (⟨true, false, 0, ⟨0, 0, 1⟩⟩, ⟨0, 0, 1⟩)).1.g_MiddleMouseButtonToggled = false
    ∧ (orientationUpdate Real.sin Real.cos Real.sqrt ⟨0, 0, 0⟩ sphericalInit emptyWorld
        (⟨true, false, 0, ⟨0, 0, 1⟩⟩, ⟨0, 0, 1⟩)).1.g_TargetLocked = false
    ∧ (orientationUpdate Real.sin Real.cos Real.sqrt ⟨0, 0, 0⟩ sphericalInit emptyWorld
        (⟨true, false, 0, ⟨0, 0, 1⟩⟩, ⟨0, 0, 1⟩)).1.g_CameraLookAt = ⟨0, 0, 1⟩ := by
  have h := entry_without_visible Real.sin Real.cos Real.sqrt ⟨0, 0, 0⟩ ⟨0, 0, 0⟩
    sphericalInit sphericalInit emptyWorld emptyWorld ⟨true, false, 0, ⟨0, 0, 1⟩⟩ ⟨0, 0, 1⟩
    (fun _ => rfl) rfl rfl
  exact ⟨fun _ => rfl, h.1, h.2.1, h.2.2.1⟩

/-- C17: tracking and release.  With the toggle set and the camera locked on
asteroid `k`: if asteroid `k` is not visible at the orientation update, the
update clears `g_TargetLocked` and the toggle and keeps `g_CameraLookAt`, and the
following update takes the free-look branch and leaves both flags clear; if
asteroid `k` is visible, the update keeps the lock, the toggle and the locked
index, writes the animated position of asteroid 0 into `g_CameraLookAt` when
`k = 0`, and keeps `g_CameraLookAt` otherwise. -/
theorem locked_tracking_release (sin cos sqrt : F → F) (pos pos' : Vec3 F)
    (a a' : Spherical F) (w w' : World F) (s : LockState F) (view : Vec3 F) (k : Fin 5)
    (htog : s.g_MiddleMouseButtonToggled = true) (hlock : s.g_TargetLocked = true)
    (hk : s.g_ClosestAsteroid = (k.val : Int)) :
    (w.g_AsteroidVisible k = false →
      (orientationUpdate sin cos sqrt pos a w (s, view)).1.g_TargetLocked = false
      ∧ (orientationUpdate sin cos sqrt pos a w (s, view)).1.g_MiddleMouseButtonToggled = false
      ∧ (orientationUpdate sin cos sqrt pos a w (s, view)).1.g_CameraLookAt = s.g_CameraLookAt
      ∧ (orientationUpdate sin cos sqrt pos' a' w'
          (orientationUpdate sin cos sqrt pos a w (s, view))).1.g_CameraLookAt
          = freeLookAt sin cos pos' a'
      ∧ (orientationUpdate sin cos sqrt pos' a' w'
          (orientationUpdate sin cos sqrt pos a w (s, view))).1.g_TargetLocked = false
      ∧ (orientationUpdate sin cos sqrt pos' a' w'
          (orientationUpdate sin cos sqrt pos a w (s, view))).1.g_MiddleMouseButtonToggled
          = false)
    ∧ (w.g_AsteroidVisible k = true →
      (orientationUpdate sin cos sqrt pos a w (s, view)).1.g_TargetLocked = true
      ∧ (orientationUpdate sin cos sqrt pos a w (s, view)).1.g_MiddleMouseButtonToggled = true
      ∧ (orientationUpdate sin cos sqrt pos a w (s, view)).1.g_ClosestAsteroid = (k.val : Int)
      ∧ (orientationUpdate sin cos sqrt pos a w (s, view)).1.g_CameraLookAt
          = if k = 0 then vadd (g_AsteroidPos 0) w.g_BezierDisplacement
            else s.g_CameraLookAt) := by
  have hidx : asteroidIndex s.g_ClosestAsteroid = k := by rw [hk]; exact asteroidIndex_val k
  have hzero : s.g_ClosestAsteroid = 0 ↔ k = 0 := by
    rw [hk]
    constructor
    · intro h
      exact Fin.ext (by simpa using h)
    · intro h
      rw [h]
      rfl
  constructor
  · intro hv
    have hupd : (orientationUpdate sin cos sqrt pos a w (s, view)).1
        = { s with g_TargetLocked := false, g_MiddleMouseButtonToggled := false } := by
      by_cases h0 : k = 0
      · have hv0 : w.g_AsteroidVisible 0 = false := h0 ▸ hv
        simp [orientationUpdate, targetLockUpdate, htog, hlock, hidx, hv, hv0]
      · have hz : ¬ s.g_ClosestAsteroid = 0 := fun h => h0 (hzero.mp h)
        simp [orientationUpdate, targetLockUpdate, htog, hlock, hidx, hv, hz]
    have hnext := orientationUpdate_freeLook sin cos sqrt pos' a' w'
      (orientationUpdate sin cos sqrt pos a w (s, view)) (by rw [hupd])
    rw [hnext, hupd]
    exact ⟨rfl, rfl, rfl, rfl, rfl, rfl⟩
  · intro hv
    by_cases h0 : k = 0
    · have hv0 : w.g_AsteroidVisible 0 = true := h0 ▸ hv
      have hz : s.g_ClosestAsteroid = 0 := hzero.mpr h0
      have hupd : (orientationUpdate sin cos sqrt pos a w (s, view)).1
          = { s with g_CameraLookAt := vadd (g_AsteroidPos 0) w.g_BezierDisplacement } := by
        simp [orientationUpdate, targetLockUpdate, htog, hlock, hv0, hz]
      rw [hupd, if_pos h0]
      exact ⟨hlock, htog, hk, rfl⟩
    · have hz : ¬ s.g_ClosestAsteroid = 0 := fun h => h0 (hzero.mp h)
      have hupd : (orientationUpdate sin cos sqrt pos a w (s, view)).1 = s := by
        simp [orientationUpdate, targetLockUpdate, htog, hlock, hidx, hv, hz]
      rw [hupd, if_neg h0]
      exact ⟨hlock, htog, hk, rfl⟩

/-- Witness of C17: locked on asteroid 3 in the world where every asteroid has
been hidden. -/
theorem locked_tracking_release_witness :
    (emptyWorld : World ℝ).g_AsteroidVisible 3 = false
    ∧ (orientationUpdate Real.sin Real.cos Real.sqrt ⟨0, 0, 0⟩ sphericalInit emptyWorld
        (⟨true, true, 3, ⟨43, 89, -25⟩⟩, ⟨0, 0, 1⟩)).1.g_TargetLocked = false
    ∧ (orientationUpdate Real.sin Real.cos Real.sqrt ⟨0, 0, 0⟩ sphericalInit emptyWorld
        (⟨true, true, 3, ⟨43, 89, -25⟩⟩, ⟨0, 0, 1⟩)).1.g_MiddleMouseButtonToggled = false := by
  have h := (locked_tracking_release Real.sin Real.cos Real.sqrt ⟨0, 0, 0⟩ ⟨0, 0, 0⟩
    sphericalInit sphericalInit emptyWorld emptyWorld ⟨true, true, 3, ⟨43, 89, -25⟩⟩
    ⟨0, 0, 1⟩ 3 rfl rfl rfl).1 rfl
  exact ⟨rfl, h.1, h.2.1⟩

end OrientationClaims

/-! ## The Bezier curve and its direction state machine -/

section BezierClaims

variable {F : Type} [LinearOrderedField F]

/-- C18: the Bezier displacement.  Each coordinate is the Bernstein cubic
`(1-t)^3 P0 + 3 t (1-t)^2 P1 + 3 t^2 (1-t) P2 + t^3 P3` of the matching
coordinates of the four control points of `g_ControlPoints`; at `t = 0` the
displacement is control point 0 and at `t = 1` it is control point 3; the
animator stores the displacement computed at the `time` of the tick. -/
theorem bezier_bernstein (t : F) :
    (∀ p0 p1 p2 p3 : F, bezierAxis t p0 p1 p2 p3
        = (1 - t) ^ 3 * p0 + 3 * t * (1 - t) ^ 2 * p1 + 3 * t ^ 2 * (1 - t) * p2 + t ^ 3 * p3)
    ∧ (bezierDisplacement t).x
        = (1 - t) ^ 3 * (g_ControlPoints 0 : Vec3 F).x
          + 3 * t * (1 - t) ^ 2 * (g_ControlPoints 1 : Vec3 F).x
          + 3 * t ^ 2 * (1 - t) * (g_ControlPoints 2 : Vec3 F).x
          + t ^ 3 * (g_ControlPoints 3 : Vec3 F).x
    ∧ (bezierDisplacement t).y
        = (1 - t) ^ 3 * (g_ControlPoints 0 : Vec3 F).y
          + 3 * t * (1 - t) ^ 2 * (g_ControlPoints 1 : Vec3 F).y
          + 3 * t ^ 2 * (1 - t) * (g_ControlPoints 2 : Vec3 F).y
          + t ^ 3 * (g_ControlPoints 3 : Vec3 F).y
    ∧ (bezierDisplacement t).z
        = (1 - t) ^ 3 * (g_ControlPoints 0 : Vec3 F).z
          + 3 * t * (1 - t) ^ 2 * (g_ControlPoints 1 : Vec3 F).z
          + 3 * t ^ 2 * (1 - t) * (g_ControlPoints 2 : Vec3 F).z
          + t ^ 3 * (g_ControlPoints 3 : Vec3 F).z
    ∧ (bezierDisplacement 0 : Vec3 F) = g_ControlPoints 0
    ∧ (bezierDisplacement 1 : Vec3 F) = g_ControlPoints 3
    ∧ (g_ControlPoints : Fin 4 → Vec3 F)
        = ![⟨1111 / 10, 2104 / 10, 111⟩, ⟨21156 / 100, 11225 / 100, 111⟩,
            ⟨-5033 / 100, 5099 / 100, 51⟩, ⟨4078 / 100, 9285 / 100, 31⟩]
    ∧ (∀ (junk now : F) (w : World F) (s : BezierState F), w.g_AsteroidVisible 0 = true →
        (bezierAnimator junk now (w, s)).1.g_BezierDisplacement
          = bezierDisplacement (bezierTick junk now s).2) := by
  have haxis : ∀ p0 p1 p2 p3 : F, bezierAxis t p0 p1 p2 p3
      = (1 - t) ^ 3 * p0 + 3 * t * (1 - t) ^ 2 * p1 + 3 * t ^ 2 * (1 - t) * p2
        + t ^ 3 * p3 := by
    intro p0 p1 p2 p3
    simp only [bezierAxis]
    ring
  refine ⟨haxis, haxis _ _ _ _, haxis _ _ _ _, haxis _ _ _ _, ?_, ?_, rfl, ?_⟩
  · ext <;> simp [bezierDisplacement, bezierAxis]
  · ext <;> simp [bezierDisplacement, bezierAxis]
  · intro junk now w s hv
    simp [bezierAnimator, hv]

theorem bezierTick_forward (junk now e : F) :
    (bezierTick junk now ⟨1, e⟩).1
      = if 1 ≤ now / 25 - e then ⟨0, now / 25⟩ else ⟨1, e⟩ := by
  by_cases h : 1 ≤ now / 25 - e
  · have h' : now / 25 - e ≥ 1 := h
    simp [bezierTick, bezierStep, h, h']
  · have h' : ¬ (now / 25 - e ≥ 1) := h
    simp [bezierTick, bezierStep, h, h']

theorem bezierTick_backward (junk now e : F) :
    (bezierTick junk now ⟨0, e⟩).1
      = if 1 - (now / 25 - e) ≤ 0 then ⟨1, now / 25⟩ else ⟨0, e⟩ := by
  by_cases h : 1 - (now / 25 - e) ≤ 0
  · simp [bezierTick, bezierStep, h]
  · simp [bezierTick, bezierStep, h]

theorem bezierRun_no_flip (junk : F) (later : List F) (r : BezierState F)
    (ho : r.g_BezierOrientation = 1 ∨ r.g_BezierOrientation = 0)
    (h : ∀ n ∈ later, n / 25 - r.g_TimePassed < 1) :
    bezierRun junk later r = r := by
  induction later with
  | nil => rfl
  | cons n rest ih =>
    have hn := h n (List.mem_cons_self _ _)
    have hstep : (bezierTick junk n r).1 = r := by
      obtain ⟨o, e⟩ := r
      simp only at ho hn
      rcases ho with ho | ho
      · subst ho
        rw [bezierTick_forward, if_neg (not_le.mpr hn)]
      · subst ho
        rw [bezierTick_backward, if_neg (by intro hle; linarith)]
    simp only [bezierRun]
    rw [hstep]
    exact ih (fun m hm => h m (List.mem_cons_of_mem _ hm))

/-- C19: the ping-pong transition rule, with one clock value `now` per tick and
the orientation 1 (forward) or 0 (backward).  Forward with
`now/25 - epoch ≥ 1`: the state becomes backward with epoch `now/25`.  Backward
with `1 - (now/25 - epoch) ≤ 0`: the state becomes forward with epoch `now/25`.
In the other cases the state is unchanged.  So a tick leaves the state as it
was or flips the orientation once.  After a tick that flips, the state stays
the same over all later ticks whose clock `n` has `n/25 - now/25 < 1`. -/
theorem bezier_transition (junk now : F) (s : BezierState F)
    (ho : s.g_BezierOrientation = 1 ∨ s.g_BezierOrientation = 0) :
    (s.g_BezierOrientation = 1 → 1 ≤ now / 25 - s.g_TimePassed →
      (bezierTick junk now s).1 = ⟨0, now / 25⟩)
    ∧ (s.g_BezierOrientation = 0 → 1 - (now / 25 - s.g_TimePassed) ≤ 0 →
      (bezierTick junk now s).1 = ⟨1, now / 25⟩)
    ∧ (s.g_BezierOrientation = 1 → now / 25 - s.g_TimePassed < 1 →
      (bezierTick junk now s).1 = s)
    ∧ (s.g_BezierOrientation = 0 → 0 < 1 - (now / 25 - s.g_TimePassed) →
      (bezierTick junk now s).1 = s)
    ∧ ((bezierTick junk now s).1 = s
        ∨ (bezierTick junk now s).1 = ⟨1 - s.g_BezierOrientation, now / 25⟩)
    ∧ (∀ later : List F, 1 ≤ now / 25 - s.g_TimePassed →
        (∀ n ∈ later, n / 25 - now / 25 < 1) →
        bezierRun junk later (bezierTick junk now s).1 = (bezierTick junk now s).1) := by
  obtain ⟨o, e⟩ := s
  simp only at ho ⊢
  have hF : o = 1 → 1 ≤ now / 25 - e →
      (bezierTick junk now ⟨o, e⟩).1 = ⟨0, now / 25⟩ := by
    intro h1 h2
    subst h1
    rw [bezierTick_forward, if_pos h2]
  have hB : o = 0 → 1 - (now / 25 - e) ≤ 0 →
      (bezierTick junk now ⟨o, e⟩).1 = ⟨1, now / 25⟩ := by
    intro h1 h2
    subst h1
    rw [bezierTick_backward, if_pos h2]
  have hF' : o = 1 → now / 25 - e < 1 → (bezierTick junk now ⟨o, e⟩).1 = ⟨o, e⟩ := by
    intro h1 h2
    subst h1
    rw [bezierTick_forward, if_neg (not_le.mpr h2)]
  have hB' : o = 0 → 0 < 1 - (now / 25 - e) → (bezierTick junk now ⟨o, e⟩).1 = ⟨o, e⟩ := by
    intro h1 h2
    subst h1
    rw [bezierTick_backward, if_neg (not_le.mpr h2)]
  refine ⟨hF, hB, hF', hB', ?_, ?_⟩
  · rcases ho with h1 | h1
    · by_cases h2 : 1 ≤ now / 25 - e
      · right; rw [hF h1 h2, h1]; rfl
      · left; exact hF' h1 (not_le.mp h2)
    · by_cases h2 : 1 - (now / 25 - e) ≤ 0
      · right; rw [hB h1 h2, h1]; rfl
      · left; exact hB' h1 (not_le.mp h2)
  · intro later hflip hlater
    rcases ho with h1 | h1
    · rw [hF h1 hflip]
      exact bezierRun_no_flip junk later _ (Or.inr rfl) hlater
    · rw [hB h1 (by linarith)]
      exact bezierRun_no_flip junk later _ (Or.inl rfl) hlater

/-- Witness of C19: the initial state at clock value 25, and a later tick at
clock value 30. -/
theorem bezier_transition_witness :
    ((bezierInit : BezierState ℝ).g_BezierOrientation = 1
      ∨ (bezierInit : BezierState ℝ).g_BezierOrientation = 0)
    ∧ (bezierTick (0 : ℝ) 25 bezierInit).1 = ⟨0, 25 / 25⟩
    ∧ bezierRun (0 : ℝ) [30] (bezierTick (0 : ℝ) 25 bezierInit).1
        = (bezierTick (0 : ℝ) 25 bezierInit).1 := by
  have h := bezier_transition (0 : ℝ) 25 bezierInit (Or.inl rfl)
  have hflip : (1 : ℝ) ≤ 25 / 25 - (bezierInit : BezierState ℝ).g_TimePassed := by
    simp [bezierInit]
  refine ⟨Or.inl rfl, h.1 rfl hflip, h.2.2.2.2.2 [30] hflip ?_⟩
  intro n hn
  rw [List.mem_singleton] at hn
  rw [hn]
  norm_num

end BezierClaims

/-! ## The movement step -/

section MovementClaims

theorem rollIf_fields {F : Type} (rotate : F → Vec3 F → Vec3 F → Vec3 F) (held : Bool) (angle : F)
    (c : Camera F) :
    (rollIf rotate held angle c).g_CameraPosition = c.g_CameraPosition
    ∧ (rollIf rotate held angle c).g_CameraViewVector = c.g_CameraViewVector
    ∧ (rollIf rotate held angle c).g_CameraUpVector
        = (if held = true then rotate angle c.g_CameraViewVector c.g_CameraUpVector
            else c.g_CameraUpVector) := by
  cases held <;> exact ⟨rfl, rfl, rfl⟩

variable {F : Type} [LinearOrderedField F]

theorem moveIf_fields (held : Bool) (k : F) (v : Vec3 F) (c : Camera F) :
    (moveIf held k v c).g_CameraPosition
        = vadd c.g_CameraPosition (vscale ((if held = true then 1 else 0) * k) v)
    ∧ (moveIf held k v c).g_CameraViewVector = c.g_CameraViewVector
    ∧ (moveIf held k v c).g_CameraUpVector = c.g_CameraUpVector := by
  cases held
  · refine ⟨?_, rfl, rfl⟩
    ext <;> simp [moveIf, vadd, vscale]
  · refine ⟨?_, rfl, rfl⟩
    ext <;> simp [moveIf, vadd, vscale]

theorem moveBackIf_fields (held : Bool) (k : F) (v : Vec3 F) (c : Camera F) :
    (moveBackIf held k v c).g_CameraPosition
        = vadd c.g_CameraPosition (vscale (-(if held = true then 1 else 0) * k) v)
    ∧ (moveBackIf held k v c).g_CameraViewVector = c.g_CameraViewVector
    ∧ (moveBackIf held k v c).g_CameraUpVector = c.g_CameraUpVector := by
  cases held
  · refine ⟨?_, rfl, rfl⟩
    ext <;> simp [moveBackIf, vadd, vscale]
  · refine ⟨?_, rfl, rfl⟩
    ext <;> simp [moveBackIf, vadd, vsub, vscale] <;> ring

theorem movementStep_view (sqrt : F → F) (rotate : F → Vec3 F → Vec3 F → Vec3 F)
    (keys : Keys) (t_diff : F) (cam : Camera F) :
    (movementStep sqrt rotate keys t_diff cam).g_CameraViewVector = cam.g_CameraViewVector := by
  simp only [movementStep, (moveIf_fields _ _ _ _).2.1, (moveBackIf_fields _ _ _ _).2.1,
    (rollIf_fields _ _ _ _).2.1]

theorem movementStep_up (sqrt : F → F) (rotate : F → Vec3 F → Vec3 F → Vec3 F)
    (keys : Keys) (t_diff : F) (cam : Camera F) :
    (movementStep sqrt rotate keys t_diff cam).g_CameraUpVector
      = (if keys.g_EKeyPressed = true then
          rotate (-rotationSpeed - t_diff) cam.g_CameraViewVector
            (if keys.g_QKeyPressed = true then
              rotate (rotationSpeed + t_diff) cam.g_CameraViewVector cam.g_CameraUpVector
            else cam.g_CameraUpVector)
        else
          (if keys.g_QKeyPressed = true then
            rotate (rotationSpeed + t_diff) cam.g_CameraViewVector cam.g_CameraUpVector
          else cam.g_CameraUpVector)) := by
  simp only [movementStep, (moveIf_fields _ _ _ _).2.1, (moveBackIf_fields _ _ _ _).2.1,
    (rollIf_fields _ _ _ _).2.1, (moveIf_fields _ _ _ _).2.2, (moveBackIf_fields _ _ _ _).2.2,
    (rollIf_fields _ _ _ _).2.2]

/-- The position after the movement step as a sum of the eight increments. -/
theorem movementStep_sum (sqrt : F → F) (rotate : F → Vec3 F → Vec3 F → Vec3 F)
    (keys : Keys) (t_diff : F) (cam : Camera F) :
    (movementStep sqrt rotate keys t_diff cam).g_CameraPosition
      = vadd (vadd (vadd (vadd (vadd (vadd cam.g_CameraPosition
          (vscale ((if keys.g_WKeyPressed = true then 1 else 0) * (cameraSpeed + t_diff))
            cam.g_CameraViewVector))
          (vscale (-(if keys.g_AKeyPressed = true then 1 else 0) * (cameraSpeed + t_diff))
            (rightVector sqrt cam)))
          (vscale (-(if keys.g_SKeyPressed = true then 1 else 0) * (cameraSpeed + t_diff))
            cam.g_CameraViewVector))
          (vscale ((if keys.g_DKeyPressed = true then 1 else 0) * (cameraSpeed + t_diff))
            (rightVector sqrt cam)))
          (vscale ((if (keys.g_SpaceKeyPressed && !keys.g_LeftShiftKeyPressed) = true
              then 1 else 0) * (cameraSpeed + t_diff))
            (movementStep sqrt rotate keys t_diff cam).g_CameraUpVector))
          (vscale (-(if (keys.g_SpaceKeyPressed && keys.g_LeftShiftKeyPressed) = true
              then 1 else 0) * (cameraSpeed + t_diff))
            (movementStep sqrt rotate keys t_diff cam).g_CameraUpVector) := by
  rw [movementStep_up]
  simp only [movementStep, (moveIf_fields _ _ _ _).1, (moveBackIf_fields _ _ _ _).1,
    (rollIf_fields _ _ _ _).1, (moveIf_fields _ _ _ _).2.1, (moveBackIf_fields _ _ _ _).2.1,
    (rollIf_fields _ _ _ _).2.1, (moveIf_fields _ _ _ _).2.2, (moveBackIf_fields _ _ _ _).2.2,
    (rollIf_fields _ _ _ _).2.2]

theorem space_coefficient (space shift : Bool) :
    (if space = true then (if shift = true then (-1 : F) else 1) else 0)
      = (if (space && !shift) = true then 1 else 0)
        - (if (space && shift) = true then 1 else 0) := by
  cases space <;> cases shift <;> simp

/-- The position after the movement step in closed form. -/
theorem movementStep_formula (sqrt : F → F) (rotate : F → Vec3 F → Vec3 F → Vec3 F)
    (keys : Keys) (t_diff : F) (cam : Camera F) :
    (movementStep sqrt rotate keys t_diff cam).g_CameraPosition
      = vadd cam.g_CameraPosition (vscale (cameraSpeed + t_diff)
          (vadd (vadd
            (vscale ((if keys.g_WKeyPressed = true then 1 else 0)
                - (if keys.g_SKeyPressed = true then 1 else 0)) cam.g_CameraViewVector)
            (vscale ((if keys.g_DKeyPressed = true then 1 else 0)
                - (if keys.g_AKeyPressed = true then 1 else 0))
              (normalize sqrt (crossproduct cam.g_CameraViewVector cam.g_CameraUpVector))))
            (vscale (if keys.g_SpaceKeyPressed = true then
                (if keys.g_LeftShiftKeyPressed = true then -1 else 1) else 0)
              (movementStep sqrt rotate keys t_diff cam).g_CameraUpVector))) := by
  rw [movementStep_sum, space_coefficient]
  generalize (movementStep sqrt rotate keys t_diff cam).g_CameraUpVector = up
  ext
  · simp only [vadd, vscale, rightVector]; ring
  · simp only [vadd, vscale, rightVector]; ring
  · simp only [vadd, vscale, rightVector]; ring

theorem movementStep_idle (sqrt : F → F) (rotate : F → Vec3 F → Vec3 F → Vec3 F)
    (keys : Keys) (t_diff : F) (cam : Camera F)
    (hW : keys.g_WKeyPressed = false) (hA : keys.g_AKeyPressed = false)
    (hS : keys.g_SKeyPressed = false) (hD : keys.g_DKeyPressed = false)
    (hSp : keys.g_SpaceKeyPressed = false) :
    (movementStep sqrt rotate keys t_diff cam).g_CameraPosition = cam.g_CameraPosition := by
  rw [movementStep_formula, hW, hA, hS, hD, hSp]
  ext <;> simp [vadd, vscale]

theorem movementStep_up_congr (sqrt : F → F) (rotate : F → Vec3 F → Vec3 F → Vec3 F)
    (k1 k2 : Keys) (t_diff : F) (cam : Camera F)
    (hQ : k1.g_QKeyPressed = k2.g_QKeyPressed) (hE : k1.g_EKeyPressed = k2.g_EKeyPressed) :
    (movementStep sqrt rotate k1 t_diff cam).g_CameraUpVector
      = (movementStep sqrt rotate k2 t_diff cam).g_CameraUpVector := by
  rw [movementStep_up, movementStep_up, hQ, hE]

theorem movementStep_cancel_WS (sqrt : F → F) (rotate : F → Vec3 F → Vec3 F → Vec3 F)
    (keys : Keys) (t_diff : F) (cam : Camera F)
    (hW : keys.g_WKeyPressed = true) (hS : keys.g_SKeyPressed = true) :
    (movementStep sqrt rotate keys t_diff cam).g_CameraPosition
      = (movementStep sqrt rotate { keys with g_WKeyPressed := false, g_SKeyPressed := false }
          t_diff cam).g_CameraPosition := by
  rw [movementStep_formula, movementStep_formula,
    movementStep_up_congr sqrt rotate keys
      { keys with g_WKeyPressed := false, g_SKeyPressed := false } t_diff cam rfl rfl, hW, hS]
  simp only [if_true, Bool.false_eq_true, if_false, sub_self, sub_zero]

theorem movementStep_cancel_AD (sqrt : F → F) (rotate : F → Vec3 F → Vec3 F → Vec3 F)
    (keys : Keys) (t_diff : F) (cam : Camera F)
    (hA : keys.g_AKeyPressed = true) (hD : keys.g_DKeyPressed = true) :
    (movementStep sqrt rotate keys t_diff cam).g_CameraPosition
      = (movementStep sqrt rotate { keys with g_AKeyPressed := false, g_DKeyPressed := false }
          t_diff cam).g_CameraPosition := by
  rw [movementStep_formula, movementStep_formula,
    movementStep_up_congr sqrt rotate keys
      { keys with g_AKeyPressed := false, g_DKeyPressed := false } t_diff cam rfl rfl, hA, hD]
  simp only [if_true, Bool.false_eq_true, if_false, sub_self, sub_zero]

/-- C20: the movement step.  The position after the step is
`position + (0.05 + dt) * (a * viewVector + b * rightVector + c * upVector)` with
`a = [W] - [S]`, `b = [D] - [A]`, `c` equal to 1 with Space and no LeftShift, to
-1 with Space and LeftShift and to 0 without Space; `rightVector` is
`normalize(cross(viewVector, upVector))` of the vectors before the step and
`upVector` is the up-vector after the Q and E rolls of the step.  The view
vector is kept.  With none of W, A, S, D, Space held the position is unchanged,
and W with S, or A with D, moves as if neither of the two were held. -/
theorem movementStep_position (sqrt : F → F) (rotate : F → Vec3 F → Vec3 F → Vec3 F)
    (keys : Keys) (t_diff : F) (cam : Camera F) :
    (movementStep sqrt rotate keys t_diff cam).g_CameraPosition
      = vadd cam.g_CameraPosition (vscale (cameraSpeed + t_diff)
          (vadd (vadd
            (vscale ((if keys.g_WKeyPressed = true then 1 else 0)
                - (if keys.g_SKeyPressed = true then 1 else 0)) cam.g_CameraViewVector)
            (vscale ((if keys.g_DKeyPressed = true then 1 else 0)
                - (if keys.g_AKeyPressed = true then 1 else 0))
              (normalize sqrt (crossproduct cam.g_CameraViewVector cam.g_CameraUpVector))))
            (vscale (if keys.g_SpaceKeyPressed = true then
                (if keys.g_LeftShiftKeyPressed = true then -1 else 1) else 0)
              (movementStep sqrt rotate keys t_diff cam).g_CameraUpVector)))
    ∧ (movementStep sqrt rotate keys t_diff cam).g_CameraViewVector = cam.g_CameraViewVector
    ∧ (movementStep sqrt rotate keys t_diff cam).g_CameraUpVector
        = (if keys.g_EKeyPressed = true then
            rotate (-rotationSpeed - t_diff) cam.g_CameraViewVector
              (if keys.g_QKeyPressed = true then
                rotate (rotationSpeed + t_diff) cam.g_CameraViewVector cam.g_CameraUpVector
              else cam.g_CameraUpVector)
          else
            (if keys.g_QKeyPressed = true then
              rotate (rotationSpeed + t_diff) cam.g_CameraViewVector cam.g_CameraUpVector
            else cam.g_CameraUpVector))
    ∧ (keys.g_WKeyPressed = false → keys.g_AKeyPressed = false → keys.g_SKeyPressed = false →
        keys.g_DKeyPressed = false → keys.g_SpaceKeyPressed = false →
        (movementStep sqrt rotate keys t_diff cam).g_CameraPosition = cam.g_CameraPosition)
    ∧ (keys.g_WKeyPressed = true → keys.g_SKeyPressed = true →
        (movementStep sqrt rotate keys t_diff cam).g_CameraPosition
          = (movementStep sqrt rotate
              { keys with g_WKeyPressed := false, g_SKeyPressed := false }
              t_diff cam).g_CameraPosition)
    ∧ (keys.g_AKeyPressed = true → keys.g_DKeyPressed = true →
        (movementStep sqrt rotate keys t_diff cam).g_CameraPosition
          = (movementStep sqrt rotate
              { keys with g_AKeyPressed := false, g_DKeyPressed := false }
              t_diff cam).g_CameraPosition) := by
  exact ⟨movementStep_formula sqrt rotate keys t_diff cam,
    movementStep_view sqrt rotate keys t_diff cam,
    movementStep_up sqrt rotate keys t_diff cam,
    movementStep_idle sqrt rotate keys t_diff cam,
    movementStep_cancel_WS sqrt rotate keys t_diff cam,
    movementStep_cancel_AD sqrt rotate keys t_diff cam⟩

end MovementClaims

/-! ## The pointer callbacks: the angle phi and the camera distance -/

section PointerClaims

variable {F : Type} [LinearOrderedField F]

theorem phimin_lt_phimax : (phimin : F) < phimax := by
  unfold phimin phimax PI
  norm_num

/-- The two clamp statements of `CursorPosCallback` compute the clamp into
`[phimin, phimax]`. -/
theorem phi_clamp (phi : F) :
    (if (if phi ≥ phimax then phimax else phi) < phimin then phimin
      else (if phi ≥ phimax then phimax else phi)) = max phimin (min phimax phi) := by
  have h := phimin_lt_phimax (F := F)
  by_cases h1 : phi ≥ phimax
  · rw [if_pos h1, if_neg (not_lt.mpr h.le), min_eq_left h1, max_eq_right h.le]
  · rw [if_neg h1]
    have h1' : phi ≤ phimax := le_of_lt (not_le.mp h1)
    by_cases h2 : phi < phimin
    · rw [if_pos h2, min_eq_right h1', max_eq_left h2.le]
    · rw [if_neg h2, min_eq_right h1', max_eq_right (not_lt.mp h2)]

theorem CursorPosCallback_active (xpos ypos : F) (s : MouseGlobals F × Spherical F)
    (h : s.1.g_RightMouseButtonPressed = true ∧ s.1.g_MiddleMouseButtonToggled = false) :
    (CursorPosCallback xpos ypos s).2.g_CameraTheta
        = s.2.g_CameraTheta - 1 / 100 * (xpos - s.1.g_LastCursorPosX)
    ∧ (CursorPosCallback xpos ypos s).2.g_CameraPhi
        = max phimin (min phimax (s.2.g_CameraPhi + 1 / 100 * (ypos - s.1.g_LastCursorPosY)))
    ∧ (CursorPosCallback xpos ypos s).2.g_CameraDistance = s.2.g_CameraDistance := by
  unfold CursorPosCallback
  rw [if_pos h]
  exact ⟨rfl, phi_clamp _, rfl⟩

theorem CursorPosCallback_idle (xpos ypos : F) (s : MouseGlobals F × Spherical F)
    (h : ¬ (s.1.g_RightMouseButtonPressed = true ∧ s.1.g_MiddleMouseButtonToggled = false)) :
    CursorPosCallback xpos ypos s = s := by
  unfold CursorPosCallback
  rw [if_neg h]

theorem CursorPosCallback_phi (xpos ypos : F) (s : MouseGlobals F × Spherical F)
    (h : phimin ≤ s.2.g_CameraPhi ∧ s.2.g_CameraPhi ≤ phimax) :
    phimin ≤ (CursorPosCallback xpos ypos s).2.g_CameraPhi
    ∧ (CursorPosCallback xpos ypos s).2.g_CameraPhi ≤ phimax := by
  by_cases hc : s.1.g_RightMouseButtonPressed = true ∧ s.1.g_MiddleMouseButtonToggled = false
  · rw [(CursorPosCallback_active xpos ypos s hc).2.1]
    exact ⟨le_max_left _ _, max_le phimin_lt_phimax.le (min_le_left _ _)⟩
  · rw [CursorPosCallback_idle xpos ypos s hc]
    exact h

theorem pointerStep_phi (s : MouseGlobals F × Spherical F) (ev : PointerEvent F)
    (h : phimin ≤ s.2.g_CameraPhi ∧ s.2.g_CameraPhi ≤ phimax) :
    phimin ≤ (pointerStep s ev).2.g_CameraPhi ∧ (pointerStep s ev).2.g_CameraPhi ≤ phimax := by
  cases ev with
  | button e => exact h
  | cursor xpos ypos => exact CursorPosCallback_phi xpos ypos s h
  | scroll yoffset => exact h
  | flags toggled locked => exact h

theorem pointerRun_phi (evs : List (PointerEvent F)) (s : MouseGlobals F × Spherical F)
    (h : phimin ≤ s.2.g_CameraPhi ∧ s.2.g_CameraPhi ≤ phimax) :
    phimin ≤ (pointerRun s evs).2.g_CameraPhi ∧ (pointerRun s evs).2.g_CameraPhi ≤ phimax := by
  induction evs generalizing s with
  | nil => exact h
  | cons ev rest ih => exact ih (pointerStep s ev) (pointerStep_phi s ev h)

theorem sphericalInit_phi :
    (phimin : F) ≤ (sphericalInit : Spherical F).g_CameraPhi
    ∧ (sphericalInit : Spherical F).g_CameraPhi ≤ phimax := by
  unfold phimin phimax PI sphericalInit
  constructor <;> norm_num

/-- C22: `g_CameraPhi` stays in `[3*PI/32, 29*PI/32]`, with `PI = 3.141592`.
The initial value `PI/2` lies in the interval.  A call of `CursorPosCallback`
with the right button held and the target-lock toggle off sets theta to
`theta - 0.01*dx` and phi to `phi + 0.01*dy` clamped into the interval, where
`dx`, `dy` are the differences of the cursor position to the last recorded one;
a call with the button released or the toggle on changes nothing.  After every
sequence of button, cursor and scroll callbacks and of writes of the target-lock
flags by the render loop, starting from the initial state, phi lies in the
interval. -/
theorem phi_stays_in_interval :
    ((phimin : F) ≤ (sphericalInit : Spherical F).g_CameraPhi
      ∧ (sphericalInit : Spherical F).g_CameraPhi ≤ phimax
      ∧ (sphericalInit : Spherical F).g_CameraPhi = PI / 2)
    ∧ (∀ (xpos ypos : F) (s : MouseGlobals F × Spherical F),
        s.1.g_RightMouseButtonPressed = true → s.1.g_MiddleMouseButtonToggled = false →
        (CursorPosCallback xpos ypos s).2.g_CameraTheta
            = s.2.g_CameraTheta - 1 / 100 * (xpos - s.1.g_LastCursorPosX)
        ∧ (CursorPosCallback xpos ypos s).2.g_CameraPhi
            = max phimin (min phimax
                (s.2.g_CameraPhi + 1 / 100 * (ypos - s.1.g_LastCursorPosY)))
        ∧ phimin ≤ (CursorPosCallback xpos ypos s).2.g_CameraPhi
        ∧ (CursorPosCallback xpos ypos s).2.g_CameraPhi ≤ phimax)
    ∧ (∀ (xpos ypos : F) (s : MouseGlobals F × Spherical F),
        (s.1.g_RightMouseButtonPressed = false ∨ s.1.g_MiddleMouseButtonToggled = true) →
        (CursorPosCallback xpos ypos s).2 = s.2)
    ∧ (∀ evs : List (PointerEvent F),
        phimin ≤ (pointerRun (mouseInit, sphericalInit) evs).2.g_CameraPhi
        ∧ (pointerRun (mouseInit, sphericalInit) evs).2.g_CameraPhi ≤ phimax) := by
  refine ⟨⟨sphericalInit_phi.1, sphericalInit_phi.2, ?_⟩, ?_, ?_, ?_⟩
  · unfold sphericalInit PI
    rfl
  · intro xpos ypos s h1 h2
    obtain ⟨ht, hp, -⟩ := CursorPosCallback_active xpos ypos s ⟨h1, h2⟩
    refine ⟨ht, hp, ?_, ?_⟩
    · rw [hp]; exact le_max_left _ _
    · rw [hp]; exact max_le phimin_lt_phimax.le (min_le_left _ _)
  · intro xpos ypos s h
    rw [CursorPosCallback_idle xpos ypos s]
    rintro ⟨h1, h2⟩
    rcases h with h | h
    · rw [h1] at h; exact Bool.noConfusion h
    · rw [h2] at h; exact Bool.noConfusion h
  · intro evs
    exact pointerRun_phi evs _ sphericalInit_phi

theorem ScrollCallback_distance (yoffset : F) (a : Spherical F) :
    (ScrollCallback yoffset a).g_CameraDistance
      = max (a.g_CameraDistance - 1 / 10 * yoffset) verysmallnumber := by
  unfold ScrollCallback
  by_cases h : a.g_CameraDistance - 1 / 10 * yoffset < verysmallnumber
  · simp only [if_pos h]; rw [max_eq_right h.le]
  · simp only [if_neg h]; rw [max_eq_left (not_lt.mp h)]

theorem verysmallnumber_pos : (0 : F) < verysmallnumber := by
  unfold verysmallnumber
  norm_num

theorem CursorPosCallback_distance (xpos ypos : F) (s : MouseGlobals F × Spherical F) :
    (CursorPosCallback xpos ypos s).2.g_CameraDistance = s.2.g_CameraDistance := by
  by_cases hc : s.1.g_RightMouseButtonPressed = true ∧ s.1.g_MiddleMouseButtonToggled = false
  · exact (CursorPosCallback_active xpos ypos s hc).2.2
  · rw [CursorPosCallback_idle xpos ypos s hc]

theorem pointerStep_distance (s : MouseGlobals F × Spherical F) (ev : PointerEvent F)
    (h : verysmallnumber ≤ s.2.g_CameraDistance) :
    verysmallnumber ≤ (pointerStep s ev).2.g_CameraDistance := by
  cases ev with
  | button e => exact h
  | cursor xpos ypos =>
    show verysmallnumber ≤ (CursorPosCallback xpos ypos s).2.g_CameraDistance
    rw [CursorPosCallback_distance]; exact h
  | scroll yoffset =>
    show verysmallnumber ≤ (ScrollCallback yoffset s.2).g_CameraDistance
    rw [ScrollCallback_distance]; exact le_max_right _ _
  | flags toggled locked => exact h

theorem pointerRun_distance (evs : List (PointerEvent F)) (s : MouseGlobals F × Spherical F)
    (h : verysmallnumber ≤ s.2.g_CameraDistance) :
    verysmallnumber ≤ (pointerRun s evs).2.g_CameraDistance := by
  induction evs generalizing s with
  | nil => exact h
  | cons ev rest ih => exact ih (pointerStep s ev) (pointerStep_distance s ev h)

/-- C23: the camera distance after a scroll event.  `ScrollCallback` leaves
`max (distance - 0.1*yoffset) epsilon`, with `epsilon = 2^-23` the machine
epsilon of `float`: the result is at least `epsilon` and positive for every
previous distance and every offset.  The initial distance is 3.5, and after
every sequence of button, cursor and scroll callbacks and of writes of the
target-lock flags, starting from the initial state, the distance is at least
`epsilon`, which is positive. -/
theorem scroll_distance_floor :
    (∀ (yoffset : F) (a : Spherical F),
        (ScrollCallback yoffset a).g_CameraDistance
            = max (a.g_CameraDistance - 1 / 10 * yoffset) verysmallnumber
        ∧ verysmallnumber ≤ (ScrollCallback yoffset a).g_CameraDistance
        ∧ 0 < (ScrollCallback yoffset a).g_CameraDistance
        ∧ (ScrollCallback yoffset a).g_CameraTheta = a.g_CameraTheta
        ∧ (ScrollCallback yoffset a).g_CameraPhi = a.g_CameraPhi)
    ∧ (sphericalInit : Spherical F).g_CameraDistance = 35 / 10
    ∧ (0 : F) < verysmallnumber
    ∧ (∀ evs : List (PointerEvent F),
        verysmallnumber ≤ (pointerRun (mouseInit, sphericalInit) evs).2.g_CameraDistance
        ∧ 0 < (pointerRun (mouseInit, sphericalInit) evs).2.g_CameraDistance) := by
  refine ⟨?_, rfl, verysmallnumber_pos, ?_⟩
  · intro yoffset a
    have h := ScrollCallback_distance yoffset a
    refine ⟨h, ?_, ?_, rfl, rfl⟩
    · rw [h]; exact le_max_right _ _
    · rw [h]; exact lt_of_lt_of_le verysmallnumber_pos (le_max_right _ _)
  · intro evs
    have h0 : (verysmallnumber : F) ≤ (sphericalInit : Spherical F).g_CameraDistance := by
      unfold verysmallnumber sphericalInit
      norm_num
    have h := pointerRun_distance evs (mouseInit, sphericalInit) h0
    exact ⟨h, lt_of_lt_of_le verysmallnumber_pos h⟩

end PointerClaims

/-! ## The matrix stack and the draw transforms of the asteroids -/

section MatrixStackClaims

variable {Mat : Type}

theorem popPushPairs_length (identity : Mat) (n : Nat) (top : Mat) (rest : List Mat) :
    (popPushPairs identity n (top :: rest)).2 = top :: rest
    ∧ (popPushPairs identity n (top :: rest)).1 = List.replicate n top := by
  induction n with
  | zero => exact ⟨rfl, rfl⟩
  | succ n ih =>
    simp only [popPushPairs, PopMatrix, PushMatrix, List.replicate_succ]
    exact ⟨ih.1, by rw [ih.2]⟩

theorem frameStack_eq (identity : Mat) (stack : List Mat) :
    frameStack identity stack = (List.replicate 14 identity, identity :: stack) := by
  unfold frameStack PushMatrix
  obtain ⟨h1, h2⟩ := popPushPairs_length identity 14 identity stack
  exact Prod.ext h2 h1

theorem framesStack_length (identity : Mat) (n : Nat) (stack : List Mat) :
    (framesStack identity n stack).length = stack.length + n := by
  induction n generalizing stack with
  | zero => rfl
  | succ n ih =>
    rw [framesStack, ih, frameStack_eq]
    simp only [List.length_cons]
    omega

/-- C30: the model-matrix stack over a frame.  `PopMatrix` after
`PushMatrix(M)` returns `M` and restores the stack, and each of the fourteen
calls of `PopMatrix` of a frame returns the identity matrix.  The stack is not
balanced: the frame pushes fifteen times and pops fourteen times, so at the end
of every frame the stack is one entry (an identity matrix) deeper than at the
start, and after `n` frames it is `n` entries deeper. -/
theorem frame_leaves_one_matrix (identity : Mat) (stack : List Mat) :
    (∀ M : Mat, PopMatrix identity (PushMatrix M stack) = (M, stack))
    ∧ (frameStack identity stack).1.length = 14
    ∧ (∀ M ∈ (frameStack identity stack).1, M = identity)
    ∧ (frameStack identity stack).2 = identity :: stack
    ∧ (frameStack identity stack).2.length = stack.length + 1
    ∧ (∀ n : Nat, (framesStack identity n stack).length = stack.length + n) := by
  rw [frameStack_eq]
  refine ⟨fun M => rfl, by simp, ?_, rfl, rfl, fun n => framesStack_length identity n stack⟩
  intro M hM
  exact List.eq_of_mem_replicate hM

end MatrixStackClaims

section RenderClaims

variable {F : Type} [LinearOrderedField F]

theorem renderTranslation_eq (w : World F) (i : Fin 5) :
    renderTranslation w i = collisionTranslation w i := by
  unfold renderTranslation collisionTranslation vadd
  rfl

/-- C25: the collision box of an asteroid against its draw transform.  For
every asteroid the translation of the collision box is the translation of the
draw block (with the Bezier displacement for asteroid 0), and for asteroids 1 to
4 the scale is the scale of the draw block.  For asteroid 0 the two differ: the
draw block scales the z axis by 20, `checkIntersection` and `bulletCollision`
by 30.  With a mesh box `[-1, 1]³` the point `(-100, 100, 25)` lies in the
collision box of asteroid 0 and outside the box obtained with the scale of its
draw block. -/
theorem asteroid0_box_scale_differs :
    (∀ (w : World F) (i : Fin 5), collisionTranslation w i = renderTranslation w i)
    ∧ (∀ i : Fin 5, i ≠ 0 → (collisionScale i : Vec3 F) = renderScale i)
    ∧ (collisionScale 0 : Vec3 F) = ⟨30, 30, 30⟩
    ∧ (renderScale 0 : Vec3 F) = ⟨30, 30, 20⟩
    ∧ (collisionScale 0 : Vec3 F) ≠ renderScale 0
    ∧ insideBox (asteroidBoxMin (unitWorld : World F) 0) (asteroidBoxMax unitWorld 0)
        ⟨-100, 100, 25⟩
    ∧ ¬ insideBox (renderBoxMin (unitWorld : World F) 0) (renderBoxMax unitWorld 0)
        ⟨-100, 100, 25⟩ := by
  refine ⟨fun w i => (renderTranslation_eq w i).symm, ?_, rfl, rfl, ?_, ?_, ?_⟩
  · intro i hi
    fin_cases i
    · exact absurd rfl hi
    all_goals rfl
  · intro h
    have hz := congrArg Vec3.z h
    simp [collisionScale, renderScale] at hz
  · simp [insideBox, asteroidBoxMin, asteroidBoxMax, translateScale, collisionTranslation,
      collisionScale, unitWorld, g_AsteroidPos, vadd]
    norm_num
  · simp [insideBox, renderBoxMin, renderBoxMax, translateScale, renderTranslation,
      renderScale, unitWorld, g_AsteroidPos]
    norm_num

end RenderClaims

/-! ## The bounding box stored for a shape -/

section BoundingBoxClaims

variable {F : Type} [LinearOrderedField F]

theorem foldl_max_spec (l : List F) (m : F) :
    m ≤ l.foldl max m ∧ (∀ a ∈ l, a ≤ l.foldl max m)
    ∧ (l.foldl max m = m ∨ l.foldl max m ∈ l) := by
  induction l generalizing m with
  | nil => exact ⟨le_refl _, fun a ha => absurd ha (List.not_mem_nil a), Or.inl rfl⟩
  | cons b rest ih =>
    obtain ⟨h1, h2, h3⟩ := ih (max m b)
    rw [List.foldl_cons]
    refine ⟨le_trans (le_max_left _ _) h1, ?_, ?_⟩
    · intro a ha
      rcases List.mem_cons.mp ha with rfl | ha
      · exact le_trans (le_max_right _ _) h1
      · exact h2 a ha
    · rcases h3 with h3 | h3
      · rcases max_choice m b with hm | hm
        · left; rw [h3, hm]
        · right; rw [h3, hm]; exact List.mem_cons_self _ _
      · right; exact List.mem_cons_of_mem _ h3

theorem foldl_min_spec (l : List F) (m : F) :
    l.foldl min m ≤ m ∧ (∀ a ∈ l, l.foldl min m ≤ a)
    ∧ (l.foldl min m = m ∨ l.foldl min m ∈ l) := by
  induction l generalizing m with
  | nil => exact ⟨le_refl _, fun a ha => absurd ha (List.not_mem_nil a), Or.inl rfl⟩
  | cons b rest ih =>
    obtain ⟨h1, h2, h3⟩ := ih (min m b)
    rw [List.foldl_cons]
    refine ⟨le_trans h1 (min_le_left _ _), ?_, ?_⟩
    · intro a ha
      rcases List.mem_cons.mp ha with rfl | ha
      · exact le_trans h1 (min_le_right _ _)
      · exact h2 a ha
    · rcases h3 with h3 | h3
      · rcases min_choice m b with hm | hm
        · left; rw [h3, hm]
        · right; rw [h3, hm]; exact List.mem_cons_self _ _
      · right; exact List.mem_cons_of_mem _ h3

/-- The accumulation runs on the six coordinates independently. -/
theorem foldl_bboxStep (vs : List (Vec3 F)) (b : SceneObject F) :
    vs.foldl bboxStep b
      = { bbox_min := ⟨(vs.map Vec3.x).foldl min b.bbox_min.x,
            (vs.map Vec3.y).foldl min b.bbox_min.y, (vs.map Vec3.z).foldl min b.bbox_min.z⟩
          bbox_max := ⟨(vs.map Vec3.x).foldl max b.bbox_max.x,
            (vs.map Vec3.y).foldl max b.bbox_max.y, (vs.map Vec3.z).foldl max b.bbox_max.z⟩ } := by
  induction vs generalizing b with
  | nil => rfl
  | cons v rest ih =>
    rw [List.foldl_cons, ih]
    rfl

theorem shapeBBox_eq (vs : List (Vec3 F)) :
    shapeBBox vs
      = { bbox_min := ⟨(vs.map Vec3.x).foldl min maxval, (vs.map Vec3.y).foldl min maxval,
            (vs.map Vec3.z).foldl min maxval⟩
          bbox_max := ⟨(vs.map Vec3.x).foldl max minval, (vs.map Vec3.y).foldl max minval,
            (vs.map Vec3.z).foldl max minval⟩ } := by
  unfold shapeBBox
  rw [foldl_bboxStep]

theorem minval_pos : (0 : F) < minval := by
  unfold minval
  positivity

/-- The minimum side of the accumulation: with a coordinate that is at most
`maxval` in the list, the result is the least coordinate of the list. -/
theorem foldl_min_of_le (l : List F) (h : ∃ a ∈ l, a ≤ maxval) :
    l.foldl min maxval ∈ l ∧ ∀ a ∈ l, l.foldl min maxval ≤ a := by
  obtain ⟨h1, h2, h3⟩ := foldl_min_spec l (maxval : F)
  refine ⟨?_, h2⟩
  rcases h3 with h3 | h3
  · obtain ⟨a, ha, hle⟩ := h
    have hge : maxval ≤ a := by rw [← h3]; exact h2 a ha
    have : a = maxval := le_antisymm hle hge
    rw [h3, ← this]; exact ha
  · exact h3

/-- The maximum side of the accumulation: with a coordinate that is at least
`minval` in the list, the result is the greatest coordinate of the list. -/
theorem foldl_max_of_ge (l : List F) (h : ∃ a ∈ l, minval ≤ a) :
    l.foldl max minval ∈ l ∧ ∀ a ∈ l, a ≤ l.foldl max minval := by
  obtain ⟨h1, h2, h3⟩ := foldl_max_spec l (minval : F)
  refine ⟨?_, h2⟩
  rcases h3 with h3 | h3
  · obtain ⟨a, ha, hle⟩ := h
    have hge : a ≤ minval := by rw [← h3]; exact h2 a ha
    have : a = minval := le_antisymm hge hle
    rw [h3, ← this]; exact ha
  · exact h3

/-- C26: the bounding box stored for a shape.  The accumulation of `bbox_max`
starts from `std::numeric_limits<float>::min()`, the smallest positive `float`
(`2^-126`), not from the lowest one.  So every stored `bbox_max` coordinate is
at least that positive value, and on an axis on which all vertex coordinates are
negative the stored maximum is `2^-126` and not the maximum of the coordinates:
for the triangle `(-1,-1,-1)`, `(-2,-1,-1)`, `(-1,-2,-1)` the stored box is
`bbox_min = (-2,-2,-1)`, `bbox_max = (2^-126, 2^-126, 2^-126)`, while the
maximum of the coordinates is `(-1,-1,-1)`.  The stored box always contains
every vertex; `bbox_min` is the minimum of the coordinates on every axis with
a coordinate that is at most `maxval`, and `bbox_max` is the maximum of the
coordinates on every axis with a coordinate that is at least `2^-126`. -/
theorem bbox_max_floor :
    (0 : F) < minval
    ∧ (∀ vs : List (Vec3 F),
        minval ≤ (shapeBBox vs).bbox_max.x ∧ minval ≤ (shapeBBox vs).bbox_max.y
        ∧ minval ≤ (shapeBBox vs).bbox_max.z)
    ∧ shapeBBox (negativeTriangle : List (Vec3 F))
        = { bbox_min := ⟨-2, -2, -1⟩, bbox_max := ⟨minval, minval, minval⟩ }
    ∧ (∀ v ∈ (negativeTriangle : List (Vec3 F)), v.x ≤ -1 ∧ v.y ≤ -1 ∧ v.z ≤ -1)
    ∧ (∀ (vs : List (Vec3 F)) (v : Vec3 F), v ∈ vs →
        insideBox (shapeBBox vs).bbox_min (shapeBBox vs).bbox_max v)
    ∧ (∀ (vs : List (Vec3 F)) (axis : Vec3 F → F),
        (axis = Vec3.x ∨ axis = Vec3.y ∨ axis = Vec3.z) →
        ((∃ v ∈ vs, axis v ≤ maxval) →
          (∃ v ∈ vs, axis v = axis (shapeBBox vs).bbox_min)
          ∧ ∀ v ∈ vs, axis (shapeBBox vs).bbox_min ≤ axis v)
        ∧ ((∃ v ∈ vs, minval ≤ axis v) →
          (∃ v ∈ vs, axis v = axis (shapeBBox vs).bbox_max)
          ∧ ∀ v ∈ vs, axis v ≤ axis (shapeBBox vs).bbox_max)) := by
  refine ⟨minval_pos, ?_, ?_, ?_, ?_, ?_⟩
  · intro vs
    rw [shapeBBox_eq]
    exact ⟨(foldl_max_spec _ _).1, (foldl_max_spec _ _).1, (foldl_max_spec _ _).1⟩
  · have hpos : (0 : F) < minval := minval_pos
    have hmax : (0 : F) < maxval := by unfold maxval; norm_num
    have e1 : max (minval : F) (-1) = minval := max_eq_left (by linarith)
    have e2 : max (minval : F) (-2) = minval := max_eq_left (by linarith)
    have e3 : min (maxval : F) (-1) = -1 := min_eq_right (by linarith)
    have e4 : min (-1 : F) (-2) = -2 := min_eq_right (by norm_num)
    have e5 : min (-2 : F) (-1) = -2 := min_eq_left (by norm_num)
    simp only [shapeBBox, negativeTriangle, List.foldl_cons, List.foldl_nil, bboxStep, e1, e2, e3,
      e4, e5, min_self]
  · intro v hv
    simp only [negativeTriangle, List.mem_cons, List.mem_singleton, List.not_mem_nil,
      or_false] at hv
    rcases hv with rfl | rfl | rfl <;> norm_num
  · intro vs v hv
    rw [shapeBBox_eq]
    unfold insideBox
    exact ⟨(foldl_min_spec _ _).2.1 _ (List.mem_map_of_mem _ hv),
      (foldl_max_spec _ _).2.1 _ (List.mem_map_of_mem _ hv),
      (foldl_min_spec _ _).2.1 _ (List.mem_map_of_mem _ hv),
      (foldl_max_spec _ _).2.1 _ (List.mem_map_of_mem _ hv),
      (foldl_min_spec _ _).2.1 _ (List.mem_map_of_mem _ hv),
      (foldl_max_spec _ _).2.1 _ (List.mem_map_of_mem _ hv)⟩
  · intro vs axis haxis
    have key : axis (shapeBBox vs).bbox_min = (vs.map axis).foldl min maxval
        ∧ axis (shapeBBox vs).bbox_max = (vs.map axis).foldl max minval := by
      rw [shapeBBox_eq]
      rcases haxis with rfl | rfl | rfl <;> exact ⟨rfl, rfl⟩
    rw [key.1, key.2]
    constructor
    · rintro ⟨v, hv, hle⟩
      obtain ⟨h1, h2⟩ := foldl_min_of_le (vs.map axis) ⟨axis v, List.mem_map_of_mem _ hv, hle⟩
      obtain ⟨u, hu, hu2⟩ := List.mem_map.mp h1
      exact ⟨⟨u, hu, hu2⟩, fun v hv => h2 _ (List.mem_map_of_mem _ hv)⟩
    · rintro ⟨v, hv, hle⟩
      obtain ⟨h1, h2⟩ := foldl_max_of_ge (vs.map axis) ⟨axis v, List.mem_map_of_mem _ hv, hle⟩
      obtain ⟨u, hu, hu2⟩ := List.mem_map.mp h1
      exact ⟨⟨u, hu, hu2⟩, fun v hv => h2 _ (List.mem_map_of_mem _ hv)⟩

end BoundingBoxClaims

/-! ## Collision-free positions, and the hit pass without a projectile -/

section FixedPoint

variable {F : Type} [LinearOrderedField F]

theorem EPSILON_pos : (0 : F) < EPSILON := by
  unfold EPSILON
  norm_num

theorem pushAsteroid_congr (sqrt : F → F) (w w' : World F) (i : Fin 5) (p : Vec3 F)
    (hv : w'.g_AsteroidVisible i = w.g_AsteroidVisible i)
    (hb : w.g_AsteroidVisible i = true →
      asteroidBoxMin w' i = asteroidBoxMin w i ∧ asteroidBoxMax w' i = asteroidBoxMax w i) :
    pushAsteroid sqrt w' i p = pushAsteroid sqrt w i p := by
  unfold pushAsteroid
  rw [hv]
  by_cases h : w.g_AsteroidVisible i = true
  · rw [if_pos h, if_pos h, (hb h).1, (hb h).2]
  · rw [if_neg h, if_neg h]

theorem checkIntersection_congr (sqrt : F → F) (w w' : World F) (hs : w'.sphere = w.sphere)
    (hv : w'.g_AsteroidVisible = w.g_AsteroidVisible)
    (hb : ∀ i, w.g_AsteroidVisible i = true →
      asteroidBoxMin w' i = asteroidBoxMin w i ∧ asteroidBoxMax w' i = asteroidBoxMax w i)
    (q : Vec3 F) : checkIntersection sqrt w' q = checkIntersection sqrt w q := by
  have hbig : ∀ p, pushBigPlanet sqrt w' p = pushBigPlanet sqrt w p := by
    intro p; unfold pushBigPlanet bbox_centerBigPlanet; rw [hs]
  have hsmall : ∀ p, pushSmallPlanet sqrt w' p = pushSmallPlanet sqrt w p := by
    intro p; unfold pushSmallPlanet bbox_centerSmallPlanet; rw [hs]
  have hast : ∀ i p, pushAsteroid sqrt w' i p = pushAsteroid sqrt w i p :=
    fun i p => pushAsteroid_congr sqrt w w' i p (congrFun hv i) (hb i)
  unfold checkIntersection
  simp only [hbig, hsmall, hast]

/-- C27: a collision-free position is a fixed point of `checkIntersection`.
For a position with all coordinates in `[-250, 250]`, at a distance of at least
`radius + EPSILON` from the collision centre of each planet (radius 200 and 10),
and outside the collision box of every visible asteroid, the function returns
the position unchanged.  The boxes of invisible asteroids take no part: two
worlds with the same sphere mesh box and the same flags whose boxes agree for
the visible asteroids give the same result at every position. -/
theorem checkIntersection_fixed_point (sqrt : F → F) (w : World F) (p : Vec3 F)
    (hsky : (-250 ≤ p.x ∧ p.x ≤ 250) ∧ (-250 ≤ p.y ∧ p.y ≤ 250) ∧ (-250 ≤ p.z ∧ p.z ≤ 250))
    (hbig : 200 + EPSILON ≤ distanceBetweenPoints sqrt p (bbox_centerBigPlanet w))
    (hsmall : 10 + EPSILON ≤ distanceBetweenPoints sqrt p (bbox_centerSmallPlanet w))
    (hast : ∀ i, w.g_AsteroidVisible i = true →
      ¬ insideBox (asteroidBoxMin w i) (asteroidBoxMax w i) p) :
    checkIntersection sqrt w p = p
    ∧ ∀ w' : World F, w'.sphere = w.sphere → w'.g_AsteroidVisible = w.g_AsteroidVisible →
        (∀ i, w.g_AsteroidVisible i = true →
          asteroidBoxMin w' i = asteroidBoxMin w i ∧ asteroidBoxMax w' i = asteroidBoxMax w i) →
        ∀ q, checkIntersection sqrt w' q = checkIntersection sqrt w q := by
  refine ⟨?_, fun w' hs hv hb q => checkIntersection_congr sqrt w w' hs hv hb q⟩
  apply checkIntersection_of_collisionFree
  refine ⟨hsky, ?_⟩
  intro V
  cases V with
  | bigPlanet =>
    show ¬ (distanceBetweenPoints sqrt p (bbox_centerBigPlanet w) - 200 < EPSILON)
    intro h
    linarith
  | smallPlanet =>
    show ¬ (distanceBetweenPoints sqrt p (bbox_centerSmallPlanet w) - 10 < EPSILON)
    intro h
    linarith
  | asteroid i =>
    show ¬ (w.g_AsteroidVisible i = true ∧ insideBox (asteroidBoxMin w i) (asteroidBoxMax w i) p)
    rintro ⟨h1, h2⟩
    exact hast i h1 h2

/-- Witness of C27: the origin in the world with unit bounding boxes.  It is
250 away from the centre of the big planet and more than 298 away from the
centre of the small one, and in none of the five asteroid boxes. -/
theorem checkIntersection_fixed_point_witness :
    checkIntersection Real.sqrt (unitWorld : World ℝ) ⟨0, 0, 0⟩ = ⟨0, 0, 0⟩
    ∧ ∀ w' : World ℝ, w'.sphere = (unitWorld : World ℝ).sphere →
        w'.g_AsteroidVisible = (unitWorld : World ℝ).g_AsteroidVisible →
        (∀ i, (unitWorld : World ℝ).g_AsteroidVisible i = true →
          asteroidBoxMin w' i = asteroidBoxMin unitWorld i
          ∧ asteroidBoxMax w' i = asteroidBoxMax unitWorld i) →
        ∀ q, checkIntersection Real.sqrt w' q = checkIntersection Real.sqrt unitWorld q :=
  checkIntersection_fixed_point Real.sqrt unitWorld ⟨0, 0, 0⟩
    (by norm_num)
    (by
      rw [bbox_centerBigPlanet_unitWorld]
      have h : (200 + EPSILON : ℝ) ≤ 250 := by unfold EPSILON; norm_num
      refine le_trans h ?_
      unfold distanceBetweenPoints norm vsub
      apply Real.le_sqrt_of_sq_le
      norm_num)
    (by
      rw [bbox_centerSmallPlanet_unitWorld]
      have h : (10 + EPSILON : ℝ) ≤ 11 := by unfold EPSILON; norm_num
      refine le_trans h ?_
      unfold distanceBetweenPoints norm vsub
      apply Real.le_sqrt_of_sq_le
      norm_num)
    (by
      intro i _
      fin_cases i <;>
        simp [insideBox, asteroidBoxMin, asteroidBoxMax, translateScale, collisionTranslation,
          collisionScale, unitWorld, g_AsteroidPos, vadd] <;> norm_num)

end FixedPoint

section SpentProjectile

variable {F : Type} [LinearOrderedField F]

theorem projectileTick_idle (sqrt : F → F) (t_diff : F) (cam : Camera F) (b : Bullet F)
    (h : b.g_BulletVisible = false) : projectileTick sqrt false t_diff cam b = b := by
  simp [projectileTick, spawnBullet, advanceBullet, h]

/-- C28: the hit pass with no projectile in flight.  `bulletCollision` does not
read `g_BulletVisible`: on a frame without fire input and with the visible flag
false the pass runs on the position the last projectile was left at, and hides
every visible asteroid whose box contains it.  With the spent projectile left
at `(-59, 192, 31)` all five asteroids stay visible while asteroid 0 is at the
start of its Bezier curve, and asteroid 0 is hidden on the frame on which its
animation has carried its box over that position. -/
theorem spent_projectile_hides_asteroid :
    (∀ (sqrt : F → F) (t_diff : F) (cam : Camera F) (b : Bullet F) (w : World F),
        b.g_BulletVisible = false →
        projectileFrame sqrt false t_diff cam (b, w)
          = (b, bulletCollision b.g_BulletPosition w))
    ∧ (∀ (pos : Vec3 F) (w : World F) (i : Fin 5),
        (bulletCollision pos w).g_AsteroidVisible i
          = (w.g_AsteroidVisible i
              && !decide (insideBox (asteroidBoxMin w i) (asteroidBoxMax w i) pos)))
    ∧ (bulletSpent : Bullet F).g_BulletVisible = false
    ∧ (∀ (sqrt : F → F) (t_diff : F) (cam : Camera F) (i : Fin 5),
        (projectileFrame sqrt false t_diff cam
          (bulletSpent, curveStartWorld)).2.g_AsteroidVisible i = true)
    ∧ (curveEndWorld : World F).g_AsteroidVisible 0 = true
    ∧ (∀ (sqrt : F → F) (t_diff : F) (cam : Camera F),
        (projectileFrame sqrt false t_diff cam (bulletSpent, curveEndWorld)).1.g_BulletVisible
          = false
        ∧ (projectileFrame sqrt false t_diff cam
          (bulletSpent, curveEndWorld)).2.g_AsteroidVisible 0 = false) := by
  have hframe : ∀ (sqrt : F → F) (t_diff : F) (cam : Camera F) (b : Bullet F) (w : World F),
      b.g_BulletVisible = false →
      projectileFrame sqrt false t_diff cam (b, w)
        = (b, bulletCollision b.g_BulletPosition w) := by
    intro sqrt t_diff cam b w h
    simp only [projectileFrame, projectileTick_idle sqrt t_diff cam b h]
  refine ⟨hframe, bulletCollision_visible, rfl, ?_, rfl, ?_⟩
  · intro sqrt t_diff cam i
    rw [hframe sqrt t_diff cam bulletSpent curveStartWorld rfl, bulletCollision_visible]
    fin_cases i <;>
      simp [insideBox, asteroidBoxMin, asteroidBoxMax, translateScale, collisionTranslation,
        collisionScale, curveStartWorld, bulletSpent, g_AsteroidPos, vadd, bezierDisplacement,
        bezierAxis, g_ControlPoints] <;> norm_num
  · intro sqrt t_diff cam
    rw [hframe sqrt t_diff cam bulletSpent curveEndWorld rfl, bulletCollision_visible]
    refine ⟨rfl, ?_⟩
    simp [insideBox, asteroidBoxMin, asteroidBoxMax, translateScale, collisionTranslation,
      collisionScale, curveEndWorld, bulletSpent, g_AsteroidPos, vadd, bezierDisplacement,
      bezierAxis, g_ControlPoints]
    norm_num

end SpentProjectile

/-! ## The target-lock globals in every reachable state -/

section LockInvariant

variable {F : Type} [LinearOrderedField F]

theorem lockButton_inv (e : MouseEvent F) (s : LockState F)
    (h : s.g_TargetLocked = true →
      s.g_MiddleMouseButtonToggled = true ∧ 0 ≤ s.g_ClosestAsteroid ∧ s.g_ClosestAsteroid ≤ 4) :
    (lockButton e s).g_TargetLocked = true →
      (lockButton e s).g_MiddleMouseButtonToggled = true
      ∧ 0 ≤ (lockButton e s).g_ClosestAsteroid ∧ (lockButton e s).g_ClosestAsteroid ≤ 4 := by
  obtain ⟨button, action, xpos, ypos⟩ := e
  obtain ⟨toggled, locked, closest, lookAt⟩ := s
  cases button <;> cases action <;> cases toggled <;> cases locked <;>
    simp_all [lockButton, MouseButtonCallback]

theorem targetLockUpdate_inv (sqrt : F → F) (cam : Vec3 F) (w : World F) (s : LockState F)
    (ht : s.g_MiddleMouseButtonToggled = true)
    (h : s.g_TargetLocked = true →
      s.g_MiddleMouseButtonToggled = true ∧ 0 ≤ s.g_ClosestAsteroid ∧ s.g_ClosestAsteroid ≤ 4) :
    (targetLockUpdate sqrt cam w s).g_TargetLocked = true →
      (targetLockUpdate sqrt cam w s).g_MiddleMouseButtonToggled = true
      ∧ 0 ≤ (targetLockUpdate sqrt cam w s).g_ClosestAsteroid
      ∧ (targetLockUpdate sqrt cam w s).g_ClosestAsteroid ≤ 4 := by
  unfold targetLockUpdate
  by_cases hl : s.g_TargetLocked = false
  · rw [if_pos hl]
    intro hlocked
    rcases targetLockEntry_spec sqrt cam w.g_AsteroidVisible s with
      ⟨-, htog, j, hj, -⟩ | ⟨hsame, -⟩
    · rw [htog, hj]
      refine ⟨ht, ?_, ?_⟩
      · exact Int.natCast_nonneg _
      · have := j.isLt
        omega
    · rw [hsame, hl] at hlocked
      exact Bool.noConfusion hlocked
  · rw [if_neg hl]
    have hl' : s.g_TargetLocked = true := by
      cases hs : s.g_TargetLocked
      · exact absurd hs hl
      · rfl
    split_ifs with h1 h2
    · intro _; exact h hl'
    · intro hlocked; simp at hlocked
    · intro _; exact h hl'

theorem orientationUpdate_inv (sin cos sqrt : F → F) (cam : Vec3 F) (a : Spherical F)
    (w : World F) (r : LockState F × Vec3 F)
    (h : r.1.g_TargetLocked = true →
      r.1.g_MiddleMouseButtonToggled = true ∧ 0 ≤ r.1.g_ClosestAsteroid
      ∧ r.1.g_ClosestAsteroid ≤ 4) :
    (orientationUpdate sin cos sqrt cam a w r).1.g_TargetLocked = true →
      (orientationUpdate sin cos sqrt cam a w r).1.g_MiddleMouseButtonToggled = true
      ∧ 0 ≤ (orientationUpdate sin cos sqrt cam a w r).1.g_ClosestAsteroid
      ∧ (orientationUpdate sin cos sqrt cam a w r).1.g_ClosestAsteroid ≤ 4 := by
  by_cases ht : r.1.g_MiddleMouseButtonToggled = false
  · rw [orientationUpdate_freeLook sin cos sqrt cam a w r ht]
    exact h
  · have ht' : r.1.g_MiddleMouseButtonToggled = true := by
      cases hs : r.1.g_MiddleMouseButtonToggled
      · exact absurd hs ht
      · rfl
    have e : (orientationUpdate sin cos sqrt cam a w r).1 = targetLockUpdate sqrt cam w r.1 := by
      simp [orientationUpdate, ht']
    rw [e]
    exact targetLockUpdate_inv sqrt cam w r.1 ht' h

theorem lockStep_inv (sin cos sqrt : F → F) (s : (LockState F × Vec3 F) × World F)
    (ev : LockEvent F)
    (h : s.1.1.g_TargetLocked = true →
      s.1.1.g_MiddleMouseButtonToggled = true ∧ 0 ≤ s.1.1.g_ClosestAsteroid
      ∧ s.1.1.g_ClosestAsteroid ≤ 4) :
    (lockStep sin cos sqrt s ev).1.1.g_TargetLocked = true →
      (lockStep sin cos sqrt s ev).1.1.g_MiddleMouseButtonToggled = true
      ∧ 0 ≤ (lockStep sin cos sqrt s ev).1.1.g_ClosestAsteroid
      ∧ (lockStep sin cos sqrt s ev).1.1.g_ClosestAsteroid ≤ 4 := by
  cases ev with
  | button e => exact lockButton_inv e s.1.1 h
  | orientation cameraPosition a =>
    exact orientationUpdate_inv sin cos sqrt cameraPosition a s.2 s.1 h
  | collision g_BulletPosition => exact h

theorem lockRun_inv (sin cos sqrt : F → F) (evs : List (LockEvent F))
    (s : (LockState F × Vec3 F) × World F)
    (h : s.1.1.g_TargetLocked = true →
      s.1.1.g_MiddleMouseButtonToggled = true ∧ 0 ≤ s.1.1.g_ClosestAsteroid
      ∧ s.1.1.g_ClosestAsteroid ≤ 4) :
    (lockRun sin cos sqrt s evs).1.1.g_TargetLocked = true →
      (lockRun sin cos sqrt s evs).1.1.g_MiddleMouseButtonToggled = true
      ∧ 0 ≤ (lockRun sin cos sqrt s evs).1.1.g_ClosestAsteroid
      ∧ (lockRun sin cos sqrt s evs).1.1.g_ClosestAsteroid ≤ 4 := by
  induction evs generalizing s with
  | nil => exact h
  | cons ev rest ih => exact ih (lockStep sin cos sqrt s ev) (lockStep_inv sin cos sqrt s ev h)

theorem asteroidIndex_of_bounds (c : Int) (h0 : 0 ≤ c) (h4 : c ≤ 4) :
    ((asteroidIndex c).val : Int) = c := by
  unfold asteroidIndex
  simp only
  omega

end LockInvariant

section LockReachable

theorem bulletCollision_unitWorld_asteroid0 :
    (bulletCollision (⟨-100, 100, 0⟩ : Vec3 ℝ) unitWorld).g_AsteroidVisible
      = ![false, true, true, true, true] := by
  funext i
  rw [bulletCollision_visible]
  fin_cases i <;>
    simp [insideBox, asteroidBoxMin, asteroidBoxMax, translateScale, collisionTranslation,
      collisionScale, unitWorld, g_AsteroidPos, vadd] <;> norm_num

theorem closestAsteroidScan_at_asteroid0 :
    (closestAsteroidScan Real.sqrt (⟨-100, 100, 0⟩ : Vec3 ℝ)
      ![false, true, true, true, true]).1 = -1 := by
  rw [(closestAsteroidScan_spec Real.sqrt _ _).1]
  refine ⟨rfl, ?_⟩
  intro j hj
  have h0 : distanceBetweenPoints Real.sqrt (⟨-100, 100, 0⟩ : Vec3 ℝ) (g_AsteroidPos 0) = 0 := by
    simp [distanceBetweenPoints, norm, vsub, g_AsteroidPos]
  rw [h0]
  unfold distanceBetweenPoints norm
  apply Real.sqrt_pos.mpr
  fin_cases j
  · exact absurd hj (by simp)
  all_goals simp [vsub, g_AsteroidPos]; norm_num

/-- C29: the target-lock globals in every reachable state.  For every sequence
of calls of `MouseButtonCallback`, orientation updates (at any camera position
and any spherical coordinates) and calls of `bulletCollision` (at any projectile
position), started from the initial globals and any world: if `g_TargetLocked`
is true then the toggle is set and `g_ClosestAsteroid` lies in `0..4`, so the
subscript `g_ClosestAsteroid` of the reads `g_AsteroidPos[g_ClosestAsteroid]` and
`g_AsteroidVisible[g_ClosestAsteroid]` is the index itself.  A locked state is
reachable (middle press, then an orientation update with all asteroids
visible), and so is an unlocked state with `g_ClosestAsteroid = -1` (asteroid 0
hit, middle press, then an orientation update with the camera at the position of
asteroid 0). -/
theorem locked_index_in_bounds :
    (∀ (F : Type) [LinearOrderedField F] (sin cos sqrt : F → F) (lookAt view : Vec3 F)
        (w : World F) (evs : List (LockEvent F)),
        (lockRun sin cos sqrt ((lockInit lookAt, view), w) evs).1.1.g_TargetLocked = true →
        (lockRun sin cos sqrt ((lockInit lookAt, view), w) evs).1.1.g_MiddleMouseButtonToggled
            = true
        ∧ 0 ≤ (lockRun sin cos sqrt ((lockInit lookAt, view), w) evs).1.1.g_ClosestAsteroid
        ∧ (lockRun sin cos sqrt ((lockInit lookAt, view), w) evs).1.1.g_ClosestAsteroid ≤ 4
        ∧ ((asteroidIndex
              (lockRun sin cos sqrt ((lockInit lookAt, view), w) evs).1.1.g_ClosestAsteroid).val
            : Int)
          = (lockRun sin cos sqrt ((lockInit lookAt, view), w) evs).1.1.g_ClosestAsteroid)
    ∧ (lockRun Real.sin Real.cos Real.sqrt
          ((lockInit (⟨0, 0, 35 / 10⟩ : Vec3 ℝ), ⟨0, 0, 1⟩), unitWorld)
          [.button ⟨.middle, .press, 0, 0⟩,
            .orientation ⟨0, 0, 0⟩ sphericalInit]).1.1.g_TargetLocked = true
    ∧ ((lockRun Real.sin Real.cos Real.sqrt
          ((lockInit (⟨0, 0, 35 / 10⟩ : Vec3 ℝ), ⟨0, 0, 1⟩), unitWorld)
          [.collision ⟨-100, 100, 0⟩, .button ⟨.middle, .press, 0, 0⟩,
            .orientation ⟨-100, 100, 0⟩ sphericalInit]).1.1.g_ClosestAsteroid = -1
      ∧ (lockRun Real.sin Real.cos Real.sqrt
          ((lockInit (⟨0, 0, 35 / 10⟩ : Vec3 ℝ), ⟨0, 0, 1⟩), unitWorld)
          [.collision ⟨-100, 100, 0⟩, .button ⟨.middle, .press, 0, 0⟩,
            .orientation ⟨-100, 100, 0⟩ sphericalInit]).1.1.g_TargetLocked = false) := by
  refine ⟨?_, ?_, ?_⟩
  · intro F _ sin cos sqrt lookAt view w evs hlocked
    have hinit : (lockInit lookAt).g_TargetLocked = true →
        (lockInit lookAt).g_MiddleMouseButtonToggled = true
        ∧ 0 ≤ (lockInit lookAt).g_ClosestAsteroid ∧ (lockInit lookAt).g_ClosestAsteroid ≤ 4 :=
      fun hf => Bool.noConfusion hf
    obtain ⟨h1, h2, h3⟩ :=
      lockRun_inv sin cos sqrt evs ((lockInit lookAt, view), w) hinit hlocked
    exact ⟨h1, h2, h3, asteroidIndex_of_bounds _ h2 h3⟩
  · rcases targetLockEntry_spec Real.sqrt (⟨0, 0, 0⟩ : Vec3 ℝ)
        (unitWorld : World ℝ).g_AsteroidVisible
        { g_MiddleMouseButtonToggled := true, g_TargetLocked := false, g_ClosestAsteroid := 0,
          g_CameraLookAt := ⟨0, 0, 35 / 10⟩ } with ⟨hl, -⟩ | ⟨-, -, -, -, hv0, -⟩
    · simpa [lockRun, lockStep, lockButton, lockInit, MouseButtonCallback, orientationUpdate,
        targetLockUpdate] using hl
    · simp [unitWorld] at hv0
  · have hscan := closestAsteroidScan_at_asteroid0
    have hvis := bulletCollision_unitWorld_asteroid0
    constructor <;>
      simp [lockRun, lockStep, lockButton, lockInit, MouseButtonCallback, orientationUpdate,
        targetLockUpdate, targetLockEntry, hvis, hscan]

end LockReachable

/-! ## The view vector after the orientation update -/

section ViewVector

theorem normalize_eq_vscale (sqrt : ℝ → ℝ) (v : Vec3 ℝ) :
    normalize sqrt v = vscale (1 / norm sqrt v) v := by
  unfold normalize vscale
  ext <;> simp [div_eq_inv_mul]

theorem norm_normalize_real (v : Vec3 ℝ) (h : v ≠ ⟨0, 0, 0⟩) :
    norm Real.sqrt (normalize Real.sqrt v) = 1 := by
  have hn : norm Real.sqrt v ≠ 0 := fun h0 => h ((norm_eq_zero_real v).mp h0)
  have hpos : 0 < norm Real.sqrt v := lt_of_le_of_ne (norm_nonneg_real v) (Ne.symm hn)
  rw [normalize_eq_vscale, norm_vscale_real _ (by positivity)]
  field_simp

theorem norm_spherical (theta phi : ℝ) :
    norm Real.sqrt ⟨Real.sin phi * Real.sin theta, Real.cos phi, Real.sin phi * Real.cos theta⟩
      = 1 := by
  unfold norm
  have h : Real.sin phi * Real.sin theta * (Real.sin phi * Real.sin theta)
      + Real.cos phi * Real.cos phi
      + Real.sin phi * Real.cos theta * (Real.sin phi * Real.cos theta) = 1 := by
    have h1 := Real.sin_sq_add_cos_sq phi
    have h2 := Real.sin_sq_add_cos_sq theta
    nlinarith [h1, h2]
  rw [h, Real.sqrt_one]

theorem freeLookAt_sub (sin cos : ℝ → ℝ) (pos : Vec3 ℝ) (a : Spherical ℝ) :
    vsub (freeLookAt sin cos pos a) pos
      = vscale a.g_CameraDistance
          ⟨sin a.g_CameraPhi * sin a.g_CameraTheta, cos a.g_CameraPhi,
            sin a.g_CameraPhi * cos a.g_CameraTheta⟩ := by
  unfold vsub freeLookAt vscale
  ext <;> simp <;> ring

theorem orientationUpdate_view (sin cos sqrt : ℝ → ℝ) (pos : Vec3 ℝ) (a : Spherical ℝ)
    (w : World ℝ) (r : LockState ℝ × Vec3 ℝ) :
    (orientationUpdate sin cos sqrt pos a w r).2
      = normalize sqrt (vsub (orientationUpdate sin cos sqrt pos a w r).1.g_CameraLookAt pos) := by
  unfold orientationUpdate
  split_ifs <;> rfl

end ViewVector

/-! ## The up-vector stabilization -/

section RotationAlgebra

variable {F : Type} [LinearOrderedField F]

/-- The row-vector product with the rotation matrix of an angle is the
column-vector product with the rotation matrix of the opposite angle. -/
theorem vecMulMat_rotationMatrix (c s : F) (n v : Vec3 F) :
    vecMulMat v (rotationMatrix c s n) = matMulVec (rotationMatrix c (-s) n) v := by
  simp only [vecMulMat, matMulVec, rotationMatrix, dotproduct]
  ext <;> simp <;> ring

/-- The row-vector product with a rotation matrix keeps dot products. -/
theorem vecMulMat_rotation_dot (c s : F) (n u v : Vec3 F) (hcs : c * c + s * s = 1)
    (hn : dotproduct n n = 1) :
    dotproduct (vecMulMat u (rotationMatrix c s n)) (vecMulMat v (rotationMatrix c s n))
      = dotproduct u v := by
  simp only [vecMulMat, rotationMatrix, dotproduct] at hn ⊢
  linear_combination
    ((u.x * v.x + u.y * v.y + u.z * v.z)
        - (n.x * u.x + n.y * u.y + n.z * u.z) * (n.x * v.x + n.y * v.y + n.z * v.z)) * hcs
    + (s * s * (u.x * v.x + u.y * v.y + u.z * v.z)
        + (1 - c) * (1 - c) * (n.x * u.x + n.y * u.y + n.z * u.z)
            * (n.x * v.x + n.y * v.y + n.z * v.z)) * hn

/-- The axis is fixed. -/
theorem vecMulMat_rotation_axis (c s : F) (n : Vec3 F) (hn : dotproduct n n = 1) :
    vecMulMat n (rotationMatrix c s n) = n := by
  simp only [vecMulMat, rotationMatrix, dotproduct] at hn ⊢
  ext
  · simp only; linear_combination ((1 - c) * n.x) * hn
  · simp only; linear_combination ((1 - c) * n.y) * hn
  · simp only; linear_combination ((1 - c) * n.z) * hn

/-- With the cosine `a · b`, the sine `k = |a × b|` and the axis `(a × b) / k`,
the row-vector product carries the unit vector `b` onto the unit vector `a`. -/
theorem vecMulMat_rotation_carry (a b : Vec3 F) (k : F) (hk : k ≠ 0)
    (hb : dotproduct b b = 1) :
    vecMulMat b (rotationMatrix (dotproduct a b) k (vscale (1 / k) (crossproduct a b))) = a := by
  simp only [vecMulMat, rotationMatrix, dotproduct, vscale, crossproduct] at hb ⊢
  ext
  · simp only
    field_simp
    linear_combination (a.x * k * k) * hb
  · simp only
    field_simp
    linear_combination (a.y * k * k) * hb
  · simp only
    field_simp
    linear_combination (a.z * k * k) * hb

/-- The identity of Lagrange for unit vectors. -/
theorem cross_norm_sq (a b : Vec3 F) (ha : dotproduct a a = 1) (hb : dotproduct b b = 1) :
    dotproduct (crossproduct a b) (crossproduct a b)
      = 1 - dotproduct a b * dotproduct a b := by
  simp only [dotproduct, crossproduct] at ha hb ⊢
  linear_combination (b.x * b.x + b.y * b.y + b.z * b.z) * ha + hb

end RotationAlgebra

section RotationReal

theorem dot_self_of_norm_one (v : Vec3 ℝ) (h : norm Real.sqrt v = 1) : dotproduct v v = 1 := by
  unfold norm at h
  unfold dotproduct
  have h0 : (0 : ℝ) ≤ v.x * v.x + v.y * v.y + v.z * v.z := by
    nlinarith [mul_self_nonneg v.x, mul_self_nonneg v.y, mul_self_nonneg v.z]
  have := Real.mul_self_sqrt h0
  rw [h] at this
  linarith

theorem norm_eq_sqrt_dot (v : Vec3 ℝ) : norm Real.sqrt v = Real.sqrt (dotproduct v v) := rfl

theorem normalize_of_norm_one (v : Vec3 ℝ) (h : norm Real.sqrt v = 1) :
    normalize Real.sqrt v = v := by
  unfold normalize
  rw [h]
  ext <;> simp

/-- The matrix of the up-vector stabilization for unit view vectors that are not
parallel: it is the rotation matrix with cosine `new · old`, sine `|new × old|`
and axis `(new × old) / |new × old|`. -/
theorem stabilization_matrix (old new : Vec3 ℝ) (hold : norm Real.sqrt old = 1)
    (hnew : norm Real.sqrt new = 1) (hpar : crossproduct new old ≠ ⟨0, 0, 0⟩) :
    Matrix_Rotate Real.sin Real.cos Real.sqrt
        (Real.arccos (dotproduct new old / (norm Real.sqrt new * norm Real.sqrt old)))
        (normalize Real.sqrt (crossproduct new old))
      = rotationMatrix (dotproduct new old) (norm Real.sqrt (crossproduct new old))
          (vscale (1 / norm Real.sqrt (crossproduct new old)) (crossproduct new old))
    ∧ 0 < norm Real.sqrt (crossproduct new old)
    ∧ dotproduct new old * dotproduct new old
        + norm Real.sqrt (crossproduct new old) * norm Real.sqrt (crossproduct new old) = 1
    ∧ dotproduct (vscale (1 / norm Real.sqrt (crossproduct new old)) (crossproduct new old))
        (vscale (1 / norm Real.sqrt (crossproduct new old)) (crossproduct new old)) = 1 := by
  have ha := dot_self_of_norm_one new hnew
  have hb := dot_self_of_norm_one old hold
  have hlag := cross_norm_sq new old ha hb
  have hk0 : norm Real.sqrt (crossproduct new old) ≠ 0 :=
    fun h0 => hpar ((norm_eq_zero_real _).mp h0)
  have hkpos : 0 < norm Real.sqrt (crossproduct new old) :=
    lt_of_le_of_ne (norm_nonneg_real _) (Ne.symm hk0)
  have hdot0 : 0 ≤ dotproduct (crossproduct new old) (crossproduct new old) := by
    unfold dotproduct
    nlinarith [mul_self_nonneg (crossproduct new old).x, mul_self_nonneg (crossproduct new old).y,
      mul_self_nonneg (crossproduct new old).z]
  have hksq : norm Real.sqrt (crossproduct new old) * norm Real.sqrt (crossproduct new old)
      = 1 - dotproduct new old * dotproduct new old := by
    rw [norm_eq_sqrt_dot, Real.mul_self_sqrt hdot0, hlag]
  have hc1 : dotproduct new old ≤ 1 := by nlinarith
  have hc2 : -1 ≤ dotproduct new old := by nlinarith
  have hcos : Real.cos (Real.arccos (dotproduct new old)) = dotproduct new old :=
    Real.cos_arccos hc2 hc1
  have hsin : Real.sin (Real.arccos (dotproduct new old))
      = norm Real.sqrt (crossproduct new old) := by
    rw [Real.sin_arccos]
    have : 1 - dotproduct new old ^ 2
        = norm Real.sqrt (crossproduct new old) * norm Real.sqrt (crossproduct new old) := by
      rw [hksq]; ring
    rw [this, Real.sqrt_mul_self hkpos.le]
  have hunit : norm Real.sqrt (normalize Real.sqrt (crossproduct new old)) = 1 :=
    norm_normalize_real _ hpar
  refine ⟨?_, hkpos, ?_, ?_⟩
  · unfold Matrix_Rotate
    rw [hnew, hold, mul_one, div_one, hcos, hsin, normalize_of_norm_one _ hunit,
      normalize_eq_vscale]
  · rw [hksq]; ring
  · have h1 := dot_self_of_norm_one _ hunit
    rw [normalize_eq_vscale] at h1
    exact h1

end RotationReal

section StabilizationClaims

theorem Matrix_Rotate_transpose (sqrt : ℝ → ℝ) (angle : ℝ) (axis v : Vec3 ℝ) :
    vecMulMat v (Matrix_Rotate Real.sin Real.cos sqrt angle axis)
      = matMulVec (Matrix_Rotate Real.sin Real.cos sqrt (-angle) axis) v := by
  unfold Matrix_Rotate
  rw [Real.sin_neg, Real.cos_neg]
  exact vecMulMat_rotationMatrix _ _ _ _

/-- The map `v ↦ v * Matrix_Rotate(rotationAngle, rotationAxis)` of the
stabilization for unit view vectors that are not parallel: it carries the old
view vector onto the new one, fixes the axis and keeps dot products. -/
theorem stabilization_rotation (old new : Vec3 ℝ) (hold : norm Real.sqrt old = 1)
    (hnew : norm Real.sqrt new = 1) (hpar : crossproduct new old ≠ ⟨0, 0, 0⟩) :
    vecMulMat old (Matrix_Rotate Real.sin Real.cos Real.sqrt
        (rotationAngle Real.arccos Real.sqrt old new) (rotationAxis Real.sqrt old new)) = new
    ∧ vecMulMat (rotationAxis Real.sqrt old new) (Matrix_Rotate Real.sin Real.cos Real.sqrt
        (rotationAngle Real.arccos Real.sqrt old new) (rotationAxis Real.sqrt old new))
        = rotationAxis Real.sqrt old new
    ∧ ∀ u v, dotproduct
          (vecMulMat u (Matrix_Rotate Real.sin Real.cos Real.sqrt
            (rotationAngle Real.arccos Real.sqrt old new) (rotationAxis Real.sqrt old new)))
          (vecMulMat v (Matrix_Rotate Real.sin Real.cos Real.sqrt
            (rotationAngle Real.arccos Real.sqrt old new) (rotationAxis Real.sqrt old new)))
        = dotproduct u v := by
  obtain ⟨hM, hk, hcs, hn⟩ := stabilization_matrix old new hold hnew hpar
  unfold rotationAngle rotationAxis
  rw [hM]
  refine ⟨?_, ?_, ?_⟩
  · exact vecMulMat_rotation_carry new old _ (ne_of_gt hk) (dot_self_of_norm_one old hold)
  · rw [normalize_eq_vscale]
    exact vecMulMat_rotation_axis _ _ _ hn
  · intro u v
    exact vecMulMat_rotation_dot _ _ _ u v hcs hn

theorem upVectorStabilization_of_notEqual (acos sin cos sqrt : ℝ → ℝ) (old : Vec3 ℝ)
    (cam : Camera ℝ) (h : notEqual old cam.g_CameraViewVector EPSILON) :
    upVectorStabilization acos sin cos sqrt old cam
      = { cam with
          g_CameraUpVector :=
            vecMulMat cam.g_CameraUpVector
              (Matrix_Rotate sin cos sqrt (rotationAngle acos sqrt old cam.g_CameraViewVector)
                (rotationAxis sqrt old cam.g_CameraViewVector)) } := by
  unfold upVectorStabilization
  rw [if_pos h]

theorem upVectorStabilization_of_close (acos sin cos sqrt : ℝ → ℝ) (old : Vec3 ℝ)
    (cam : Camera ℝ) (h : ¬ notEqual old cam.g_CameraViewVector EPSILON) :
    upVectorStabilization acos sin cos sqrt old cam = cam := by
  unfold upVectorStabilization
  rw [if_neg h]

theorem notEqual_self (v : Vec3 ℝ) : ¬ notEqual v v EPSILON := by
  unfold notEqual EPSILON
  norm_num

theorem nearZ_facts :
    norm Real.sqrt (nearZ : Vec3 ℝ) = 1
    ∧ (nearZ : Vec3 ℝ) ≠ ⟨0, 0, 1⟩
    ∧ crossproduct (nearZ : Vec3 ℝ) ⟨0, 0, 1⟩ ≠ ⟨0, 0, 0⟩
    ∧ ¬ notEqual (⟨0, 0, 1⟩ : Vec3 ℝ) nearZ EPSILON := by
  refine ⟨?_, ?_, ?_, ?_⟩
  · unfold norm nearZ
    have h : (2 * 10 ^ 13 / (10 ^ 26 + 1) * (2 * 10 ^ 13 / (10 ^ 26 + 1)) + 0 * 0
        + (10 ^ 26 - 1) / (10 ^ 26 + 1) * ((10 ^ 26 - 1) / (10 ^ 26 + 1)) : ℝ) = 1 := by
      norm_num
    rw [h, Real.sqrt_one]
  · intro h
    have hx := congrArg Vec3.x h
    norm_num [nearZ] at hx
  · intro h
    have hy := congrArg Vec3.y h
    norm_num [nearZ, crossproduct] at hy
  · unfold notEqual nearZ EPSILON
    simp only [not_or, not_lt, gt_iff_lt]
    refine ⟨?_, ?_, ?_⟩
    · rw [abs_le]; constructor <;> norm_num
    · rw [abs_le]; constructor <;> norm_num
    · rw [abs_le]; constructor <;> norm_num

end StabilizationClaims

end TrabFCG
